import Mathlib

set_option maxRecDepth 20000

/-!
Shallow embedding of the McClellan DFA compiler core
(src/src/nfa/mcclellancompile.cpp) and proofs about it.

Machine integers are modelled as `Nat`; the relevant source arithmetic never
overflows except where noted (and there the wrap is modelled explicitly).
Arrays written by loops are modelled as functions `Nat → α` updated pointwise,
mirroring the in-place stores of the source.  Fallible paths return `Option`
or an explicit outcome type.
-/

namespace McClellan

/-! ### Constants

Constants defined in `mcclellancompile.cpp` itself keep their source values.
Constants from headers that are not part of the four source files
(`mcclellan_internal.h`, `ue2common.h`, ...) are modelled from the spec and
marked as such. -/

/-- Modelled from the spec: number of plain input byte values (`N_CHARS`). -/
def N_CHARS : Nat := 256

/-- Modelled from the spec: index of the TOP trigger symbol in `alpha_remap`
(the special symbol past the 256 plain bytes). -/
def TOP : Nat := 256

/-- Modelled from the spec: `impl_alpha_size = alpha_size - N_SPECIAL_SYMBOL`,
the special symbols being the TOP trigger symbol. -/
def N_SPECIAL_SYMBOL : Nat := 1

/-- Modelled from the spec: the dead state is raw index 0. -/
def DEAD_STATE : Nat := 0

/-- Modelled from the spec (missing `mcclellan_internal.h`): ACCEPT_FLAG and
ACCEL_FLAG are the two topmost bits of a u16 successor; the remaining bits
form STATE_MASK. -/
def ACCEPT_FLAG : Nat := 0x8000

/-- Modelled from the spec: the second topmost bit of a u16 successor. -/
def ACCEL_FLAG : Nat := 0x4000

/-- Modelled from the spec: the low 14 bits of a u16 successor. -/
def STATE_MASK : Nat := 0x3fff

/-- Modelled from the spec: the "invalid sentinel" report-list index
(`MO_INVALID_IDX`, the all-ones u32). -/
def MO_INVALID_IDX : Nat := 0xffffffff

/-- Modelled from the spec: the Sherman record type tag byte. -/
def SHERMAN_STATE : Nat := 1

/-- From the source: compile time accel limit `ACCEL_MAX_STOP_CHAR`. -/
def ACCEL_MAX_STOP_CHAR : Nat := 160

/-- From the source: compile time accel limit `ACCEL_MAX_FLOATING_STOP_CHAR`. -/
def ACCEL_MAX_FLOATING_STOP_CHAR : Nat := 192

/-- From the source: `MAX_SHERMAN_LIST_LEN`. -/
def MAX_SHERMAN_LIST_LEN : Nat := 8

/-- From the source: `MAX_SHERMAN_SELF_LOOP`. -/
def MAX_SHERMAN_SELF_LOOP : Nat := 20

/-- Modelled from the spec (missing `nfa_internal.h`): a representative size
in bytes of the NFA header.  No claim depends on the exact value, only on
its positivity. -/
def sizeofNFA : Nat := 64

/-- Modelled from the spec (missing `mcclellan_internal.h`): a representative
size in bytes of the mcclellan header (`remap[256]` plus scalar fields). -/
def sizeofMcclellan : Nat := 384

/-- Modelled from the spec: an aux record `{accept, accept_eod, top,
accel_offset}` of four u32 fields. -/
def sizeofMstateAux : Nat := 16

/-- Modelled from the spec (missing `accel.h`): a representative size of the
`AccelAux` union. -/
def sizeofAccelAux : Nat := 64

/-- Modelled from the spec: size of the fixed `{count}` part of a
`report_list` record. -/
def sizeofReportList : Nat := 4

/-- Modelled from the spec: a report id is a u32. -/
def sizeofReportID : Nat := 4

/-- Modelled from the spec (missing `mcclellan_internal.h`):
`SHERMAN_FIXED_SIZE`, the byte size of one Sherman record slot. -/
def SHERMAN_FIXED_SIZE : Nat := 32

/-- `ROUNDUP_N` from the missing `ue2common.h`: round `x` up to a multiple
of `n`. -/
def roundUpN (x n : Nat) : Nat := ((x + n - 1) / n) * n

/-! ### Data model -/

/-- `dstate` from `mcclellancompile.h` (declared there; fields are read and
written by the source in this repository): successor table over the remapped
alphabet, report sets, daddy hint and assigned implementation index. -/
structure DState where
  next : List Nat
  reports : Finset Nat
  reports_eod : Finset Nat
  daddy : Nat
  impl_id : Nat
deriving DecidableEq

def defaultDState : DState := ⟨[], ∅, ∅, 0, 0⟩

/-- `raw_dfa`: the input automaton.  `alpha_remap` is the 257-entry remap
array modelled as a function; `generatesCallbacks` models the
`generates_callbacks(kind)` classification of the missing `nfa_kind`
machinery (spec: "kind: classifies whether the DFA emits runtime
callbacks"). -/
structure RawDFA where
  states : List DState
  alpha_size : Nat
  alpha_remap : Nat → Nat
  start_anchored : Nat
  start_floating : Nat
  generatesCallbacks : Bool

def RawDFA.getImplAlphaSize (raw : RawDFA) : Nat :=
  raw.alpha_size - N_SPECIAL_SYMBOL

def RawDFA.state (raw : RawDFA) (i : Nat) : DState :=
  raw.states.getD i defaultDState

def RawDFA.setState (raw : RawDFA) (i : Nat) (st : DState) : RawDFA :=
  { raw with states := raw.states.set i st }

/-- `dstate_extra`. -/
structure DStateExtra where
  daddytaken : Nat
  shermanState : Bool
  accelerable : Bool
deriving DecidableEq

def defaultExtra : DStateExtra := ⟨0, false, false⟩

/-- `dfa_info`: the raw DFA (aliased mutably, exactly as the source shares
`raw.states`) together with the per-state extra records. -/
structure DfaInfo where
  raw : RawDFA
  extra : List DStateExtra

def DfaInfo.size (info : DfaInfo) : Nat := info.raw.states.length

def DfaInfo.state (info : DfaInfo) (i : Nat) : DState := info.raw.state i

def DfaInfo.extraAt (info : DfaInfo) (i : Nat) : DStateExtra :=
  info.extra.getD i defaultExtra

def DfaInfo.implId (info : DfaInfo) (i : Nat) : Nat := (info.state i).impl_id

def DfaInfo.isSherman (info : DfaInfo) (i : Nat) : Bool :=
  (info.extraAt i).shermanState

def DfaInfo.isAccel (info : DfaInfo) (i : Nat) : Bool :=
  (info.extraAt i).accelerable

def DfaInfo.implAlphaSize (info : DfaInfo) : Nat := info.raw.getImplAlphaSize

def DfaInfo.setImpl (info : DfaInfo) (i v : Nat) : DfaInfo :=
  { info with raw := info.raw.setState i { info.raw.state i with impl_id := v } }

def DfaInfo.setDaddy (info : DfaInfo) (i v : Nat) : DfaInfo :=
  { info with raw := info.raw.setState i { info.raw.state i with daddy := v } }

def DfaInfo.setTaken (info : DfaInfo) (i v : Nat) : DfaInfo :=
  { info with extra := info.extra.set i { info.extra.getD i defaultExtra with daddytaken := v } }

def DfaInfo.setSherman (info : DfaInfo) (i : Nat) : DfaInfo :=
  { info with extra := info.extra.set i { info.extra.getD i defaultExtra with shermanState := true } }

def DfaInfo.setAccel (info : DfaInfo) (i : Nat) : DfaInfo :=
  { info with extra := info.extra.set i { info.extra.getD i defaultExtra with accelerable := true } }

/-- `dfa_info::getAlphaShift`: 1 for a trivial alphabet, else the number of
bits of `impl_alpha_size - 1` (the source computes `32 - clz32(x)`, i.e. the
least `k` with `x < 2^k`). -/
def DfaInfo.getAlphaShift (info : DfaInfo) : Nat :=
  if info.implAlphaSize < 2 then 1
  else (((List.range 32).filter fun k => decide (info.implAlphaSize - 1 < 2 ^ k)).headD 32)

/-! ### SDS proxy and acceleration eligibility -/

/-- `has_self_loop`. -/
def has_self_loop (s : Nat) (raw : RawDFA) : Bool :=
  let top_remap := raw.alpha_remap TOP
  (List.range (raw.state s).next.length).any fun i =>
    decide (i ≠ top_remap ∧ (raw.state s).next.getD i 0 = s)

/-- The body of `get_sds_or_proxy`'s `while (true)` loop, with explicit fuel.
`none` means the fuel ran out (shown unreachable for well-formed DFAs). -/
def sdsLoop (raw : RawDFA) : Nat → Nat → List Nat → Option Nat
  | 0, _, _ => none
  | fuel + 1, s, seen =>
    let top_remap := raw.alpha_remap TOP
    let seen1 := s :: seen
    let nexts := (raw.state s).next
    match (List.range nexts.length).find? (fun i =>
        decide (i ≠ top_remap ∧ nexts.getD i 0 ≠ DEAD_STATE ∧
                has_self_loop (nexts.getD i 0) raw = true)) with
    | some i => some (nexts.getD i 0)
    | none =>
      match (List.range nexts.length).find? (fun i =>
          decide (i ≠ top_remap ∧ nexts.getD i 0 ≠ DEAD_STATE ∧
                  ¬ (nexts.getD i 0) ∈ seen1)) with
      | some i => sdsLoop raw fuel (nexts.getD i 0) ((nexts.getD i 0) :: seen1)
      | none => some DEAD_STATE

/-- `get_sds_or_proxy`.  The fuel `states.length + 1` bounds the unbounded
source loop; termination within this fuel is proved for well-formed DFAs. -/
def get_sds_or_proxy (raw : RawDFA) : Option Nat :=
  if raw.start_floating ≠ DEAD_STATE then some raw.start_floating
  else if has_self_loop raw.start_anchored raw then some raw.start_anchored
  else sdsLoop raw (raw.states.length + 1) raw.start_anchored []

/-- `is_accel`: acceleration eligibility for one state. -/
def is_accel (raw : RawDFA) (sds_or_proxy this_idx : Nat) : Bool :=
  if this_idx = 0 then false
  else if raw.generatesCallbacks ∧ (raw.state this_idx).reports ≠ ∅ then false
  else
    let single_limit := if this_idx = sds_or_proxy then ACCEL_MAX_FLOATING_STOP_CHAR
                        else ACCEL_MAX_STOP_CHAR
    let outs := (List.range N_CHARS).countP fun c =>
      decide ((raw.state this_idx).next.getD (raw.alpha_remap c) 0 ≠ this_idx)
    decide (outs ≤ single_limit)

/-- `populateAccelerationInfo`: returns the updated info and the accelerable
state count.  The SDS proxy uses `DEAD_STATE` on fuel exhaustion, which is
unreachable for well-formed DFAs (see the termination theorem). -/
def populateAccelerationInfo (info : DfaInfo) (accelerateDFA : Bool) : DfaInfo × Nat :=
  if accelerateDFA = false then (info, 0)
  else
    let sds := (get_sds_or_proxy info.raw).getD DEAD_STATE
    (List.range info.size).foldl
      (fun p i => if is_accel p.1.raw sds i then (p.1.setAccel i, p.2 + 1) else p)
      (info, 0)

/-! ### Sherman selection (`find_better_daddy`) -/

/-- `Grey` feature toggles (from the missing `grey.h`, fields as used by this
source file). -/
structure Grey where
  accelerateDFA : Bool
  allowShermanStates : Bool
  allowMcClellan8 : Bool

structure CompileContext where
  grey : Grey
  streaming : Bool

/-- Ordered-set insertion into a sorted duplicate-free list: the model of
`std::set<dstate_id_t>::insert` (iteration order of the source's `hinted`
set is ascending). -/
def setInsert (x : Nat) : List Nat → List Nat
  | [] => [x]
  | y :: ys => if x < y then x :: y :: ys else if x = y then y :: ys else y :: setInsert x ys

/-- `addIfEarlier`. -/
def addIfEarlier (dest : List Nat) (candidate mx : Nat) : List Nat :=
  if candidate < mx then setInsert candidate dest else dest

/-- `addSuccessors`. -/
def addSuccessors (dest : List Nat) (source : DState) (alphasize curr_id : Nat) :
    List Nat :=
  (List.range alphasize).foldl (fun d s => addIfEarlier d (source.next.getD s 0) curr_id) dest

/-- The `hinted` candidate set built by `find_better_daddy`. -/
def hintedFor (info : DfaInfo) (curr_id : Nat) : List Nat :=
  let alphasize := info.implAlphaSize
  let h0 := addIfEarlier [] 0 curr_id
  let h1 := addIfEarlier h0 info.raw.start_anchored curr_id
  let h2 := addIfEarlier h1 info.raw.start_floating curr_id
  let mydaddy := (info.state curr_id).daddy
  if mydaddy ≠ 0 then
    let h3 := addIfEarlier h2 mydaddy curr_id
    let h4 := addSuccessors h3 (info.state mydaddy) alphasize curr_id
    let mygranddaddy := (info.state mydaddy).daddy
    if mygranddaddy ≠ 0 then
      addSuccessors (addIfEarlier h4 mygranddaddy curr_id) (info.state mygranddaddy)
        alphasize curr_id
    else h4
  else h2

/-- Number of symbols on which `curr`'s and `donor`'s rows agree (the score
loop of `find_better_daddy`). -/
def scoreOf (info : DfaInfo) (curr donor : Nat) : Nat :=
  (List.range info.implAlphaSize).countP fun s =>
    decide ((info.state curr).next.getD s 0 = (info.state donor).next.getD s 0)

/-- The donor scan of `find_better_daddy` over the sorted hinted set,
including the `score == alphasize` early break. -/
def daddySearch (info : DfaInfo) (curr alphasize : Nat) :
    List Nat → Nat × Nat → Nat × Nat
  | [], acc => acc
  | donor :: rest, (bd, bs) =>
    if (info.extraAt donor).shermanState then daddySearch info curr alphasize rest (bd, bs)
    else
      let score := scoreOf info curr donor
      if score > bs ∨ (score = bs ∧ donor < bd) then
        if score = alphasize then (donor, score)
        else daddySearch info curr alphasize rest (donor, score)
      else daddySearch info curr alphasize rest (bd, bs)

/-- `max_list_len` of `find_better_daddy`.  C integer promotion makes
`(full_state_size - 2) / (width + 1)` an `int` division whose value is 0
whenever `full_state_size < 2`; truncated `Nat` subtraction gives the same
result. -/
def maxShermanListLen (width alphasize : Nat) : Nat :=
  min MAX_SHERMAN_LIST_LEN ((width * alphasize - 2) / (width + 1))

/-- `find_better_daddy`. -/
def find_better_daddy (info : DfaInfo) (curr_id : Nat) (using8bit : Bool)
    (any_cyclic_near_anchored_state : Bool) (grey : Grey) : DfaInfo :=
  if grey.allowShermanStates = false then info
  else
    let width := if using8bit then 1 else 2
    let alphasize := info.implAlphaSize
    if info.raw.start_anchored ≠ DEAD_STATE ∧ any_cyclic_near_anchored_state = true ∧
        curr_id < alphasize * 3 then info
    else if info.raw.start_floating ≠ DEAD_STATE ∧ info.raw.start_floating ≤ curr_id ∧
        curr_id < info.raw.start_floating + alphasize * 3 then info
    else
      let max_list_len := maxShermanListLen width alphasize
      let hinted := hintedFor info curr_id
      let bdbs := daddySearch info curr_id alphasize hinted (0, 0)
      let best_daddy := bdbs.1
      let best_score := bdbs.2
      let info1 := (info.setDaddy curr_id best_daddy).setTaken curr_id best_score
      if best_score + max_list_len < alphasize then info1
      else if (info1.extraAt ((info1.state curr_id).daddy)).shermanState then info1
      else
        let self_loop_width := (List.range N_CHARS).countP fun c =>
          decide ((info1.state curr_id).next.getD (info1.raw.alpha_remap c) 0 = curr_id)
        if self_loop_width > MAX_SHERMAN_SELF_LOOP then info1
        else info1.setSherman curr_id

/-- The per-transition byte width chosen by `find_better_daddy`. -/
def fbdWidth (u8 : Bool) : Nat := if u8 then 1 else 2

/-- The `(best_daddy, best_score)` pair computed by `find_better_daddy`. -/
def fbdSearch (info : DfaInfo) (curr_id : Nat) : Nat × Nat :=
  daddySearch info curr_id info.implAlphaSize (hintedFor info curr_id) (0, 0)

/-- The info after `find_better_daddy` records `daddy` and `daddytaken`. -/
def fbdInfo1 (info : DfaInfo) (curr_id : Nat) : DfaInfo :=
  (info.setDaddy curr_id (fbdSearch info curr_id).1).setTaken curr_id
    (fbdSearch info curr_id).2

/-- The 256-byte self-loop width computed by `find_better_daddy`. -/
def fbdSelfLoopW (info : DfaInfo) (curr_id : Nat) : Nat :=
  (List.range N_CHARS).countP fun c =>
    decide (((fbdInfo1 info curr_id).state curr_id).next.getD
      ((fbdInfo1 info curr_id).raw.alpha_remap c) 0 = curr_id)

/-! ### Report gathering -/

structure GatherResult where
  rl : List (Finset Nat)
  reports : List Nat
  reports_eod : List Nat
  single : Bool
  arb : Nat

/-- One pass of `gatherReports` over per-state report sets: deduplicate into
`rl` (the `rev` map keyed by set contents) and record per-state indices. -/
def gatherPass (rl : List (Finset Nat)) (acc : List Nat) :
    List (Finset Nat) → List (Finset Nat) × List Nat
  | [] => (rl, acc)
  | s :: ss =>
    if s = ∅ then gatherPass rl (acc ++ [MO_INVALID_IDX]) ss
    else
      match rl.findIdx? (fun t => t == s) with
      | some k => gatherPass rl (acc ++ [k]) ss
      | none => gatherPass (rl ++ [s]) (acc ++ [rl.length]) ss

/-- The `reps` union computed at the end of `gatherReports`: union of the
report lists referenced by the non-sentinel indices. -/
def unionIdx (rl : List (Finset Nat)) (init : Finset Nat) (idxs : List Nat) : Finset Nat :=
  idxs.foldl (fun a i => if i = MO_INVALID_IDX then a else a ∪ rl.getD i ∅) init

/-- `mcclellan_build_strat::gatherReports`. -/
def gatherReports (states : List DState) : GatherResult :=
  let p1 := gatherPass [] [] (states.map fun s => s.reports)
  let p2 := gatherPass p1.1 [] (states.map fun s => s.reports_eod)
  let rl := p2.1
  let arb0 := match rl with
    | [] => 0
    | r :: _ => WithTop.untop' 0 r.min
  let reps := unionIdx rl ∅ p1.2
  if reps.card = 1 then
    { rl := rl, reports := p1.2, reports_eod := p2.2, single := true,
      arb := WithTop.untop' 0 reps.min }
  else
    { rl := rl, reports := p1.2, reports_eod := p2.2, single := false, arb := arb0 }

/-- `raw_report_info_impl::getReportListSize`. -/
def reportListSize (rl : List (Finset Nat)) : Nat :=
  rl.foldl (fun acc r => acc + sizeofReportList + sizeofReportID * r.card) 0

/-- `raw_report_info_impl::fillReportLists`: the per-entry offsets, starting
at `base_offset`. -/
def fillReportLists (rl : List (Finset Nat)) (base : Nat) : List Nat :=
  (rl.foldl (fun (p : List Nat × Nat) r =>
    (p.1 ++ [p.2], p.2 + sizeofReportList + sizeofReportID * r.card)) ([], base)).1

/-! ### Aux records and state number allocation -/

/-- `mstate_aux`. -/
structure MStateAux where
  accept : Nat
  accept_eod : Nat
  top : Nat
  accel_offset : Nat
deriving DecidableEq

def defaultAux : MStateAux := ⟨0, 0, 0, 0⟩

/-- `fillInAux`: the three fields written for state `i`; `accel_offset` is
whatever the record already held. -/
def fillInAux (info : DfaInfo) (i : Nat) (reports reports_eod reportOffsets : List Nat)
    (prev : MStateAux) : MStateAux :=
  { accept := if (info.state i).reports = ∅ then 0
              else reportOffsets.getD (reports.getD i 0) 0,
    accept_eod := if (info.state i).reports_eod = ∅ then 0
                  else reportOffsets.getD (reports_eod.getD i 0) 0,
    top := info.implId (if i = 0 then info.raw.start_floating
                        else (info.state i).next.getD (info.raw.alpha_remap TOP) 0),
    accel_offset := prev.accel_offset }

/-- Consecutive implementation-id assignment over a worklist (the
`for (s : norm) impl_id = next++` loops). -/
def assignFold (p : DfaInfo × Nat) (l : List Nat) : DfaInfo × Nat :=
  l.foldl (fun q s => (q.1.setImpl s q.2, q.2 + 1)) p

/-- `allocateFSN16`: returns the updated info, `sherman_base` and a success
flag (the source returns non-zero on error). -/
def allocateFSN16 (info : DfaInfo) : DfaInfo × Nat × Bool :=
  let info0 := info.setImpl 0 0
  if 1 <<< 16 < info0.size then (info0, 0, false)
  else
    let norm := (List.range info0.size).filter fun i =>
      decide (1 ≤ i) && ! info0.isSherman i
    let sherm := (List.range info0.size).filter fun i =>
      decide (1 ≤ i) && info0.isSherman i
    let p1 := assignFold (info0, 1) norm
    let sherman_base := p1.2
    let p2 := assignFold (p1.1, sherman_base) sherm
    if (p2.2 - 1) &&& STATE_MASK ≠ p2.2 - 1 then (p2.1, sherman_base, false)
    else (p2.1, sherman_base, true)

/-- `allocateFSN8`: three-zone allocation; returns info, `accel_limit` and
`accept_limit`. -/
def allocateFSN8 (info : DfaInfo) : DfaInfo × Nat × Nat :=
  let info0 := info.setImpl 0 0
  let norm := (List.range info0.size).filter fun i =>
    decide (1 ≤ i) && ! decide ((info0.state i).reports ≠ ∅) && ! info0.isAccel i
  let accel := (List.range info0.size).filter fun i =>
    decide (1 ≤ i) && ! decide ((info0.state i).reports ≠ ∅) && info0.isAccel i
  let accept := (List.range info0.size).filter fun i =>
    decide (1 ≤ i) && decide ((info0.state i).reports ≠ ∅)
  let p1 := assignFold (info0, 1) norm
  let accel_limit := p1.2
  let p2 := assignFold (p1.1, accel_limit) accel
  let accept_limit := p2.2
  let p3 := assignFold (p2.1, accept_limit) accept
  (p3.1, accel_limit, accept_limit)

/-! ### Image assembly -/

/-- A Sherman record: type tag, list length `L`, daddy impl id, `L` override
symbols and `L` override successors. -/
structure ShermanRec where
  typeTag : Nat
  len : Nat
  daddy : Nat
  chars : List Nat
  succs : List Nat

def defaultShermanRec : ShermanRec := ⟨0, 0, 0, [], []⟩

/-- The 16-bit image, structurally: packed transition table, aux records and
Sherman records are functions indexed exactly as the byte image is. -/
structure Image16 where
  alphaShift : Nat
  remap : Nat → Nat
  state_count : Nat
  sherman_limit : Nat
  tbl : Nat → Nat
  aux : Nat → MStateAux
  sherms : Nat → ShermanRec
  start_anchored : Nat
  start_floating : Nat
  arb_report : Nat
  single : Bool
  has_accel : Bool
  accepts_eod : Bool
  total_size : Nat

/-- The 8-bit image. -/
structure Image8 where
  alphaShift : Nat
  remap : Nat → Nat
  state_count : Nat
  accel_limit_8 : Nat
  accept_limit_8 : Nat
  tbl : Nat → Nat
  aux : Nat → MStateAux
  start_anchored : Nat
  start_floating : Nat
  arb_report : Nat
  single : Bool
  has_accel : Bool
  accepts_eod : Bool
  total_size : Nat

/-- A row write `succ_table[(fs << shift) + j] = g j` for `j < n`. -/
def writeRow (f : Nat → Nat) (base : Nat) (g : Nat → Nat) (n : Nat) : Nat → Nat :=
  (List.range n).foldl (fun acc j => fun a => if a = base + j then g j else acc a) f

def auxWrite (f : Nat → MStateAux) (k : Nat) (v : MStateAux) : Nat → MStateAux :=
  fun x => if x = k then v else f x

def auxSetAccel (f : Nat → MStateAux) (k off : Nat) : Nat → MStateAux :=
  fun x => if x = k then { f x with accel_offset := off } else f x

/-- Working state of the 16-bit assembly loops. -/
structure Asm16 where
  tbl : Nat → Nat
  aux : Nat → MStateAux
  cursor : Nat
  sherms : Nat → ShermanRec

/-- One iteration of the "do normal states" loop of `mcclellanCompile16`. -/
def normalStep16 (info : DfaInfo) (reports reports_eod reportOffsets : List Nat)
    (shift : Nat) (a : Asm16) (i : Nat) : Asm16 :=
  if info.isSherman i then a
  else
    let fs := info.implId i
    let tbl1 := writeRow a.tbl (fs <<< shift)
      (fun j => info.implId ((info.state i).next.getD j 0)) info.implAlphaSize
    let aux1 := auxWrite a.aux fs
      (fillInAux info i reports reports_eod reportOffsets (a.aux fs))
    if info.isAccel i then
      { tbl := tbl1, aux := auxSetAccel aux1 fs a.cursor,
        cursor := a.cursor + sizeofAccelAux, sherms := a.sherms }
    else
      { tbl := tbl1, aux := aux1, cursor := a.cursor, sherms := a.sherms }

/-- One iteration of the "do sherman states" loop of `mcclellanCompile16`. -/
def shermanStep16 (info : DfaInfo) (reports reports_eod reportOffsets : List Nat)
    (sherman_limit : Nat) (a : Asm16) (i : Nat) : Asm16 :=
  if ! info.isSherman i then a
  else
    let fs := info.implId i
    let aux1 := auxWrite a.aux fs
      (fillInAux info i reports reports_eod reportOffsets (a.aux fs))
    let aux2 := if info.isAccel i then auxSetAccel aux1 fs a.cursor else aux1
    let cursor1 := if info.isAccel i then a.cursor + sizeofAccelAux else a.cursor
    let alphasize := info.implAlphaSize
    let len := alphasize - (info.extraAt i).daddytaken
    let d := (info.state i).daddy
    let rec0 : ShermanRec :=
      { typeTag := SHERMAN_STATE, len := len, daddy := info.implId d,
        chars := (List.range alphasize).filter fun s =>
          decide ((info.state i).next.getD s 0 ≠ (info.state d).next.getD s 0),
        succs := ((List.range alphasize).filter fun s =>
          decide ((info.state i).next.getD s 0 ≠ (info.state d).next.getD s 0)).map
            fun s => info.implId ((info.state i).next.getD s 0) }
    { tbl := a.tbl, aux := aux2, cursor := cursor1,
      sherms := fun k => if k = fs - sherman_limit then rec0 else a.sherms k }

/-- The Sherman record `shermanStep16` writes for state `i` (its `rec0`). -/
def shermanRec0 (info : DfaInfo) (i : Nat) : ShermanRec :=
  { typeTag := SHERMAN_STATE,
    len := info.implAlphaSize - (info.extraAt i).daddytaken,
    daddy := info.implId ((info.state i).daddy),
    chars := (List.range info.implAlphaSize).filter fun s =>
      decide ((info.state i).next.getD s 0 ≠
        (info.state ((info.state i).daddy)).next.getD s 0),
    succs := ((List.range info.implAlphaSize).filter fun s =>
      decide ((info.state i).next.getD s 0 ≠
        (info.state ((info.state i).daddy)).next.getD s 0)).map
        fun s => info.implId ((info.state i).next.getD s 0) }

/-- `markEdges` on the normal transition rows (rows `< sherman_limit`,
columns `< impl_alpha_size`), OR-ing ACCEPT/ACCEL flags read off the target
aux record. -/
def flagSucc (aux : Nat → MStateAux) (v : Nat) : Nat :=
  let v1 := if (aux v).accept ≠ 0 then v ||| ACCEPT_FLAG else v
  if (aux v).accel_offset ≠ 0 then v1 ||| ACCEL_FLAG else v1

def markEdgesTbl (aux : Nat → MStateAux) (shift alphaSize sherman_limit : Nat)
    (tbl : Nat → Nat) : Nat → Nat :=
  fun p => if p / 2 ^ shift < sherman_limit ∧ p % 2 ^ shift < alphaSize
           then flagSucc aux (tbl p) else tbl p

/-- `markEdges` on the Sherman override successor lists (the first `len`
entries of each record). -/
def markEdgesSherms (aux : Nat → MStateAux) (sherman_limit state_count : Nat)
    (sherms : Nat → ShermanRec) : Nat → ShermanRec :=
  fun k => if sherman_limit + k < state_count then
    { sherms k with
      succs := ((sherms k).succs.take (sherms k).len).map (flagSucc aux) ++
               (sherms k).succs.drop (sherms k).len }
  else sherms k

/-- `mcclellanCompile16`: `none` on state-number allocation failure.  Also
returns the mutated info (the source mutates the shared raw DFA). -/
def mcclellanCompile16 (info : DfaInfo) (cc : CompileContext) :
    Option Image16 × DfaInfo :=
  let shift := info.getAlphaShift
  let p := allocateFSN16 info
  let info1 := p.1
  let count_real_states := p.2.1
  if p.2.2 = false then (none, info1)
  else
    let g := gatherReports info1.raw.states
    let q := populateAccelerationInfo info1 cc.grey.accelerateDFA
    let info2 := q.1
    let accelCount := q.2
    let tran_size := (1 <<< shift) * 2 * count_real_states
    let aux_size := sizeofMstateAux * info2.size
    let aux_offset := roundUpN (sizeofNFA + sizeofMcclellan + tran_size) 16
    let accel_size := sizeofAccelAux * accelCount
    let accel_offset0 := roundUpN (aux_offset + aux_size + reportListSize g.rl) 32
    let sherman_offset := roundUpN (accel_offset0 + accel_size) 16
    let sherman_size := roundUpN (SHERMAN_FIXED_SIZE *
      ((List.range info2.size).countP fun i => info2.isSherman i)) 16
    let total_size := sherman_offset + sherman_size
    let accel_offset := accel_offset0 - sizeofNFA
    let reportOffsets := fillReportLists g.rl (aux_offset + aux_size)
    let asm0 : Asm16 := ⟨fun _ => 0, fun _ => defaultAux, accel_offset, fun _ => defaultShermanRec⟩
    let asm1 := (List.range info2.size).foldl
      (normalStep16 info2 g.reports g.reports_eod reportOffsets shift) asm0
    let asm2 := (List.range info2.size).foldl
      (shermanStep16 info2 g.reports g.reports_eod reportOffsets count_real_states) asm1
    let tblM := markEdgesTbl asm2.aux shift info2.implAlphaSize count_real_states asm2.tbl
    let shermsM := markEdgesSherms asm2.aux count_real_states info2.size asm2.sherms
    (some
      { alphaShift := shift, remap := info2.raw.alpha_remap,
        state_count := info2.size, sherman_limit := count_real_states,
        tbl := tblM, aux := asm2.aux, sherms := shermsM,
        start_anchored := info2.implId info2.raw.start_anchored,
        start_floating := info2.implId info2.raw.start_floating,
        arb_report := g.arb, single := g.single,
        has_accel := accelCount ≠ 0, accepts_eod := false,
        total_size := total_size }, info2)

/-- `fillInBasicState8`: row write plus the aux fields for state `i`
(`accel_offset` untouched). -/
def fillInBasicState8 (info : DfaInfo) (reports reports_eod reportOffsets : List Nat)
    (shift : Nat) (tbl : Nat → Nat) (aux : Nat → MStateAux) (i : Nat) :
    (Nat → Nat) × (Nat → MStateAux) :=
  let j := info.implId i
  let tbl1 := writeRow tbl (j <<< shift)
    (fun s => info.implId ((info.state i).next.getD s 0)) info.implAlphaSize
  let aux1 := auxWrite aux j (fillInAux info i reports reports_eod reportOffsets (aux j))
  (tbl1, aux1)

/-- Working state of the 8-bit assembly loop. -/
structure Asm8 where
  tbl : Nat → Nat
  aux : Nat → MStateAux
  cursor : Nat

/-- One iteration of the state loop of `mcclellanCompile8`: accel offset
write first, then `fillInBasicState8`. -/
def basicStep8 (info : DfaInfo) (reports reports_eod reportOffsets : List Nat)
    (shift : Nat) (a : Asm8) (i : Nat) : Asm8 :=
  let j := info.implId i
  let aux1 := if info.isAccel i then auxSetAccel a.aux j a.cursor else a.aux
  let cursor1 := if info.isAccel i then a.cursor + sizeofAccelAux else a.cursor
  let p := fillInBasicState8 info reports reports_eod reportOffsets shift a.tbl aux1 i
  ⟨p.1, p.2, cursor1⟩

/-- `mcclellanCompile8` (never fails). -/
def mcclellanCompile8 (info : DfaInfo) (cc : CompileContext) : Image8 × DfaInfo :=
  let shift := info.getAlphaShift
  let g := gatherReports info.raw.states
  let q := populateAccelerationInfo info cc.grey.accelerateDFA
  let info1 := q.1
  let accelCount := q.2
  let tran_size := (1 <<< shift) * info1.size
  let aux_size := sizeofMstateAux * info1.size
  let aux_offset := roundUpN (sizeofNFA + sizeofMcclellan + tran_size) 16
  let accel_size := sizeofAccelAux * accelCount
  let accel_offset0 := roundUpN (aux_offset + aux_size + reportListSize g.rl) 32
  let total_size := accel_offset0 + accel_size
  let accel_offset := accel_offset0 - sizeofNFA
  let p8 := allocateFSN8 info1
  let info2 := p8.1
  let reportOffsets := fillReportLists g.rl (aux_offset + aux_size)
  let asm0 : Asm8 := ⟨fun _ => 0, fun _ => defaultAux, accel_offset⟩
  let asm1 := (List.range info2.size).foldl
    (basicStep8 info2 g.reports g.reports_eod reportOffsets shift) asm0
  ({ alphaShift := shift, remap := info2.raw.alpha_remap,
     state_count := info2.size, accel_limit_8 := p8.2.1, accept_limit_8 := p8.2.2,
     tbl := asm1.tbl, aux := asm1.aux,
     start_anchored := info2.implId info2.raw.start_anchored,
     start_floating := info2.implId info2.raw.start_floating,
     arb_report := g.arb, single := g.single,
     has_accel := accelCount ≠ 0, accepts_eod := false,
     total_size := total_size }, info2)

/-! ### Public entry -/

/-- `raw_dfa::stripExtraEodReports`. -/
def stripExtraEodReports (raw : RawDFA) : RawDFA :=
  { raw with states := raw.states.map fun ds =>
      { ds with reports_eod := ds.reports_eod \ ds.reports } }

/-- `raw_dfa::hasEodReports`. -/
def hasEodReports (raw : RawDFA) : Bool :=
  raw.states.any fun ds => decide (ds.reports_eod ≠ ∅)

/-- `is_cyclic_near`. -/
def is_cyclic_near (raw : RawDFA) (root : Nat) : Bool :=
  let alphasize := raw.getImplAlphaSize
  (List.range alphasize).any fun s =>
    let succ_id := (raw.state root).next.getD s 0
    decide (succ_id ≠ DEAD_STATE) &&
      ((List.range alphasize).any fun t =>
        decide ((raw.state succ_id).next.getD t 0 = root ∨
                (raw.state succ_id).next.getD t 0 = succ_id))

/-- Outcome of `mcclellanCompile_i`.  `nullDeref` records the undefined
behaviour of executing `nfa->flags |= NFA_ACCEPTS_EOD` on a null handle. -/
inductive CompileOutcome where
  | img16 (img : Image16)
  | img8 (img : Image8)
  | nullHandle
  | nullDeref

/-- `mcclellanCompile_i`: the public entry.  Also returns the mutated raw
DFA (the source writes `impl_id` and `daddy` back and may strip EOD
reports). -/
def mcclellanCompile_i (raw : RawDFA) (cc : CompileContext) :
    CompileOutcome × RawDFA :=
  let raw1 := if cc.streaming then raw else stripExtraEodReports raw
  let info0 : DfaInfo := ⟨raw1, List.replicate raw1.states.length defaultExtra⟩
  let using8bit := cc.grey.allowMcClellan8 && decide (info0.size ≤ 256)
  let has_eod_reports := hasEodReports raw1
  let any_cyclic_near_anchored_state := is_cyclic_near raw1 raw1.start_anchored
  let info1 := (List.range info0.size).foldl
    (fun inf i => find_better_daddy inf i using8bit any_cyclic_near_anchored_state cc.grey)
    info0
  if using8bit = false then
    let r := mcclellanCompile16 info1 cc
    match r.1 with
    | none => (if has_eod_reports then (CompileOutcome.nullDeref, r.2.raw)
               else (CompileOutcome.nullHandle, r.2.raw))
    | some img =>
      (CompileOutcome.img16 { img with accepts_eod := has_eod_reports }, r.2.raw)
  else
    let r := mcclellanCompile8 info1 cc
    (CompileOutcome.img8 { r.1 with accepts_eod := has_eod_reports }, r.2.raw)

/-- The `norm` worklist built by `allocateFSN16` (after `impl_id[0] = 0`). -/
def norm16 (info : DfaInfo) : List Nat :=
  (List.range (info.setImpl 0 0).size).filter fun i =>
    decide (1 ≤ i) && ! (info.setImpl 0 0).isSherman i

/-- The `sherm` worklist built by `allocateFSN16`. -/
def sherm16 (info : DfaInfo) : List Nat :=
  (List.range (info.setImpl 0 0).size).filter fun i =>
    decide (1 ≤ i) && (info.setImpl 0 0).isSherman i

/-- The `norm` worklist built by `allocateFSN8`. -/
def normL8 (info : DfaInfo) : List Nat :=
  (List.range (info.setImpl 0 0).size).filter fun i =>
    decide (1 ≤ i) && ! decide (((info.setImpl 0 0).state i).reports ≠ ∅) &&
      ! (info.setImpl 0 0).isAccel i

/-- The `accel` worklist built by `allocateFSN8`. -/
def accelL8 (info : DfaInfo) : List Nat :=
  (List.range (info.setImpl 0 0).size).filter fun i =>
    decide (1 ≤ i) && ! decide (((info.setImpl 0 0).state i).reports ≠ ∅) &&
      (info.setImpl 0 0).isAccel i

/-- The `accept` worklist built by `allocateFSN8`. -/
def acceptL8 (info : DfaInfo) : List Nat :=
  (List.range (info.setImpl 0 0).size).filter fun i =>
    decide (1 ≤ i) && decide (((info.setImpl 0 0).state i).reports ≠ ∅)

/-- Invariant established by the `find_better_daddy` pass: every Sherman
state has an earlier, non-Sherman daddy, and `daddytaken` is the number of
symbols its row shares with that daddy's row. -/
def ShermanOK (info : DfaInfo) : Prop :=
  ∀ s, info.isSherman s = true →
    (info.state s).daddy < s ∧
    info.isSherman ((info.state s).daddy) = false ∧
    (info.extraAt s).daddytaken = scoreOf info s ((info.state s).daddy)

/-! ### The pipeline stages of the public entry, named -/

/-- The raw DFA after the conditional EOD-report strip at the top of
`mcclellanCompile_i`. -/
def rawStrip (raw : RawDFA) (cc : CompileContext) : RawDFA :=
  if cc.streaming then raw else stripExtraEodReports raw

/-- The fresh `dfa_info` built by `mcclellanCompile_i`. -/
def info0Of (raw : RawDFA) (cc : CompileContext) : DfaInfo :=
  ⟨rawStrip raw cc, List.replicate (rawStrip raw cc).states.length defaultExtra⟩

/-- The `using8bit` selector of `mcclellanCompile_i`. -/
def using8 (raw : RawDFA) (cc : CompileContext) : Bool :=
  cc.grey.allowMcClellan8 && decide ((info0Of raw cc).size ≤ 256)

/-- The `any_cyclic_near_anchored_state` input of the daddy pass. -/
def cycNear (raw : RawDFA) (cc : CompileContext) : Bool :=
  is_cyclic_near (rawStrip raw cc) (rawStrip raw cc).start_anchored

/-- The info after the `find_better_daddy` pass of `mcclellanCompile_i`. -/
def info1Of (raw : RawDFA) (cc : CompileContext) : DfaInfo :=
  (List.range (info0Of raw cc).size).foldl
    (fun inf i => find_better_daddy inf i (using8 raw cc) (cycNear raw cc) cc.grey)
    (info0Of raw cc)

/-! ### The stages of the two assemblers, named -/

/-- The info mutated by `allocateFSN16`. -/
def c16info1 (info : DfaInfo) : DfaInfo := (allocateFSN16 info).1

/-- `sherman_base` (also `count_real_states`) of `allocateFSN16`. -/
def c16base (info : DfaInfo) : Nat := (allocateFSN16 info).2.1

/-- The gathered report tables of `mcclellanCompile16`. -/
def c16g (info : DfaInfo) : GatherResult := gatherReports (c16info1 info).raw.states

/-- The info after `populateAccelerationInfo` inside `mcclellanCompile16`. -/
def c16info2 (info : DfaInfo) (cc : CompileContext) : DfaInfo :=
  (populateAccelerationInfo (c16info1 info) cc.grey.accelerateDFA).1

def c16accelCount (info : DfaInfo) (cc : CompileContext) : Nat :=
  (populateAccelerationInfo (c16info1 info) cc.grey.accelerateDFA).2

def c16aux_offset (info : DfaInfo) : Nat :=
  roundUpN (sizeofNFA + sizeofMcclellan +
    (1 <<< info.getAlphaShift) * 2 * c16base info) 16

def c16aux_size (info : DfaInfo) (cc : CompileContext) : Nat :=
  sizeofMstateAux * (c16info2 info cc).size

def c16accel_offset0 (info : DfaInfo) (cc : CompileContext) : Nat :=
  roundUpN (c16aux_offset info + c16aux_size info cc +
    reportListSize (c16g info).rl) 32

def c16accel_offset (info : DfaInfo) (cc : CompileContext) : Nat :=
  c16accel_offset0 info cc - sizeofNFA

def c16sherman_offset (info : DfaInfo) (cc : CompileContext) : Nat :=
  roundUpN (c16accel_offset0 info cc + sizeofAccelAux * c16accelCount info cc) 16

def c16sherman_size (info : DfaInfo) (cc : CompileContext) : Nat :=
  roundUpN (SHERMAN_FIXED_SIZE * ((List.range (c16info2 info cc).size).countP
    fun i => (c16info2 info cc).isSherman i)) 16

def c16total (info : DfaInfo) (cc : CompileContext) : Nat :=
  c16sherman_offset info cc + c16sherman_size info cc

def c16reportOffsets (info : DfaInfo) (cc : CompileContext) : List Nat :=
  fillReportLists (c16g info).rl (c16aux_offset info + c16aux_size info cc)

/-- The assembly state after the normal-state loop of `mcclellanCompile16`. -/
def c16asm1 (info : DfaInfo) (cc : CompileContext) : Asm16 :=
  (List.range (c16info2 info cc).size).foldl
    (normalStep16 (c16info2 info cc) (c16g info).reports (c16g info).reports_eod
      (c16reportOffsets info cc) info.getAlphaShift)
    ⟨fun _ => 0, fun _ => defaultAux, c16accel_offset info cc,
      fun _ => defaultShermanRec⟩

/-- The assembly state after the Sherman-state loop of `mcclellanCompile16`. -/
def c16asm2 (info : DfaInfo) (cc : CompileContext) : Asm16 :=
  (List.range (c16info2 info cc).size).foldl
    (shermanStep16 (c16info2 info cc) (c16g info).reports (c16g info).reports_eod
      (c16reportOffsets info cc) (c16base info)) (c16asm1 info cc)

/-- The image built by `mcclellanCompile16` on the success path. -/
def c16img (info : DfaInfo) (cc : CompileContext) : Image16 :=
  { alphaShift := info.getAlphaShift, remap := (c16info2 info cc).raw.alpha_remap,
    state_count := (c16info2 info cc).size, sherman_limit := c16base info,
    tbl := markEdgesTbl (c16asm2 info cc).aux info.getAlphaShift
      (c16info2 info cc).implAlphaSize (c16base info) (c16asm2 info cc).tbl,
    aux := (c16asm2 info cc).aux,
    sherms := markEdgesSherms (c16asm2 info cc).aux (c16base info)
      (c16info2 info cc).size (c16asm2 info cc).sherms,
    start_anchored := (c16info2 info cc).implId (c16info2 info cc).raw.start_anchored,
    start_floating := (c16info2 info cc).implId (c16info2 info cc).raw.start_floating,
    arb_report := (c16g info).arb, single := (c16g info).single,
    has_accel := c16accelCount info cc ≠ 0, accepts_eod := false,
    total_size := c16total info cc }

/-- The gathered report tables of `mcclellanCompile8`. -/
def c8g (info : DfaInfo) : GatherResult := gatherReports info.raw.states

/-- The info after `populateAccelerationInfo` inside `mcclellanCompile8`. -/
def c8info1 (info : DfaInfo) (cc : CompileContext) : DfaInfo :=
  (populateAccelerationInfo info cc.grey.accelerateDFA).1

def c8accelCount (info : DfaInfo) (cc : CompileContext) : Nat :=
  (populateAccelerationInfo info cc.grey.accelerateDFA).2

/-- The info mutated by `allocateFSN8` (inside `mcclellanCompile8`). -/
def c8info2 (info : DfaInfo) (cc : CompileContext) : DfaInfo :=
  (allocateFSN8 (c8info1 info cc)).1

def c8aux_offset (info : DfaInfo) (cc : CompileContext) : Nat :=
  roundUpN (sizeofNFA + sizeofMcclellan +
    (1 <<< info.getAlphaShift) * (c8info1 info cc).size) 16

def c8aux_size (info : DfaInfo) (cc : CompileContext) : Nat :=
  sizeofMstateAux * (c8info1 info cc).size

def c8accel_offset0 (info : DfaInfo) (cc : CompileContext) : Nat :=
  roundUpN (c8aux_offset info cc + c8aux_size info cc +
    reportListSize (c8g info).rl) 32

def c8total (info : DfaInfo) (cc : CompileContext) : Nat :=
  c8accel_offset0 info cc + sizeofAccelAux * c8accelCount info cc

def c8accel_offset (info : DfaInfo) (cc : CompileContext) : Nat :=
  c8accel_offset0 info cc - sizeofNFA

def c8reportOffsets (info : DfaInfo) (cc : CompileContext) : List Nat :=
  fillReportLists (c8g info).rl (c8aux_offset info cc + c8aux_size info cc)

/-- The assembly state after the state loop of `mcclellanCompile8`. -/
def c8asm1 (info : DfaInfo) (cc : CompileContext) : Asm8 :=
  (List.range (c8info2 info cc).size).foldl
    (basicStep8 (c8info2 info cc) (c8g info).reports (c8g info).reports_eod
      (c8reportOffsets info cc) info.getAlphaShift)
    ⟨fun _ => 0, fun _ => defaultAux, c8accel_offset info cc⟩

/-- The image built by `mcclellanCompile8`. -/
def c8img (info : DfaInfo) (cc : CompileContext) : Image8 :=
  { alphaShift := info.getAlphaShift, remap := (c8info2 info cc).raw.alpha_remap,
    state_count := (c8info2 info cc).size,
    accel_limit_8 := (allocateFSN8 (c8info1 info cc)).2.1,
    accept_limit_8 := (allocateFSN8 (c8info1 info cc)).2.2,
    tbl := (c8asm1 info cc).tbl, aux := (c8asm1 info cc).aux,
    start_anchored := (c8info2 info cc).implId (c8info2 info cc).raw.start_anchored,
    start_floating := (c8info2 info cc).implId (c8info2 info cc).raw.start_floating,
    arb_report := (c8g info).arb, single := (c8g info).single,
    has_accel := c8accelCount info cc ≠ 0, accepts_eod := false,
    total_size := c8total info cc }

/-! ### Reference decoder and claim-side notions -/

/-- Modelled from the spec: the reference decoder for a 16-bit image.  Read
the packed transition row at `(impl << alphaShift) + remap[b]` and mask off
ACCEPT_FLAG/ACCEL_FLAG; for a Sherman state scan the `L` override symbols
and fall back to the daddy's row on a miss (in images produced here a daddy
is never itself Sherman, so one fallback level decodes every state). -/
def decode16 (img : Image16) (impl b : Nat) : Nat :=
  let sym := img.remap b
  if impl < img.sherman_limit then
    img.tbl ((impl <<< img.alphaShift) + sym) &&& STATE_MASK
  else
    let sh := img.sherms (impl - img.sherman_limit)
    match ((sh.chars.take sh.len).zip (sh.succs.take sh.len)).find?
        (fun cv => cv.1 == sym) with
    | some cv => cv.2 &&& STATE_MASK
    | none => img.tbl ((sh.daddy <<< img.alphaShift) + sym) &&& STATE_MASK

/-- Modelled from the spec: the reference decoder for an 8-bit image (no
Sherman region; the stored u8 values carry no flag bits, so the STATE_MASK
masking is the identity on them). -/
def decode8 (img : Image8) (impl b : Nat) : Nat :=
  img.tbl ((impl <<< img.alphaShift) + img.remap b) &&& STATE_MASK

def CompileOutcome.image16 : CompileOutcome → Option Image16
  | .img16 i => some i
  | _ => none

def CompileOutcome.image8 : CompileOutcome → Option Image8
  | .img8 i => some i
  | _ => none

/-- Well-formedness of a raw DFA, as assumed by the source: successor rows
cover the full remapped alphabet and point inside the state table, plain
bytes remap below `impl_alpha_size`, TOP remaps inside the alphabet, the
start states exist, and counts fit the source's integer widths. -/
def WfRawDFA (raw : RawDFA) : Prop :=
  1 ≤ raw.getImplAlphaSize ∧
  raw.alpha_size ≤ 65536 ∧
  (∀ st ∈ raw.states, st.next.length = raw.alpha_size ∧
    ∀ t ∈ st.next, t < raw.states.length) ∧
  (∀ b < 256, raw.alpha_remap b < raw.getImplAlphaSize) ∧
  raw.alpha_remap TOP < raw.alpha_size ∧
  raw.start_anchored < raw.states.length ∧
  raw.start_floating < raw.states.length ∧
  2 * raw.states.length < MO_INVALID_IDX

instance (raw : RawDFA) : Decidable (WfRawDFA raw) := by
  unfold WfRawDFA
  infer_instance

/-- Claim-side notion: on a 16-bit outcome, decoding any `(state, byte)` from
the image agrees with the raw DFA's `impl_id(next[alpha_remap[byte]])`. -/
def Decode16Agrees (raw : RawDFA) (cc : CompileContext) : Prop :=
  ∀ img raw1, mcclellanCompile_i raw cc = (CompileOutcome.img16 img, raw1) →
    ∀ s, s < raw1.states.length → ∀ b, b < 256 →
      decode16 img ((raw1.state s).impl_id) b =
        (raw1.state ((raw1.state s).next.getD (raw1.alpha_remap b) 0)).impl_id

/-- Claim-side notion: the 8-bit analogue of `Decode16Agrees`. -/
def Decode8Agrees (raw : RawDFA) (cc : CompileContext) : Prop :=
  ∀ img raw1, mcclellanCompile_i raw cc = (CompileOutcome.img8 img, raw1) →
    ∀ s, s < raw1.states.length → ∀ b, b < 256 →
      decode8 img ((raw1.state s).impl_id) b =
        (raw1.state ((raw1.state s).next.getD (raw1.alpha_remap b) 0)).impl_id

/-- Claim-side notion: in a 16-bit image, every stored successor slot (normal
transition rows and Sherman override lists) has ACCEPT_FLAG set iff the
target's aux `accept` is non-zero, and ACCEL_FLAG set iff the target's aux
`accel_offset` is non-zero. -/
def Flags16Agree (raw : RawDFA) (cc : CompileContext) : Prop :=
  ∀ img raw1, mcclellanCompile_i raw cc = (CompileOutcome.img16 img, raw1) →
    ∀ s, s < raw1.states.length →
      ((raw1.state s).impl_id < img.sherman_limit →
        ∀ j, j < raw1.getImplAlphaSize →
          ((img.tbl (((raw1.state s).impl_id <<< img.alphaShift) + j) &&&
              ACCEPT_FLAG ≠ 0) ↔
            (img.aux ((img.tbl (((raw1.state s).impl_id <<< img.alphaShift) + j)) &&&
              STATE_MASK)).accept ≠ 0) ∧
          ((img.tbl (((raw1.state s).impl_id <<< img.alphaShift) + j) &&&
              ACCEL_FLAG ≠ 0) ↔
            (img.aux ((img.tbl (((raw1.state s).impl_id <<< img.alphaShift) + j)) &&&
              STATE_MASK)).accel_offset ≠ 0)) ∧
      (img.sherman_limit ≤ (raw1.state s).impl_id →
        ∀ v ∈ (img.sherms ((raw1.state s).impl_id - img.sherman_limit)).succs,
          ((v &&& ACCEPT_FLAG ≠ 0) ↔ (img.aux (v &&& STATE_MASK)).accept ≠ 0) ∧
          ((v &&& ACCEL_FLAG ≠ 0) ↔ (img.aux (v &&& STATE_MASK)).accel_offset ≠ 0))

/-- Claim-side notion: in an 8-bit image the stored successor bytes are bare
implementation ids — no ACCEPT/ACCEL flag bit is ever set in them. -/
def Slots8Bare (raw : RawDFA) (cc : CompileContext) : Prop :=
  ∀ img raw1, mcclellanCompile_i raw cc = (CompileOutcome.img8 img, raw1) →
    ∀ s, s < raw1.states.length → ∀ j, j < raw1.getImplAlphaSize →
      img.tbl (((raw1.state s).impl_id <<< img.alphaShift) + j) &&& ACCEPT_FLAG = 0 ∧
      img.tbl (((raw1.state s).impl_id <<< img.alphaShift) + j) &&& ACCEL_FLAG = 0 ∧
      img.tbl (((raw1.state s).impl_id <<< img.alphaShift) + j) =
        (raw1.state ((raw1.state s).next.getD j 0)).impl_id

/-- Claim-side notion: on a 16-bit outcome, the aux `top` of the dead state
is `impl_id(start_floating)`, and for every other state `impl_id` of its
TOP-symbol successor. -/
def AuxTop16 (raw : RawDFA) (cc : CompileContext) : Prop :=
  ∀ img raw1, mcclellanCompile_i raw cc = (CompileOutcome.img16 img, raw1) →
    ∀ s, s < raw1.states.length →
      (img.aux ((raw1.state s).impl_id)).top =
        (raw1.state (if s = 0 then raw1.start_floating
          else (raw1.state s).next.getD (raw1.alpha_remap TOP) 0)).impl_id

/-- Claim-side notion: the 8-bit analogue of `AuxTop16`. -/
def AuxTop8 (raw : RawDFA) (cc : CompileContext) : Prop :=
  ∀ img raw1, mcclellanCompile_i raw cc = (CompileOutcome.img8 img, raw1) →
    ∀ s, s < raw1.states.length →
      (img.aux ((raw1.state s).impl_id)).top =
        (raw1.state (if s = 0 then raw1.start_floating
          else (raw1.state s).next.getD (raw1.alpha_remap TOP) 0)).impl_id

/-- Claim-side notion for the report-table builder: the union over all
states of the non-EOD accept report sets. -/
def allReports (states : List DState) : Finset Nat :=
  states.foldl (fun a s => a ∪ s.reports) ∅

/-- Claim-side notion for the SDS walk: a single non-TOP, non-dead
transition step of the raw DFA. -/
def nonTopStep (raw : RawDFA) (a b : Nat) : Prop :=
  ∃ i, i < (raw.state a).next.length ∧ i ≠ raw.alpha_remap TOP ∧
    (raw.state a).next.getD i 0 = b ∧ b ≠ DEAD_STATE

/-! ### Concrete inputs used by witnesses and counterexamples -/

/-- A two-state DFA: state 1 self-loops on every plain byte and bears report
7; the remapped alphabet has one plain class plus TOP. -/
def dfa2 : RawDFA :=
  { states := [⟨[0, 0], ∅, ∅, 0, 0⟩, ⟨[1, 0], {7}, ∅, 0, 0⟩],
    alpha_size := 2,
    alpha_remap := fun c => if c = 256 then 1 else 0,
    start_anchored := 1, start_floating := 0, generatesCallbacks := false }

/-- A compile context forcing the 16-bit path. -/
def cc16 : CompileContext := ⟨⟨true, true, false⟩, false⟩

/-- A compile context allowing the 8-bit path. -/
def cc8 : CompileContext := ⟨⟨true, true, true⟩, false⟩

/-- A four-state DFA whose state 3 (daddy hint 2) agrees with state 1 on all
but one symbol, producing a Sherman state with one override. -/
def dfaT : RawDFA :=
  { states := [⟨[0, 0, 0, 0, 0], ∅, ∅, 0, 0⟩,
               ⟨[2, 2, 2, 2, 0], {3}, ∅, 0, 0⟩,
               ⟨[2, 2, 2, 1, 0], ∅, ∅, 0, 0⟩,
               ⟨[2, 2, 2, 0, 0], ∅, ∅, 2, 0⟩],
    alpha_size := 5,
    alpha_remap := fun c => if c = 256 then 4 else c % 4,
    start_anchored := 0, start_floating := 0, generatesCallbacks := false }

/-- A three-state DFA where state 1's best donor is the dead state with
score 2, hitting the Sherman profitability gate's equality case
(`impl_alpha_size - best_score = max_list_len = 2`). -/
def dfa4 : RawDFA :=
  { states := [⟨[0, 0, 0, 0, 0], ∅, ∅, 0, 0⟩, ⟨[0, 0, 2, 2, 0], ∅, ∅, 0, 0⟩,
               ⟨[0, 0, 0, 0, 0], ∅, ∅, 0, 0⟩],
    alpha_size := 5,
    alpha_remap := fun c => if c = 256 then 4 else 0,
    start_anchored := 0, start_floating := 0, generatesCallbacks := false }

def info4 : DfaInfo := ⟨dfa4, List.replicate 3 defaultExtra⟩

def grey4 : Grey := ⟨true, true, false⟩

/-- A three-state DFA with a cyclic anchored start; state 2 falls inside the
near-start veto window although donor 1 matches its whole row. -/
def dfa5 : RawDFA :=
  { states := [⟨[0, 0, 0, 0, 0], ∅, ∅, 0, 0⟩, ⟨[1, 1, 1, 1, 0], ∅, ∅, 0, 0⟩,
               ⟨[1, 1, 1, 1, 0], ∅, ∅, 0, 0⟩],
    alpha_size := 5,
    alpha_remap := fun c => if c = 256 then 4 else 0,
    start_anchored := 1, start_floating := 0, generatesCallbacks := false }

def info5 : DfaInfo := ⟨dfa5, List.replicate 3 defaultExtra⟩

/-- A five-state DFA where the self-looping state 4 is reachable from the
anchored start only through the second branch, which the greedy SDS walk
never explores. -/
def dfa6 : RawDFA :=
  { states := [⟨[0, 0, 0], ∅, ∅, 0, 0⟩, ⟨[2, 3, 0], ∅, ∅, 0, 0⟩,
               ⟨[0, 0, 0], ∅, ∅, 0, 0⟩, ⟨[4, 0, 0], ∅, ∅, 0, 0⟩,
               ⟨[4, 0, 0], ∅, ∅, 0, 0⟩],
    alpha_size := 3,
    alpha_remap := fun c => if c = 256 then 2 else 0,
    start_anchored := 1, start_floating := 0, generatesCallbacks := false }

/-- A two-state DFA with a live floating start. -/
def dfaF : RawDFA :=
  { states := [⟨[0, 0], ∅, ∅, 0, 0⟩, ⟨[1, 0], ∅, ∅, 0, 0⟩],
    alpha_size := 2,
    alpha_remap := fun c => if c = 256 then 1 else 0,
    start_anchored := 1, start_floating := 1, generatesCallbacks := false }

/-- A 70000-state DFA whose state 1 carries an EOD-only report. -/
def dfa70k : RawDFA :=
  { states := ⟨[0, 0], ∅, ∅, 0, 0⟩ :: ⟨[0, 0], ∅, {5}, 0, 0⟩ ::
      List.replicate 69998 ⟨[0, 0], ∅, ∅, 0, 0⟩,
    alpha_size := 2,
    alpha_remap := fun c => if c = 256 then 1 else 0,
    start_anchored := 1, start_floating := 0, generatesCallbacks := false }

/-- A compile context for the overflow scenario (streaming, Sherman states
disabled). -/
def cc70 : CompileContext := ⟨⟨false, false, false⟩, true⟩

/-! ### Lemmas: list and state-update basics -/

lemma getD_set_self {α : Type} (l : List α) (i : Nat) (a d : α) (h : i < l.length) :
    (l.set i a).getD i d = a := by
  simp [List.getD_eq_getElem?_getD, List.getElem?_set_self h]

lemma getD_set_ne {α : Type} (l : List α) (i j : Nat) (a d : α) (h : i ≠ j) :
    (l.set i a).getD j d = l.getD j d := by
  simp [List.getD_eq_getElem?_getD, List.getElem?_set_ne h]

lemma setState_oob (raw : RawDFA) (i : Nat) (st : DState)
    (h : raw.states.length ≤ i) : raw.setState i st = raw := by
  simp [RawDFA.setState, List.set_eq_of_length_le h]

lemma state_setState_ne (raw : RawDFA) (i j : Nat) (st : DState) (h : j ≠ i) :
    (raw.setState i st).state j = raw.state j := by
  simp only [RawDFA.setState, RawDFA.state, List.getD_eq_getElem?_getD]
  rw [List.getElem?_set_ne (Ne.symm h)]

lemma state_setState_self (raw : RawDFA) (i : Nat) (st : DState)
    (h : i < raw.states.length) : (raw.setState i st).state i = st := by
  simp [RawDFA.setState, RawDFA.state, List.getD_eq_getElem?_getD,
    List.getElem?_set_self h]

lemma size_setDaddy (info : DfaInfo) (i v : Nat) :
    (info.setDaddy i v).size = info.size := by
  simp [DfaInfo.setDaddy, DfaInfo.size, RawDFA.setState]

lemma size_setTaken (info : DfaInfo) (i v : Nat) :
    (info.setTaken i v).size = info.size := rfl

lemma size_setSherman (info : DfaInfo) (i : Nat) :
    (info.setSherman i).size = info.size := rfl

lemma size_setAccel (info : DfaInfo) (i : Nat) :
    (info.setAccel i).size = info.size := rfl

lemma state_setImpl_ne (info : DfaInfo) (i j v : Nat) (h : j ≠ i) :
    (info.setImpl i v).state j = info.state j := by
  simp [DfaInfo.setImpl, DfaInfo.state, state_setState_ne _ _ _ _ h]

lemma state_setImpl_self (info : DfaInfo) (i v : Nat) (h : i < info.size) :
    (info.setImpl i v).state i = { info.state i with impl_id := v } := by
  simp [DfaInfo.setImpl, DfaInfo.state, state_setState_self _ _ _ h]

lemma state_setImpl_fields (info : DfaInfo) (i j v : Nat) :
    ((info.setImpl i v).state j).next = ((info.state j)).next ∧
    ((info.setImpl i v).state j).reports = ((info.state j)).reports ∧
    ((info.setImpl i v).state j).reports_eod = ((info.state j)).reports_eod ∧
    ((info.setImpl i v).state j).daddy = ((info.state j)).daddy := by
  by_cases hj : j = i
  · subst hj
    by_cases hr : j < info.size
    · rw [state_setImpl_self _ _ _ hr]
      exact ⟨rfl, rfl, rfl, rfl⟩
    · have : (info.raw.setState j { info.raw.state j with impl_id := v }) = info.raw :=
        setState_oob _ _ _ (le_of_not_lt hr)
      simp [DfaInfo.setImpl, DfaInfo.state, this]
  · rw [state_setImpl_ne _ _ _ _ hj]
    exact ⟨rfl, rfl, rfl, rfl⟩

lemma state_setDaddy_ne (info : DfaInfo) (i j v : Nat) (h : j ≠ i) :
    (info.setDaddy i v).state j = info.state j := by
  simp [DfaInfo.setDaddy, DfaInfo.state, state_setState_ne _ _ _ _ h]

lemma state_setDaddy_self (info : DfaInfo) (i v : Nat) (h : i < info.size) :
    (info.setDaddy i v).state i = { info.state i with daddy := v } := by
  simp [DfaInfo.setDaddy, DfaInfo.state, state_setState_self _ _ _ h]

lemma extraAt_setImpl (info : DfaInfo) (i j v : Nat) :
    (info.setImpl i v).extraAt j = info.extraAt j := rfl

lemma extraAt_setDaddy (info : DfaInfo) (i j v : Nat) :
    (info.setDaddy i v).extraAt j = info.extraAt j := rfl

lemma state_setTaken (info : DfaInfo) (i v j : Nat) :
    (info.setTaken i v).state j = info.state j := rfl

lemma state_setSherman (info : DfaInfo) (i j : Nat) :
    (info.setSherman i).state j = info.state j := rfl

lemma state_setAccel (info : DfaInfo) (i j : Nat) :
    (info.setAccel i).state j = info.state j := rfl

lemma extraAt_setTaken_ne (info : DfaInfo) (i v j : Nat) (h : j ≠ i) :
    (info.setTaken i v).extraAt j = info.extraAt j := by
  simp only [DfaInfo.setTaken, DfaInfo.extraAt, List.getD_eq_getElem?_getD]
  rw [List.getElem?_set_ne (Ne.symm h)]

lemma extraAt_setSherman_ne (info : DfaInfo) (i j : Nat) (h : j ≠ i) :
    (info.setSherman i).extraAt j = info.extraAt j := by
  simp only [DfaInfo.setSherman, DfaInfo.extraAt, List.getD_eq_getElem?_getD]
  rw [List.getElem?_set_ne (Ne.symm h)]

lemma extraAt_setAccel_ne (info : DfaInfo) (i j : Nat) (h : j ≠ i) :
    (info.setAccel i).extraAt j = info.extraAt j := by
  simp only [DfaInfo.setAccel, DfaInfo.extraAt, List.getD_eq_getElem?_getD]
  rw [List.getElem?_set_ne (Ne.symm h)]

lemma shermanState_extraAt_setTaken (info : DfaInfo) (i v j : Nat) :
    ((info.setTaken i v).extraAt j).shermanState = (info.extraAt j).shermanState := by
  by_cases hj : j = i
  · subst hj
    by_cases hr : j < info.extra.length
    · simp [DfaInfo.setTaken, DfaInfo.extraAt, List.getD_eq_getElem?_getD,
        List.getElem?_set_self hr]
    · simp [DfaInfo.setTaken, DfaInfo.extraAt,
        List.set_eq_of_length_le (le_of_not_lt hr)]
  · rw [extraAt_setTaken_ne _ _ _ _ hj]

lemma accelerable_extraAt_setTaken (info : DfaInfo) (i v j : Nat) :
    ((info.setTaken i v).extraAt j).accelerable = (info.extraAt j).accelerable := by
  by_cases hj : j = i
  · subst hj
    by_cases hr : j < info.extra.length
    · simp [DfaInfo.setTaken, DfaInfo.extraAt, List.getD_eq_getElem?_getD,
        List.getElem?_set_self hr]
    · simp [DfaInfo.setTaken, DfaInfo.extraAt,
        List.set_eq_of_length_le (le_of_not_lt hr)]
  · rw [extraAt_setTaken_ne _ _ _ _ hj]

lemma extraAt_setTaken_self (info : DfaInfo) (i v : Nat) (h : i < info.extra.length) :
    (info.setTaken i v).extraAt i = { info.extraAt i with daddytaken := v } := by
  simp [DfaInfo.setTaken, DfaInfo.extraAt, List.getD_eq_getElem?_getD,
    List.getElem?_set_self h]

lemma extraAt_setSherman_self (info : DfaInfo) (i : Nat) (h : i < info.extra.length) :
    (info.setSherman i).extraAt i = { info.extraAt i with shermanState := true } := by
  simp [DfaInfo.setSherman, DfaInfo.extraAt, List.getD_eq_getElem?_getD,
    List.getElem?_set_self h]

lemma extraAt_setAccel_self (info : DfaInfo) (i : Nat) (h : i < info.extra.length) :
    (info.setAccel i).extraAt i = { info.extraAt i with accelerable := true } := by
  simp [DfaInfo.setAccel, DfaInfo.extraAt, List.getD_eq_getElem?_getD,
    List.getElem?_set_self h]

lemma extra_length_setImpl (info : DfaInfo) (i v : Nat) :
    (info.setImpl i v).extra.length = info.extra.length := rfl

lemma extra_length_setDaddy (info : DfaInfo) (i v : Nat) :
    (info.setDaddy i v).extra.length = info.extra.length := rfl

lemma extra_length_setTaken (info : DfaInfo) (i v : Nat) :
    (info.setTaken i v).extra.length = info.extra.length := by
  simp [DfaInfo.setTaken]

lemma extra_length_setSherman (info : DfaInfo) (i : Nat) :
    (info.setSherman i).extra.length = info.extra.length := by
  simp [DfaInfo.setSherman]

lemma extra_length_setAccel (info : DfaInfo) (i : Nat) :
    (info.setAccel i).extra.length = info.extra.length := by
  simp [DfaInfo.setAccel]

/-! ### Lemmas: the SDS proxy walk -/

lemma sdsLoop_self_loop (raw : RawDFA) :
    ∀ fuel s seen t, sdsLoop raw fuel s seen = some t → t ≠ DEAD_STATE →
      has_self_loop t raw = true := by
  intro fuel
  induction fuel with
  | zero => intro s seen t h _; simp [sdsLoop] at h
  | succ n ih =>
    intro s seen t h ht
    simp only [sdsLoop] at h
    split at h
    · next i heq =>
      have hp := List.find?_some heq
      rw [Option.some_inj] at h
      subst h
      simp only [decide_eq_true_eq] at hp
      exact hp.2.2
    · split at h
      · next i heq => exact ih _ _ _ h ht
      · rw [Option.some_inj] at h
        exact absurd h.symm ht

lemma sdsLoop_isSome (raw : RawDFA)
    (hnext : ∀ st ∈ raw.states, ∀ t ∈ st.next, t < raw.states.length) :
    ∀ fuel s seen, s < raw.states.length →
      ((Finset.range raw.states.length).filter (fun x => ¬ x ∈ s :: seen)).card + 1 ≤ fuel →
      (sdsLoop raw fuel s seen).isSome := by
  intro fuel
  induction fuel with
  | zero => intro s seen _ hc; omega
  | succ n ih =>
    intro s seen hs hc
    simp only [sdsLoop]
    split
    · simp
    · split
      · next i heq =>
        have hp := List.find?_some heq
        have hirange := List.mem_of_find?_eq_some heq
        simp only [List.mem_range] at hirange
        simp only [decide_eq_true_eq] at hp
        set t := (raw.state s).next.getD i 0 with htdef
        have htmem : t ∈ (raw.state s).next := by
          rw [htdef, List.getD_eq_getElem _ _ hirange]
          exact List.getElem_mem hirange
        have hstmem : raw.state s ∈ raw.states := by
          have : s < raw.states.length := hs
          rw [RawDFA.state, List.getD_eq_getElem _ _ this]
          exact List.getElem_mem this
        have htlt : t < raw.states.length := hnext _ hstmem _ htmem
        apply ih t (t :: s :: seen) htlt
        have hcardeq :
            ((Finset.range raw.states.length).filter
              (fun x => ¬ x ∈ t :: t :: s :: seen)).card =
            ((Finset.range raw.states.length).filter
              (fun x => ¬ x ∈ t :: s :: seen)).card := by
          congr 1
          apply Finset.filter_congr
          intro x _
          simp only [List.mem_cons]
          tauto
        rw [hcardeq]
        have hsub : (Finset.range raw.states.length).filter
              (fun x => ¬ x ∈ t :: s :: seen) ⊂
            (Finset.range raw.states.length).filter (fun x => ¬ x ∈ s :: seen) := by
          constructor
          · intro x hx
            simp only [Finset.mem_filter, List.mem_cons] at hx ⊢
            tauto
          · intro hall
            have ht1 : t ∈ (Finset.range raw.states.length).filter
                (fun x => ¬ x ∈ s :: seen) := by
              simp only [Finset.mem_filter, Finset.mem_range]
              exact ⟨htlt, hp.2.2⟩
            have ht2 := hall ht1
            simp [Finset.mem_filter, List.mem_cons] at ht2
        have := Finset.card_lt_card hsub
        omega
      · simp

lemma get_sds_or_proxy_isSome (raw : RawDFA)
    (hnext : ∀ st ∈ raw.states, ∀ t ∈ st.next, t < raw.states.length)
    (hanch : raw.start_anchored < raw.states.length) :
    (get_sds_or_proxy raw).isSome := by
  rw [get_sds_or_proxy]
  split
  · simp
  · split
    · simp
    · apply sdsLoop_isSome raw hnext _ _ _ hanch
      have := Finset.card_filter_le (Finset.range raw.states.length)
        (fun x => ¬ x ∈ raw.start_anchored :: ([] : List Nat))
      simp only [Finset.card_range] at this
      omega

/-- C6 (amended): if `start_floating` is non-dead, `get_sds_or_proxy`
returns it; otherwise the walk is a greedy single path and every non-dead
state it returns has a self loop.  (The original claim's completeness part —
that a reachable self-looping state is always found — is refuted by
`c6_sds_proxy_selection_cex`: the walk follows only the first unseen
neighbour at each step and may return dead although a self-looping state is
reachable.) -/
theorem c6_sds_proxy_selection (raw : RawDFA) :
    (raw.start_floating ≠ DEAD_STATE → get_sds_or_proxy raw = some raw.start_floating) ∧
    (raw.start_floating = DEAD_STATE → ∀ t, get_sds_or_proxy raw = some t →
      t ≠ DEAD_STATE → has_self_loop t raw = true) := by
  constructor
  · intro h
    rw [get_sds_or_proxy, if_pos h]
  · intro h t hres ht
    rw [get_sds_or_proxy] at hres
    split at hres
    · next hfl => exact absurd h hfl
    · split at hres
      · next hsl =>
        rw [Option.some_inj] at hres
        rw [← hres]
        exact hsl
      · exact sdsLoop_self_loop raw _ _ _ _ hres ht

/-- Witness for C6: a DFA with a live floating start, which the selector
returns. -/
theorem c6_sds_proxy_selection_witness :
    dfaF.start_floating ≠ DEAD_STATE ∧
    get_sds_or_proxy dfaF = some dfaF.start_floating :=
  ⟨by decide, (c6_sds_proxy_selection dfaF).1 (by decide)⟩

/-- Counterexample for C6 as stated: in `dfa6` the self-looping state 4 is
reachable from the anchored start through non-TOP, non-dead transitions, yet
the walk returns the dead state. -/
theorem c6_sds_proxy_selection_cex :
    dfa6.start_floating = DEAD_STATE ∧
    Relation.ReflTransGen (nonTopStep dfa6) dfa6.start_anchored 4 ∧
    has_self_loop 4 dfa6 = true ∧ (4 : Nat) ≠ DEAD_STATE ∧
    get_sds_or_proxy dfa6 = some DEAD_STATE := by
  refine ⟨by decide, ?_, by decide, by decide, by decide⟩
  have s13 : nonTopStep dfa6 1 3 := ⟨1, by decide⟩
  have s34 : nonTopStep dfa6 3 4 := ⟨0, by decide⟩
  exact Relation.ReflTransGen.tail
    (Relation.ReflTransGen.tail Relation.ReflTransGen.refl s13) s34

/-- C9: `get_sds_or_proxy` terminates on every well-formed raw DFA — within
fuel `states.length + 1` the loop always returns, because every iteration
either returns or moves to a state outside the `seen` set, whose size is
bounded by the number of states. -/
theorem c9_get_sds_or_proxy_terminates (raw : RawDFA) (hwf : WfRawDFA raw) :
    (get_sds_or_proxy raw).isSome := by
  obtain ⟨_, _, hnext, _, _, hanch, _, _⟩ := hwf
  exact get_sds_or_proxy_isSome raw (fun st hst t ht => (hnext st hst).2 t ht) hanch

/-- Witness for C9. -/
theorem c9_get_sds_or_proxy_terminates_witness :
    WfRawDFA dfa6 ∧ (get_sds_or_proxy dfa6).isSome = true :=
  ⟨by decide, c9_get_sds_or_proxy_terminates dfa6 (by decide)⟩

/-! ### Lemmas: overflow failure path and the 8-bit path -/

lemma find_better_daddy_not_allowed (info : DfaInfo) (c : Nat) (u cyc : Bool)
    (grey : Grey) (h : grey.allowShermanStates = false) :
    find_better_daddy info c u cyc grey = info := by
  rw [find_better_daddy, if_pos h]

lemma foldl_find_better_daddy_id (l : List Nat) (info : DfaInfo) (u cyc : Bool)
    (grey : Grey) (h : grey.allowShermanStates = false) :
    l.foldl (fun inf i => find_better_daddy inf i u cyc grey) info = info := by
  induction l generalizing info with
  | nil => rfl
  | cons x xs ih =>
    rw [List.foldl_cons, find_better_daddy_not_allowed _ _ _ _ _ h, ih]

lemma size_setImpl (info : DfaInfo) (i v : Nat) :
    (info.setImpl i v).size = info.size := by
  simp [DfaInfo.setImpl, DfaInfo.size, RawDFA.setState]

lemma allocateFSN16_overflow (info : DfaInfo) (h : 1 <<< 16 < info.size) :
    (allocateFSN16 info).2.2 = false := by
  rw [allocateFSN16]
  rw [if_pos (by rwa [size_setImpl])]

lemma mcclellanCompile16_overflow (info : DfaInfo) (cc : CompileContext)
    (h : 1 <<< 16 < info.size) :
    (mcclellanCompile16 info cc).1 = none := by
  rw [mcclellanCompile16]
  simp only [allocateFSN16_overflow info h, if_pos]

lemma mcclellanCompile_i_overflow_eod (raw : RawDFA) (cc : CompileContext)
    (hstream : cc.streaming = true)
    (hsherm : cc.grey.allowShermanStates = false)
    (h8 : cc.grey.allowMcClellan8 = false)
    (hsize : 1 <<< 16 < raw.states.length)
    (heod : hasEodReports raw = true) :
    (mcclellanCompile_i raw cc).1 = CompileOutcome.nullDeref := by
  rw [mcclellanCompile_i]
  simp only [hstream, h8, Bool.false_and, heod,
    foldl_find_better_daddy_id _ _ _ _ _ hsherm, eq_self_iff_true, if_true]
  rw [mcclellanCompile16_overflow _ cc (by exact hsize)]

/-- C3 (code bug witness): on a 70000-state DFA carrying an EOD report the
compile does not return a null handle; after `mcclellanCompile16` fails, the
source executes `nfa->flags |= NFA_ACCEPTS_EOD` on the null handle. -/
theorem c3_overflow_with_eod_derefs_null :
    (mcclellanCompile_i dfa70k cc70).1 = CompileOutcome.nullDeref := by
  apply mcclellanCompile_i_overflow_eod dfa70k cc70 rfl rfl rfl ?_ rfl
  have hlen : dfa70k.states.length = 70000 := by
    rw [dfa70k]
    rw [List.length_cons, List.length_cons, List.length_replicate]
  rw [hlen]
  decide

/-- C10: whenever the 8-bit path is taken (`allowMcClellan8` and at most 256
states), `mcclellanCompile_i` returns an image — `allocateFSN8` has no
failure return, so no state-overflow failure is possible on this path. -/
theorem c10_8bit_never_fails (raw : RawDFA) (cc : CompileContext)
    (h8 : cc.grey.allowMcClellan8 = true) (hsize : raw.states.length ≤ 256) :
    ∃ img raw2, mcclellanCompile_i raw cc = (CompileOutcome.img8 img, raw2) := by
  have hlen : (if cc.streaming then raw else stripExtraEodReports raw).states.length =
      raw.states.length := by
    split
    · rfl
    · simp [stripExtraEodReports]
  rw [mcclellanCompile_i]
  have husing : (cc.grey.allowMcClellan8 &&
      decide ((⟨if cc.streaming then raw else stripExtraEodReports raw,
        List.replicate (if cc.streaming then raw
          else stripExtraEodReports raw).states.length defaultExtra⟩ : DfaInfo).size
        ≤ 256)) = true := by
    rw [h8, Bool.true_and, decide_eq_true_eq]
    show (if cc.streaming then raw else stripExtraEodReports raw).states.length ≤ 256
    rw [hlen]
    exact hsize
  simp only [husing]
  exact ⟨_, _, rfl⟩

/-- Witness for C10. -/
theorem c10_8bit_never_fails_witness :
    cc8.grey.allowMcClellan8 = true ∧ dfa2.states.length ≤ 256 ∧
    ∃ img raw2, mcclellanCompile_i dfa2 cc8 = (CompileOutcome.img8 img, raw2) :=
  ⟨rfl, by decide, c10_8bit_never_fails dfa2 cc8 rfl (by decide)⟩

/-! ### Lemmas: `find_better_daddy` branch structure -/

lemma find_better_daddy_veto1 (info : DfaInfo) (curr : Nat) (u8 cyc : Bool)
    (grey : Grey) (hg : grey.allowShermanStates = true)
    (h : info.raw.start_anchored ≠ DEAD_STATE ∧ cyc = true ∧
      curr < info.implAlphaSize * 3) :
    find_better_daddy info curr u8 cyc grey = info := by
  rw [find_better_daddy]
  rw [if_neg (by simp [hg]), if_pos h]

lemma find_better_daddy_veto2 (info : DfaInfo) (curr : Nat) (u8 cyc : Bool)
    (grey : Grey) (hg : grey.allowShermanStates = true)
    (h1 : ¬(info.raw.start_anchored ≠ DEAD_STATE ∧ cyc = true ∧
      curr < info.implAlphaSize * 3))
    (h2 : info.raw.start_floating ≠ DEAD_STATE ∧ info.raw.start_floating ≤ curr ∧
      curr < info.raw.start_floating + info.implAlphaSize * 3) :
    find_better_daddy info curr u8 cyc grey = info := by
  rw [find_better_daddy]
  rw [if_neg (by simp [hg]), if_neg h1, if_pos h2]

lemma find_better_daddy_main (info : DfaInfo) (curr : Nat) (u8 cyc : Bool)
    (grey : Grey) (hg : grey.allowShermanStates = true)
    (h1 : ¬(info.raw.start_anchored ≠ DEAD_STATE ∧ cyc = true ∧
      curr < info.implAlphaSize * 3))
    (h2 : ¬(info.raw.start_floating ≠ DEAD_STATE ∧ info.raw.start_floating ≤ curr ∧
      curr < info.raw.start_floating + info.implAlphaSize * 3)) :
    find_better_daddy info curr u8 cyc grey =
      (if (fbdSearch info curr).2 + maxShermanListLen (fbdWidth u8) info.implAlphaSize <
          info.implAlphaSize then fbdInfo1 info curr
       else if ((fbdInfo1 info curr).extraAt
           (((fbdInfo1 info curr).state curr).daddy)).shermanState then fbdInfo1 info curr
       else if fbdSelfLoopW info curr > MAX_SHERMAN_SELF_LOOP then fbdInfo1 info curr
       else (fbdInfo1 info curr).setSherman curr) := by
  rw [find_better_daddy]
  rw [if_neg (by simp [hg]), if_neg h1, if_neg h2]
  rfl

/-- C4 (amended): the Sherman profitability gate is strict — a state newly
marked Sherman satisfies `impl_alpha_size ≤ daddytaken + max_list_len`;
equivalently only states with `impl_alpha_size − best_score >
max_list_len` are rejected as unprofitable.  (The claim's `≥` boundary is
refuted by `c4_sherman_profitability_gate_cex`: the equality case passes
the gate.) -/
theorem c4_sherman_profitability_gate (info : DfaInfo) (curr : Nat) (u8 cyc : Bool)
    (grey : Grey)
    (hold : (info.extraAt curr).shermanState = false)
    (hnew : ((find_better_daddy info curr u8 cyc grey).extraAt curr).shermanState = true) :
    info.implAlphaSize ≤
      ((find_better_daddy info curr u8 cyc grey).extraAt curr).daddytaken +
      maxShermanListLen (if u8 then 1 else 2) info.implAlphaSize := by
  by_cases hg : grey.allowShermanStates = true
  · by_cases h1 : info.raw.start_anchored ≠ DEAD_STATE ∧ cyc = true ∧
        curr < info.implAlphaSize * 3
    · rw [find_better_daddy_veto1 info curr u8 cyc grey hg h1] at hnew
      rw [hold] at hnew
      cases hnew
    · by_cases h2 : info.raw.start_floating ≠ DEAD_STATE ∧
          info.raw.start_floating ≤ curr ∧
          curr < info.raw.start_floating + info.implAlphaSize * 3
      · rw [find_better_daddy_veto2 info curr u8 cyc grey hg h1 h2] at hnew
        rw [hold] at hnew
        cases hnew
      · have hw : (if u8 = true then 1 else 2) = fbdWidth u8 := rfl
        rw [find_better_daddy_main info curr u8 cyc grey hg h1 h2] at hnew ⊢
        rw [hw]
        have hsame : ∀ j, ((fbdInfo1 info curr).extraAt j).shermanState =
            (info.extraAt j).shermanState := by
          intro j
          rw [fbdInfo1, shermanState_extraAt_setTaken, extraAt_setDaddy]
        split at hnew
        · rw [hsame curr, hold] at hnew
          cases hnew
        · split at hnew
          · rw [hsame curr, hold] at hnew
            cases hnew
          · split at hnew
            · rw [hsame curr, hold] at hnew
              cases hnew
            · next hgate hds hslw =>
              rw [if_neg hgate, if_neg hds, if_neg hslw]
              by_cases hr : curr < (fbdInfo1 info curr).extra.length
              · rw [extraAt_setSherman_self _ curr hr]
                have htb : ((fbdInfo1 info curr).extraAt curr).daddytaken =
                    (fbdSearch info curr).2 := by
                  rw [fbdInfo1]
                  rw [extraAt_setTaken_self _ _ _ (by
                    rw [extra_length_setDaddy]
                    rw [fbdInfo1, extra_length_setTaken, extra_length_setDaddy] at hr
                    exact hr)]
                rw [htb]
                omega
              · rw [DfaInfo.setSherman,
                  List.set_eq_of_length_le (le_of_not_lt hr)] at hnew
                have hx : ((fbdInfo1 info curr).extraAt curr).shermanState = true := hnew
                rw [hsame curr, hold] at hx
                cases hx
  · rw [find_better_daddy_not_allowed _ _ _ _ _ (by
      cases hb : grey.allowShermanStates
      · rfl
      · exact absurd hb hg)] at hnew
    rw [hold] at hnew
    cases hnew

/-- Witness for C4 (amended): the equality-case state of `dfa4` is newly
marked Sherman and satisfies the strict gate bound. -/
theorem c4_sherman_profitability_gate_witness :
    (info4.extraAt 1).shermanState = false ∧
    ((find_better_daddy info4 1 false (is_cyclic_near dfa4 dfa4.start_anchored)
      grey4).extraAt 1).shermanState = true ∧
    info4.implAlphaSize ≤
      ((find_better_daddy info4 1 false (is_cyclic_near dfa4 dfa4.start_anchored)
        grey4).extraAt 1).daddytaken +
      maxShermanListLen (if false then 1 else 2) info4.implAlphaSize :=
  ⟨by decide, by decide,
    c4_sherman_profitability_gate info4 1 false
      (is_cyclic_near dfa4 dfa4.start_anchored) grey4 (by decide) (by decide)⟩

/-- Counterexample for C4 as stated: in `dfa4`, state 1 has
`impl_alpha_size − best_score = max_list_len` (the claim says such a state
is left as a normal state), yet it is marked Sherman. -/
theorem c4_sherman_profitability_gate_cex :
    ((find_better_daddy info4 1 false (is_cyclic_near dfa4 dfa4.start_anchored)
      grey4).extraAt 1).shermanState = true ∧
    info4.implAlphaSize -
      ((find_better_daddy info4 1 false (is_cyclic_near dfa4 dfa4.start_anchored)
        grey4).extraAt 1).daddytaken =
      maxShermanListLen 2 info4.implAlphaSize := by
  decide

/-! ### Lemmas: the donor search of `find_better_daddy` -/

lemma mem_setInsert (x : Nat) : ∀ (l : List Nat) (y : Nat),
    y ∈ setInsert x l ↔ y = x ∨ y ∈ l := by
  intro l
  induction l with
  | nil => intro y; simp [setInsert]
  | cons z zs ih =>
    intro y
    rw [setInsert]
    split
    · simp [List.mem_cons]
    · split
      · next hxz => simp [List.mem_cons, hxz]
      · simp only [List.mem_cons, ih]
        tauto

lemma sorted_setInsert (x : Nat) : ∀ (l : List Nat),
    l.Sorted (· < ·) → (setInsert x l).Sorted (· < ·) := by
  intro l
  induction l with
  | nil => intro _; simp [setInsert]
  | cons z zs ih =>
    intro hs
    rw [List.sorted_cons] at hs
    rw [setInsert]
    split
    · next hlt =>
      rw [List.sorted_cons]
      refine ⟨?_, by rw [List.sorted_cons]; exact hs⟩
      intro b hb
      rcases List.mem_cons.1 hb with rfl | hb2
      · exact hlt
      · exact lt_trans hlt (hs.1 b hb2)
    · split
      · rw [List.sorted_cons]
        exact hs
      · next hnlt hne =>
        rw [List.sorted_cons]
        constructor
        · intro b hb
          rcases (mem_setInsert x zs b).1 hb with rfl | hb2
          · omega
          · exact hs.1 b hb2
        · exact ih hs.2

lemma mem_addIfEarlier (dest : List Nat) (c mx y : Nat) :
    y ∈ addIfEarlier dest c mx ↔ (y = c ∧ c < mx) ∨ y ∈ dest := by
  rw [addIfEarlier]
  split
  · next h => rw [mem_setInsert]; tauto
  · next h => constructor
              · tauto
              · rintro (⟨rfl, hc⟩ | hm)
                · exact absurd hc h
                · exact hm

lemma sorted_addIfEarlier (dest : List Nat) (c mx : Nat)
    (h : dest.Sorted (· < ·)) : (addIfEarlier dest c mx).Sorted (· < ·) := by
  rw [addIfEarlier]
  split
  · exact sorted_setInsert _ _ h
  · exact h

lemma mem_addSuccessors (src : DState) (a curr : Nat) :
    ∀ (dest : List Nat) (y : Nat), y ∈ addSuccessors dest src a curr →
      y < curr ∨ y ∈ dest := by
  simp only [addSuccessors]
  generalize List.range a = l
  induction l with
  | nil => intro dest y h; exact Or.inr h
  | cons s rest ih =>
    intro dest y h
    rw [List.foldl_cons] at h
    rcases ih _ _ h with h1 | h2
    · exact Or.inl h1
    · rcases (mem_addIfEarlier _ _ _ _).1 h2 with ⟨rfl, hc⟩ | hm
      · exact Or.inl hc
      · exact Or.inr hm

lemma sorted_addSuccessors (src : DState) (a curr : Nat) :
    ∀ (dest : List Nat), dest.Sorted (· < ·) →
      (addSuccessors dest src a curr).Sorted (· < ·) := by
  simp only [addSuccessors]
  generalize List.range a = l
  induction l with
  | nil => intro dest h; exact h
  | cons s rest ih =>
    intro dest h
    rw [List.foldl_cons]
    exact ih _ (sorted_addIfEarlier _ _ _ h)

lemma subset_addIfEarlier (dest : List Nat) (c mx y : Nat) (h : y ∈ dest) :
    y ∈ addIfEarlier dest c mx := (mem_addIfEarlier _ _ _ _).2 (Or.inr h)

lemma subset_addSuccessors (src : DState) (a curr : Nat) :
    ∀ (dest : List Nat) (y : Nat), y ∈ dest → y ∈ addSuccessors dest src a curr := by
  simp only [addSuccessors]
  generalize List.range a = l
  induction l with
  | nil => intro dest y h; exact h
  | cons s rest ih =>
    intro dest y h
    rw [List.foldl_cons]
    exact ih _ _ (subset_addIfEarlier _ _ _ _ h)

lemma hintedFor_lt (info : DfaInfo) (curr : Nat) :
    ∀ y ∈ hintedFor info curr, y < curr := by
  intro y hy
  simp only [hintedFor] at hy
  split at hy
  · split at hy
    · rcases mem_addSuccessors _ _ _ _ _ hy with h | h
      · exact h
      · rcases (mem_addIfEarlier _ _ _ _).1 h with ⟨rfl, hc⟩ | h2
        · exact hc
        · rcases mem_addSuccessors _ _ _ _ _ h2 with h3 | h3
          · exact h3
          · rcases (mem_addIfEarlier _ _ _ _).1 h3 with ⟨rfl, hc⟩ | h4
            · exact hc
            · rcases (mem_addIfEarlier _ _ _ _).1 h4 with ⟨rfl, hc⟩ | h5
              · exact hc
              · rcases (mem_addIfEarlier _ _ _ _).1 h5 with ⟨rfl, hc⟩ | h6
                · exact hc
                · rcases (mem_addIfEarlier _ _ _ _).1 h6 with ⟨rfl, hc⟩ | h7
                  · exact hc
                  · cases h7
    · rcases mem_addSuccessors _ _ _ _ _ hy with h | h
      · exact h
      · rcases (mem_addIfEarlier _ _ _ _).1 h with ⟨rfl, hc⟩ | h2
        · exact hc
        · rcases (mem_addIfEarlier _ _ _ _).1 h2 with ⟨rfl, hc⟩ | h3
          · exact hc
          · rcases (mem_addIfEarlier _ _ _ _).1 h3 with ⟨rfl, hc⟩ | h4
            · exact hc
            · rcases (mem_addIfEarlier _ _ _ _).1 h4 with ⟨rfl, hc⟩ | h5
              · exact hc
              · cases h5
  · rcases (mem_addIfEarlier _ _ _ _).1 hy with ⟨rfl, hc⟩ | h2
    · exact hc
    · rcases (mem_addIfEarlier _ _ _ _).1 h2 with ⟨rfl, hc⟩ | h3
      · exact hc
      · rcases (mem_addIfEarlier _ _ _ _).1 h3 with ⟨rfl, hc⟩ | h4
        · exact hc
        · cases h4

lemma hintedFor_sorted (info : DfaInfo) (curr : Nat) :
    (hintedFor info curr).Sorted (· < ·) := by
  simp only [hintedFor]
  split
  · split
    · exact sorted_addSuccessors _ _ _ _ (sorted_addIfEarlier _ _ _
        (sorted_addSuccessors _ _ _ _ (sorted_addIfEarlier _ _ _
          (sorted_addIfEarlier _ _ _ (sorted_addIfEarlier _ _ _
            (sorted_addIfEarlier _ _ _ (List.sorted_nil)))))))
    · exact sorted_addSuccessors _ _ _ _ (sorted_addIfEarlier _ _ _
        (sorted_addIfEarlier _ _ _ (sorted_addIfEarlier _ _ _
          (sorted_addIfEarlier _ _ _ (List.sorted_nil)))))
  · exact sorted_addIfEarlier _ _ _ (sorted_addIfEarlier _ _ _
      (sorted_addIfEarlier _ _ _ (List.sorted_nil)))

lemma zero_mem_hintedFor (info : DfaInfo) (curr : Nat) (h : 0 < curr) :
    0 ∈ hintedFor info curr := by
  have base : ∀ dest : List Nat, 0 ∈ dest ∨ (0 ∈ ([0] : List Nat)) := by simp
  have h0 : (0 : Nat) ∈ addIfEarlier [] 0 curr := by
    rw [mem_addIfEarlier]
    exact Or.inl ⟨rfl, h⟩
  simp only [hintedFor]
  split
  · split
    · exact subset_addSuccessors _ _ _ _ _ (subset_addIfEarlier _ _ _ _
        (subset_addSuccessors _ _ _ _ _ (subset_addIfEarlier _ _ _ _
          (subset_addIfEarlier _ _ _ _ (subset_addIfEarlier _ _ _ _ h0)))))
    · exact subset_addSuccessors _ _ _ _ _ (subset_addIfEarlier _ _ _ _
        (subset_addIfEarlier _ _ _ _ (subset_addIfEarlier _ _ _ _ h0)))
  · exact subset_addIfEarlier _ _ _ _ (subset_addIfEarlier _ _ _ _ h0)

lemma scoreOf_le (info : DfaInfo) (curr x : Nat) :
    scoreOf info curr x ≤ info.implAlphaSize := by
  rw [scoreOf]
  calc (List.range info.implAlphaSize).countP _ ≤ (List.range info.implAlphaSize).length :=
        List.countP_le_length _
    _ = info.implAlphaSize := List.length_range _

lemma daddySearch_ge (info : DfaInfo) (curr a : Nat) :
    ∀ (l : List Nat) (bd bs : Nat), bs ≤ (daddySearch info curr a l (bd, bs)).2 := by
  intro l
  induction l with
  | nil => intro bd bs; exact le_refl _
  | cons y rest ih =>
    intro bd bs
    simp only [daddySearch]
    split
    · exact ih bd bs
    · split
      · next hupd =>
        have hble : bs ≤ scoreOf info curr y := by
          rcases hupd with h | ⟨h, _⟩
          · exact le_of_lt h
          · exact le_of_eq h.symm
        split
        · exact hble
        · exact le_trans hble (ih y (scoreOf info curr y))
      · exact ih bd bs

lemma daddySearch_ub (info : DfaInfo) (curr a : Nat)
    (hbound : ∀ z : Nat, scoreOf info curr z ≤ a) :
    ∀ (l : List Nat) (bd bs : Nat) (x : Nat), x ∈ l →
      (info.extraAt x).shermanState = false →
      scoreOf info curr x ≤ (daddySearch info curr a l (bd, bs)).2 := by
  intro l
  induction l with
  | nil => intro bd bs x hx; cases hx
  | cons y rest ih =>
    intro bd bs x hx helig
    simp only [daddySearch]
    split
    · next hsh =>
      rcases List.mem_cons.1 hx with rfl | hx2
      · rw [helig] at hsh
        cases hsh
      · exact ih bd bs x hx2 helig
    · split
      · split
        · next heq => rw [heq]; exact hbound x
        · rcases List.mem_cons.1 hx with rfl | hx2
          · exact le_trans (le_refl _) (daddySearch_ge info curr a rest _ _)
          · exact ih _ _ x hx2 helig
      · next hupd =>
        rcases List.mem_cons.1 hx with rfl | hx2
        · have : scoreOf info curr x ≤ bs := by omega
          exact le_trans this (daddySearch_ge info curr a rest bd bs)
        · exact ih bd bs x hx2 helig

lemma daddySearch_achieves (info : DfaInfo) (curr a : Nat) :
    ∀ (l : List Nat) (bd bs : Nat),
      daddySearch info curr a l (bd, bs) = (bd, bs) ∨
      ((daddySearch info curr a l (bd, bs)).1 ∈ l ∧
       (info.extraAt (daddySearch info curr a l (bd, bs)).1).shermanState = false ∧
       scoreOf info curr (daddySearch info curr a l (bd, bs)).1 =
         (daddySearch info curr a l (bd, bs)).2) := by
  intro l
  induction l with
  | nil => intro bd bs; exact Or.inl rfl
  | cons y rest ih =>
    intro bd bs
    simp only [daddySearch]
    split
    · rcases ih bd bs with h | h
      · exact Or.inl h
      · exact Or.inr ⟨List.mem_cons_of_mem _ h.1, h.2⟩
    · next hsh =>
      have helig : (info.extraAt y).shermanState = false := by
        cases hb : (info.extraAt y).shermanState
        · rfl
        · exact absurd hb hsh
      split
      · split
        · exact Or.inr ⟨List.mem_cons_self _ _, helig, rfl⟩
        · rcases ih y (scoreOf info curr y) with h | h
          · rw [h]
            exact Or.inr ⟨List.mem_cons_self _ _, helig, rfl⟩
          · exact Or.inr ⟨List.mem_cons_of_mem _ h.1, h.2⟩
      · rcases ih bd bs with h | h
        · exact Or.inl h
        · exact Or.inr ⟨List.mem_cons_of_mem _ h.1, h.2⟩

lemma daddySearch_mono (info : DfaInfo) (curr a : Nat) :
    ∀ (l : List Nat), l.Sorted (· < ·) → ∀ (bd bs : Nat), (∀ x ∈ l, bd ≤ x) →
      daddySearch info curr a l (bd, bs) = (bd, bs) ∨
      bs < (daddySearch info curr a l (bd, bs)).2 := by
  intro l
  induction l with
  | nil => intro _ bd bs _; exact Or.inl rfl
  | cons y rest ih =>
    intro hsort bd bs hinv
    rw [List.sorted_cons] at hsort
    have hinvr : ∀ x ∈ rest, bd ≤ x := fun x hx => hinv x (List.mem_cons_of_mem _ hx)
    simp only [daddySearch]
    split
    · exact ih hsort.2 bd bs hinvr
    · split
      · next hupd =>
        have hstrict : bs < scoreOf info curr y := by
          rcases hupd with h | ⟨heq, hlt⟩
          · exact h
          · exact absurd hlt (by have := hinv y (List.mem_cons_self _ _); omega)
        split
        · exact Or.inr hstrict
        · rcases ih hsort.2 y (scoreOf info curr y)
              (fun x hx => le_of_lt (hsort.1 x hx)) with h | h
          · rw [h]
            exact Or.inr hstrict
          · exact Or.inr (lt_trans hstrict h)
      · exact ih hsort.2 bd bs hinvr

lemma daddySearch_min (info : DfaInfo) (curr a : Nat) :
    ∀ (l : List Nat), l.Sorted (· < ·) → ∀ (bd bs : Nat), (∀ x ∈ l, bd ≤ x) →
      ∀ x ∈ l, (info.extraAt x).shermanState = false →
        scoreOf info curr x = (daddySearch info curr a l (bd, bs)).2 →
        (daddySearch info curr a l (bd, bs)).1 ≤ x := by
  intro l
  induction l with
  | nil => intro _ bd bs _ x hx; cases hx
  | cons y rest ih =>
    intro hsort bd bs hinv x hx helig hscore
    rw [List.sorted_cons] at hsort
    have hinvr : ∀ z ∈ rest, bd ≤ z := fun z hz => hinv z (List.mem_cons_of_mem _ hz)
    simp only [daddySearch] at hscore ⊢
    by_cases hsh : (info.extraAt y).shermanState = true
    · rw [if_pos hsh] at hscore ⊢
      rcases List.mem_cons.1 hx with rfl | hx2
      · rw [helig] at hsh
        cases hsh
      · exact ih hsort.2 bd bs hinvr x hx2 helig hscore
    · rw [if_neg hsh] at hscore ⊢
      by_cases hupd : scoreOf info curr y > bs ∨ (scoreOf info curr y = bs ∧ y < bd)
      · rw [if_pos hupd] at hscore ⊢
        by_cases hbreak : scoreOf info curr y = a
        · rw [if_pos hbreak] at hscore ⊢
          rcases List.mem_cons.1 hx with rfl | hx2
          · exact le_refl _
          · exact le_of_lt (hsort.1 x hx2)
        · rw [if_neg hbreak] at hscore ⊢
          rcases List.mem_cons.1 hx with rfl | hx2
          · rcases daddySearch_mono info curr a rest hsort.2 x (scoreOf info curr x)
                (fun z hz => le_of_lt (hsort.1 z hz)) with h | h
            · rw [h]
            · omega
          · exact ih hsort.2 y (scoreOf info curr y)
              (fun z hz => le_of_lt (hsort.1 z hz)) x hx2 helig hscore
      · rw [if_neg hupd] at hscore ⊢
        rcases List.mem_cons.1 hx with rfl | hx2
        · rcases daddySearch_mono info curr a rest hsort.2 bd bs hinvr with h | h
          · rw [h] at hscore ⊢
            exact hinv x (List.mem_cons_self _ _)
          · omega
        · exact ih hsort.2 bd bs hinvr x hx2 helig hscore

lemma fbd_state_daddy (info : DfaInfo) (curr : Nat) (u8 cyc : Bool) (grey : Grey)
    (hg : grey.allowShermanStates = true)
    (h1 : ¬(info.raw.start_anchored ≠ DEAD_STATE ∧ cyc = true ∧
      curr < info.implAlphaSize * 3))
    (h2 : ¬(info.raw.start_floating ≠ DEAD_STATE ∧ info.raw.start_floating ≤ curr ∧
      curr < info.raw.start_floating + info.implAlphaSize * 3))
    (hcl : curr < info.size) :
    ((find_better_daddy info curr u8 cyc grey).state curr).daddy =
      (fbdSearch info curr).1 := by
  have hbase : ((fbdInfo1 info curr).state curr).daddy = (fbdSearch info curr).1 := by
    rw [fbdInfo1, state_setTaken, state_setDaddy_self _ _ _ hcl]
  rw [find_better_daddy_main _ _ _ _ _ hg h1 h2]
  split
  · exact hbase
  · split
    · exact hbase
    · split
      · exact hbase
      · exact hbase

lemma fbd_extraAt_taken (info : DfaInfo) (curr : Nat) (u8 cyc : Bool) (grey : Grey)
    (hg : grey.allowShermanStates = true)
    (h1 : ¬(info.raw.start_anchored ≠ DEAD_STATE ∧ cyc = true ∧
      curr < info.implAlphaSize * 3))
    (h2 : ¬(info.raw.start_floating ≠ DEAD_STATE ∧ info.raw.start_floating ≤ curr ∧
      curr < info.raw.start_floating + info.implAlphaSize * 3))
    (hce : curr < info.extra.length) :
    ((find_better_daddy info curr u8 cyc grey).extraAt curr).daddytaken =
      (fbdSearch info curr).2 := by
  have hce1 : curr < (fbdInfo1 info curr).extra.length := by
    rw [fbdInfo1, extra_length_setTaken, extra_length_setDaddy]
    exact hce
  have hbase : ((fbdInfo1 info curr).extraAt curr).daddytaken = (fbdSearch info curr).2 := by
    rw [fbdInfo1, extraAt_setTaken_self _ _ _ (by rw [extra_length_setDaddy]; exact hce)]
  rw [find_better_daddy_main _ _ _ _ _ hg h1 h2]
  split
  · exact hbase
  · split
    · exact hbase
    · split
      · exact hbase
      · rw [extraAt_setSherman_self _ _ hce1]
        exact hbase

/-- C5 (amended): for every state that `find_better_daddy` processes past
the near-start vetoes (with Sherman states enabled), `state.daddy` is set
to the best-scoring eligible earlier donor in the hinted set and
`daddytaken` to that donor's score (ties resolved to the lowest donor id).
States rejected by the near-start veto heuristics are NOT recorded: the
vetoes return before the donor search, so their `daddy`/`daddytaken` keep
their prior values (see `c5_daddy_recording_cex`). -/
theorem c5_daddy_recording (info : DfaInfo) (curr : Nat) (u8 cyc : Bool)
    (grey : Grey)
    (hg : grey.allowShermanStates = true)
    (h1 : ¬(info.raw.start_anchored ≠ DEAD_STATE ∧ cyc = true ∧
      curr < info.implAlphaSize * 3))
    (h2 : ¬(info.raw.start_floating ≠ DEAD_STATE ∧ info.raw.start_floating ≤ curr ∧
      curr < info.raw.start_floating + info.implAlphaSize * 3))
    (h0 : 0 < curr) (hcl : curr < info.size) (hce : curr < info.extra.length)
    (helig0 : (info.extraAt 0).shermanState = false) :
    ((find_better_daddy info curr u8 cyc grey).state curr).daddy ∈ hintedFor info curr ∧
    (info.extraAt ((find_better_daddy info curr u8 cyc grey).state curr).daddy).shermanState
      = false ∧
    scoreOf info curr ((find_better_daddy info curr u8 cyc grey).state curr).daddy =
      ((find_better_daddy info curr u8 cyc grey).extraAt curr).daddytaken ∧
    (∀ x ∈ hintedFor info curr, (info.extraAt x).shermanState = false →
      scoreOf info curr x ≤
        ((find_better_daddy info curr u8 cyc grey).extraAt curr).daddytaken) ∧
    (∀ x ∈ hintedFor info curr, (info.extraAt x).shermanState = false →
      scoreOf info curr x =
        ((find_better_daddy info curr u8 cyc grey).extraAt curr).daddytaken →
      ((find_better_daddy info curr u8 cyc grey).state curr).daddy ≤ x) := by
  rw [fbd_state_daddy info curr u8 cyc grey hg h1 h2 hcl,
    fbd_extraAt_taken info curr u8 cyc grey hg h1 h2 hce]
  have hzero : ∀ x ∈ hintedFor info curr, (0 : Nat) ≤ x := fun x _ => Nat.zero_le x
  have hsorted := hintedFor_sorted info curr
  have hbound : ∀ z : Nat, scoreOf info curr z ≤ info.implAlphaSize :=
    fun z => scoreOf_le info curr z
  have hach := daddySearch_achieves info curr info.implAlphaSize
    (hintedFor info curr) 0 0
  have hub := daddySearch_ub info curr info.implAlphaSize hbound
    (hintedFor info curr) 0 0
  have hmin := daddySearch_min info curr info.implAlphaSize
    (hintedFor info curr) hsorted 0 0 hzero
  rw [fbdSearch]
  constructor
  · rcases hach with h | h
    · rw [h]
      exact zero_mem_hintedFor info curr h0
    · exact h.1
  constructor
  · rcases hach with h | h
    · rw [h]
      exact helig0
    · exact h.2.1
  constructor
  · rcases hach with h | h
    · rw [h]
      have hb0 := hub 0 (zero_mem_hintedFor info curr h0) helig0
      rw [h] at hb0
      simp only [Prod.fst, Prod.snd] at hb0 ⊢
      omega
    · exact h.2.2
  constructor
  · exact fun x hx he => hub x hx he
  · exact fun x hx he hs => hmin x hx he hs

/-- Witness for C5 (amended): for the non-vetoed state 1 of `dfa4` the
recorded daddy is in the hinted set. -/
theorem c5_daddy_recording_witness :
    (0 : Nat) < 1 ∧ 1 < info4.size ∧ (info4.extraAt 0).shermanState = false ∧
    ((find_better_daddy info4 1 false (is_cyclic_near dfa4 dfa4.start_anchored)
      grey4).state 1).daddy ∈ hintedFor info4 1 :=
  ⟨by decide, by decide, by decide,
   (c5_daddy_recording info4 1 false (is_cyclic_near dfa4 dfa4.start_anchored) grey4
     (by decide) (by decide) (by decide) (by decide) (by decide) (by decide)
     (by decide)).1⟩

/-- Counterexample for C5 as stated: in `dfa5` state 2 falls inside the
near-anchored-start veto window, so `find_better_daddy` returns before the
donor search; its daddy stays 0 with `daddytaken = 0`, even though the
eligible hinted donor 1 scores 4 — contradicting the claim that daddy and
daddytaken are recorded even for vetoed states. -/
theorem c5_daddy_recording_cex :
    grey4.allowShermanStates = true ∧
    dfa5.start_anchored ≠ DEAD_STATE ∧
    is_cyclic_near dfa5 dfa5.start_anchored = true ∧
    2 < info5.implAlphaSize * 3 ∧
    1 ∈ hintedFor info5 2 ∧
    (info5.extraAt 1).shermanState = false ∧
    scoreOf info5 2 1 = 4 ∧
    ((find_better_daddy info5 2 false (is_cyclic_near dfa5 dfa5.start_anchored)
      grey4).state 2).daddy = 0 ∧
    ((find_better_daddy info5 2 false (is_cyclic_near dfa5 dfa5.start_anchored)
      grey4).extraAt 2).daddytaken = 0 := by
  decide

/-! ### Lemmas: report gathering -/

lemma findIdx?_spec {α : Type} (p : α → Bool) (d : α) :
    ∀ (l : List α) (s k : Nat), List.findIdx? p l s = some k →
      s ≤ k ∧ k - s < l.length ∧ p (l.getD (k - s) d) = true := by
  intro l
  induction l with
  | nil => intro s k h; simp [List.findIdx?] at h
  | cons x xs ih =>
    intro s k h
    rw [List.findIdx?] at h
    split at h
    · next hp =>
      rw [Option.some_inj] at h
      subst h
      simpa using hp
    · obtain ⟨h1, h2, h3⟩ := ih (s + 1) k h
      refine ⟨by omega, by simp; omega, ?_⟩
      have hk : k - s = (k - (s + 1)) + 1 := by omega
      rw [hk, List.getD_cons_succ]
      exact h3

lemma findIdx?_zero_spec {α : Type} (p : α → Bool) (d : α) (l : List α) (k : Nat)
    (h : l.findIdx? p = some k) : k < l.length ∧ p (l.getD k d) = true := by
  have h2 := findIdx?_spec p d l 0 k h
  simpa using h2

lemma getD_append_self {α : Type} (l : List α) (x d : α) :
    (l ++ [x]).getD l.length d = x := by
  rw [List.getD_eq_getElem?_getD, List.getElem?_append_right (le_refl _)]
  simp

lemma getD_append_left {α : Type} (l ext : List α) (i : Nat) (d : α)
    (h : i < l.length) : (l ++ ext).getD i d = l.getD i d := by
  rw [List.getD_eq_getElem?_getD, List.getElem?_append_left h,
    List.getD_eq_getElem?_getD]

lemma gatherPass_rl_extend :
    ∀ (ss rl : List (Finset Nat)) (acc : List Nat),
      ∃ ext, (gatherPass rl acc ss).1 = rl ++ ext := by
  intro ss
  induction ss with
  | nil => intro rl acc; exact ⟨[], by simp [gatherPass]⟩
  | cons s rest ih =>
    intro rl acc
    simp only [gatherPass]
    split
    · exact ih rl _
    · split
      · exact ih rl _
      · obtain ⟨ext, hext⟩ := ih (rl ++ [s]) (acc ++ [rl.length])
        exact ⟨[s] ++ ext, by rw [hext, List.append_assoc]⟩

lemma unionIdx_append (rl : List (Finset Nat)) (init : Finset Nat)
    (idxs1 idxs2 : List Nat) :
    unionIdx rl init (idxs1 ++ idxs2) = unionIdx rl (unionIdx rl init idxs1) idxs2 := by
  simp [unionIdx, List.foldl_append]

lemma unionIdx_single (rl : List (Finset Nat)) (init : Finset Nat) (k : Nat) :
    unionIdx rl init [k] = if k = MO_INVALID_IDX then init else init ∪ rl.getD k ∅ := by
  simp [unionIdx]

lemma unionIdx_stable (rl ext : List (Finset Nat)) :
    ∀ (idxs : List Nat) (init : Finset Nat),
      (∀ i ∈ idxs, i ≠ MO_INVALID_IDX → i < rl.length) →
      unionIdx (rl ++ ext) init idxs = unionIdx rl init idxs := by
  intro idxs
  induction idxs with
  | nil => intro init _; rfl
  | cons i rest ih =>
    intro init hb
    simp only [unionIdx, List.foldl_cons]
    by_cases hi : i = MO_INVALID_IDX
    · rw [if_pos hi, if_pos hi]
      exact ih init fun j hj => hb j (List.mem_cons_of_mem _ hj)
    · rw [if_neg hi, if_neg hi,
        getD_append_left _ _ _ _ (hb i (List.mem_cons_self _ _) hi)]
      exact ih _ fun j hj => hb j (List.mem_cons_of_mem _ hj)

lemma foldl_union_hoist :
    ∀ (sets : List (Finset Nat)) (init : Finset Nat),
      sets.foldl (· ∪ ·) init = init ∪ sets.foldl (· ∪ ·) ∅ := by
  intro sets
  induction sets with
  | nil => intro init; simp
  | cons s rest ih =>
    intro init
    rw [List.foldl_cons, List.foldl_cons, ih (init ∪ s), ih (∅ ∪ s)]
    simp [Finset.union_assoc]

lemma gatherPass_spec :
    ∀ (ss rl : List (Finset Nat)) (acc : List Nat),
      rl.length + ss.length < MO_INVALID_IDX →
      (∀ i ∈ acc, i ≠ MO_INVALID_IDX → i < rl.length) →
      (∀ i ∈ (gatherPass rl acc ss).2, i ≠ MO_INVALID_IDX →
        i < (gatherPass rl acc ss).1.length) ∧
      unionIdx (gatherPass rl acc ss).1 ∅ (gatherPass rl acc ss).2 =
        unionIdx rl ∅ acc ∪ ss.foldl (· ∪ ·) ∅ := by
  intro ss
  induction ss with
  | nil =>
    intro rl acc hlen hacc
    refine ⟨by simpa [gatherPass] using hacc, by simp [gatherPass]⟩
  | cons s rest ih =>
    intro rl acc hlen hacc
    rw [List.length_cons] at hlen
    simp only [gatherPass]
    split
    · next hs =>
      have hacc1 : ∀ i ∈ acc ++ [MO_INVALID_IDX], i ≠ MO_INVALID_IDX →
          i < rl.length := by
        intro i hi hne
        rcases List.mem_append.1 hi with h | h
        · exact hacc i h hne
        · simp at h
          exact absurd h hne
      have hres := ih rl (acc ++ [MO_INVALID_IDX]) (by omega) hacc1
      refine ⟨hres.1, ?_⟩
      rw [hres.2, unionIdx_append, unionIdx_single, if_pos rfl, List.foldl_cons,
        hs, foldl_union_hoist rest (∅ ∪ ∅)]
      simp [Finset.union_assoc]
    · next hs =>
      split
      · next k hk =>
        obtain ⟨hklt, hkp⟩ := findIdx?_zero_spec _ ∅ rl k hk
        have hkeq : rl.getD k ∅ = s := by simpa [beq_iff_eq] using hkp
        have hkne : k ≠ MO_INVALID_IDX := by omega
        have hacc1 : ∀ i ∈ acc ++ [k], i ≠ MO_INVALID_IDX → i < rl.length := by
          intro i hi hne
          rcases List.mem_append.1 hi with h | h
          · exact hacc i h hne
          · simp at h
            omega
        have hres := ih rl (acc ++ [k]) (by omega) hacc1
        refine ⟨hres.1, ?_⟩
        rw [hres.2, unionIdx_append, unionIdx_single, if_neg hkne, hkeq,
          List.foldl_cons, foldl_union_hoist rest (∅ ∪ s)]
        simp [Finset.union_assoc]
      · have hlne : rl.length ≠ MO_INVALID_IDX := by omega
        have hacc1 : ∀ i ∈ acc ++ [rl.length], i ≠ MO_INVALID_IDX →
            i < (rl ++ [s]).length := by
          intro i hi hne
          rcases List.mem_append.1 hi with h | h
          · have := hacc i h hne
            simp
            omega
          · simp at h
            simp
            omega
        have hres := ih (rl ++ [s]) (acc ++ [rl.length]) (by simp; omega) hacc1
        refine ⟨hres.1, ?_⟩
        rw [hres.2, unionIdx_append, unionIdx_single, if_neg hlne,
          getD_append_self, List.foldl_cons, foldl_union_hoist rest (∅ ∪ s)]
        have hstab : unionIdx (rl ++ [s]) ∅ acc = unionIdx rl ∅ acc :=
          unionIdx_stable rl [s] acc ∅ hacc
        rw [hstab]
        simp [Finset.union_assoc]

lemma gatherReports_reps (states : List DState)
    (h : 2 * states.length < MO_INVALID_IDX) :
    unionIdx (gatherPass (gatherPass [] [] (states.map fun s => s.reports)).1 []
        (states.map fun s => s.reports_eod)).1 ∅
      (gatherPass [] [] (states.map fun s => s.reports)).2 = allReports states := by
  have hlen1 : ([] : List (Finset Nat)).length +
      (states.map fun s => s.reports).length < MO_INVALID_IDX := by
    simp
    omega
  have hs1 := gatherPass_spec (states.map fun s => s.reports) [] []
    hlen1 (by simp)
  obtain ⟨ext, hext⟩ := gatherPass_rl_extend (states.map fun s => s.reports_eod)
    (gatherPass [] [] (states.map fun s => s.reports)).1 []
  rw [hext, unionIdx_stable _ _ _ _ hs1.1, hs1.2]
  have : allReports states = (states.map fun s => s.reports).foldl (· ∪ ·) ∅ := by
    rw [allReports, List.foldl_map]
  rw [this]
  simp [unionIdx]

/-- C7: `gatherReports` sets `isSingleReport` to true iff the union over
all states of the non-EOD accept report sets has exactly one element, and
in that case `arbReport` is that unique report id. -/
theorem c7_gather_single_report (states : List DState)
    (h : 2 * states.length < MO_INVALID_IDX) :
    ((gatherReports states).single = true ↔ (allReports states).card = 1) ∧
    ((gatherReports states).single = true →
      ∀ r ∈ allReports states, (gatherReports states).arb = r) := by
  have hreps := gatherReports_reps states h
  simp only [gatherReports]
  split
  · next hcard =>
    rw [hreps] at hcard
    constructor
    · simp [hcard]
    · intro _ r hr
      obtain ⟨a, ha⟩ := Finset.card_eq_one.1 hcard
      rw [ha] at hr
      rw [Finset.mem_singleton] at hr
      subst hr
      show WithTop.untop' 0 _ = r
      rw [hreps, ha, Finset.min_singleton]
      rfl
  · next hcard =>
    rw [hreps] at hcard
    constructor
    · constructor
      · intro hfalse
        cases hfalse
      · intro hc
        exact absurd hc hcard
    · intro hfalse
      cases hfalse

/-- Witness for C7. -/
theorem c7_gather_single_report_witness :
    2 * dfa2.states.length < MO_INVALID_IDX ∧
    ((gatherReports dfa2.states).single = true ↔ (allReports dfa2.states).card = 1) :=
  ⟨by decide, (c7_gather_single_report dfa2.states (by decide)).1⟩

/-! ### Lemmas: row writes and state-number allocation -/

lemma writeRow_eq (f : Nat → Nat) (base : Nat) (g : Nat → Nat) :
    ∀ (n : Nat) (p : Nat), writeRow f base g n p =
      if base ≤ p ∧ p < base + n then g (p - base) else f p := by
  intro n
  induction n with
  | zero =>
    intro p
    rw [writeRow]
    simp only [List.range_zero, List.foldl_nil]
    rw [if_neg (by omega)]
  | succ m ih =>
    intro p
    rw [writeRow, List.range_succ, List.foldl_append]
    simp only [List.foldl_cons, List.foldl_nil]
    show (if p = base + m then g m else writeRow f base g m p) = _
    by_cases hp : p = base + m
    · rw [if_pos hp, if_pos (by omega)]
      rw [hp]
      simp
    · rw [if_neg hp, ih p]
      by_cases h1 : base ≤ p ∧ p < base + m
      · rw [if_pos h1, if_pos (by omega)]
      · rw [if_neg h1, if_neg (by omega)]

lemma block_eq (k x y j j' : Nat) (hj : j < 2 ^ k) (hj' : j' < 2 ^ k)
    (h : x * 2 ^ k + j = y * 2 ^ k + j') : x = y ∧ j = j' := by
  have hx : (x * 2 ^ k + j) / 2 ^ k = x := by
    rw [Nat.add_comm, Nat.add_mul_div_right _ _ (Nat.pos_pow_of_pos k (by norm_num)),
      Nat.div_eq_of_lt hj]
    omega
  have hy : (y * 2 ^ k + j') / 2 ^ k = y := by
    rw [Nat.add_comm, Nat.add_mul_div_right _ _ (Nat.pos_pow_of_pos k (by norm_num)),
      Nat.div_eq_of_lt hj']
    omega
  have hxy : x = y := by rw [← hx, ← hy, h]
  refine ⟨hxy, ?_⟩
  rw [hxy] at h
  omega

lemma block_div (k x j : Nat) (hj : j < 2 ^ k) : (x * 2 ^ k + j) / 2 ^ k = x := by
  rw [Nat.add_comm, Nat.add_mul_div_right _ _ (Nat.pos_pow_of_pos k (by norm_num)),
    Nat.div_eq_of_lt hj]
  omega

lemma block_mod (k x j : Nat) (hj : j < 2 ^ k) : (x * 2 ^ k + j) % 2 ^ k = j := by
  rw [Nat.add_comm, Nat.add_mul_mod_self_right, Nat.mod_eq_of_lt hj]

lemma implAlphaSize_le_shift (info : DfaInfo) (h : info.implAlphaSize ≤ 65536) :
    info.implAlphaSize ≤ 2 ^ info.getAlphaShift := by
  rw [DfaInfo.getAlphaShift]
  split
  · next hlt => omega
  · next hge =>
    cases hf : (List.range 32).filter
        (fun k => decide (info.implAlphaSize - 1 < 2 ^ k)) with
    | nil =>
      exfalso
      have h17 : (17 : Nat) ∈ (List.range 32).filter
          (fun k => decide (info.implAlphaSize - 1 < 2 ^ k)) := by
        rw [List.mem_filter]
        refine ⟨by simp, ?_⟩
        simp only [decide_eq_true_eq]
        calc info.implAlphaSize - 1 ≤ 65535 := by omega
        _ < 2 ^ 17 := by norm_num
      rw [hf] at h17
      cases h17
    | cons k t =>
      have hk : k ∈ (List.range 32).filter
          (fun j => decide (info.implAlphaSize - 1 < 2 ^ j)) := by
        rw [hf]
        exact List.mem_cons_self _ _
      rw [List.mem_filter] at hk
      have := hk.2
      simp only [decide_eq_true_eq] at this
      simp only [List.headD_cons]
      omega

lemma assignFold_append (p : DfaInfo × Nat) (l1 l2 : List Nat) :
    assignFold p (l1 ++ l2) = assignFold (assignFold p l1) l2 := by
  simp [assignFold, List.foldl_append]

lemma assignFold_snd : ∀ (l : List Nat) (info : DfaInfo) (k : Nat),
    (assignFold (info, k) l).2 = k + l.length := by
  intro l
  induction l with
  | nil => intro info k; simp [assignFold]
  | cons x xs ih =>
    intro info k
    rw [assignFold, List.foldl_cons]
    have := ih (info.setImpl x k) (k + 1)
    rw [assignFold] at this
    rw [this, List.length_cons]
    omega

lemma assignFold_size : ∀ (l : List Nat) (info : DfaInfo) (k : Nat),
    (assignFold (info, k) l).1.size = info.size := by
  intro l
  induction l with
  | nil => intro info k; rfl
  | cons x xs ih =>
    intro info k
    rw [assignFold, List.foldl_cons]
    have := ih (info.setImpl x k) (k + 1)
    rw [assignFold] at this
    rw [this, size_setImpl]

lemma assignFold_extra : ∀ (l : List Nat) (info : DfaInfo) (k : Nat),
    (assignFold (info, k) l).1.extra = info.extra := by
  intro l
  induction l with
  | nil => intro info k; rfl
  | cons x xs ih =>
    intro info k
    rw [assignFold, List.foldl_cons]
    exact ih (info.setImpl x k) (k + 1)

lemma assignFold_raw_const : ∀ (l : List Nat) (info : DfaInfo) (k : Nat),
    (assignFold (info, k) l).1.raw.alpha_size = info.raw.alpha_size ∧
    (assignFold (info, k) l).1.raw.alpha_remap = info.raw.alpha_remap ∧
    (assignFold (info, k) l).1.raw.start_anchored = info.raw.start_anchored ∧
    (assignFold (info, k) l).1.raw.start_floating = info.raw.start_floating ∧
    (assignFold (info, k) l).1.raw.generatesCallbacks = info.raw.generatesCallbacks := by
  intro l
  induction l with
  | nil => intro info k; exact ⟨rfl, rfl, rfl, rfl, rfl⟩
  | cons x xs ih =>
    intro info k
    rw [assignFold, List.foldl_cons]
    exact ih (info.setImpl x k) (k + 1)

lemma assignFold_state_not_mem : ∀ (l : List Nat) (info : DfaInfo) (k s : Nat),
    s ∉ l → (assignFold (info, k) l).1.state s = info.state s := by
  intro l
  induction l with
  | nil => intro info k s _; rfl
  | cons x xs ih =>
    intro info k s hs
    rw [assignFold, List.foldl_cons]
    have hne : s ≠ x := fun h => hs (h ▸ List.mem_cons_self _ _)
    have := ih (info.setImpl x k) (k + 1) s (fun h => hs (List.mem_cons_of_mem _ h))
    rw [assignFold] at this
    rw [this, state_setImpl_ne _ _ _ _ hne]

lemma assignFold_state_fields : ∀ (l : List Nat) (info : DfaInfo) (k s : Nat),
    ((assignFold (info, k) l).1.state s).next = (info.state s).next ∧
    ((assignFold (info, k) l).1.state s).reports = (info.state s).reports ∧
    ((assignFold (info, k) l).1.state s).reports_eod = (info.state s).reports_eod ∧
    ((assignFold (info, k) l).1.state s).daddy = (info.state s).daddy := by
  intro l
  induction l with
  | nil => intro info k s; exact ⟨rfl, rfl, rfl, rfl⟩
  | cons x xs ih =>
    intro info k s
    rw [assignFold, List.foldl_cons]
    have h1 := ih (info.setImpl x k) (k + 1) s
    rw [assignFold] at h1
    have h2 := state_setImpl_fields info x s k
    exact ⟨h1.1.trans h2.1, h1.2.1.trans h2.2.1, h1.2.2.1.trans h2.2.2.1,
      h1.2.2.2.trans h2.2.2.2⟩

lemma assignFold_impl_mem : ∀ (l : List Nat) (info : DfaInfo) (k : Nat),
    l.Nodup → (∀ x ∈ l, x < info.size) →
    ∀ s ∈ l, (assignFold (info, k) l).1.implId s = k + l.indexOf s := by
  intro l
  induction l with
  | nil => intro info k _ _ s hs; cases hs
  | cons x xs ih =>
    intro info k hnd hbound s hs
    rw [List.nodup_cons] at hnd
    rcases List.mem_cons.1 hs with rfl | hs2
    · rw [show assignFold (info, k) (s :: xs) =
        assignFold (info.setImpl s k, k + 1) xs from rfl]
      rw [DfaInfo.implId, assignFold_state_not_mem xs _ _ s hnd.1,
        state_setImpl_self _ _ _ (hbound s (List.mem_cons_self _ _))]
      simp [List.indexOf_cons_self]
    · have hne : s ≠ x := fun h => hnd.1 (h ▸ hs2)
      rw [show assignFold (info, k) (x :: xs) =
        assignFold (info.setImpl x k, k + 1) xs from rfl]
      rw [ih (info.setImpl x k) (k + 1) hnd.2
        (fun y hy => by rw [size_setImpl]; exact hbound y (List.mem_cons_of_mem _ hy))
        s hs2]
      rw [List.indexOf_cons_ne _ (Ne.symm hne)]
      omega

lemma countP_split {α : Type} (l : List α) (q r : α → Bool) :
    l.countP (fun x => q x && r x) + l.countP (fun x => q x && ! r x) = l.countP q := by
  induction l with
  | nil => simp
  | cons x xs ih =>
    rw [List.countP_cons, List.countP_cons, List.countP_cons]
    cases hq : q x <;> cases hr : r x <;> simp [hq, hr] <;> omega

lemma countP_one_le_range : ∀ (n : Nat),
    (List.range n).countP (fun i => decide (1 ≤ i)) = n - 1 := by
  intro n
  induction n with
  | zero => simp
  | succ m ih =>
    rw [List.range_succ, List.countP_append, ih]
    cases m with
    | zero => simp
    | succ p => simp [List.countP_cons]

lemma indexOf_append_of_mem {α : Type} [DecidableEq α] (a : α) :
    ∀ (l1 l2 : List α), a ∈ l1 → (l1 ++ l2).indexOf a = l1.indexOf a := by
  intro l1
  induction l1 with
  | nil => intro l2 h; cases h
  | cons x xs ih =>
    intro l2 h
    by_cases hax : a = x
    · subst hax
      simp [List.indexOf_cons_self]
    · rcases List.mem_cons.1 h with h1 | h2
      · exact absurd h1 hax
      · rw [List.cons_append, List.indexOf_cons_ne _ (Ne.symm hax),
          List.indexOf_cons_ne _ (Ne.symm hax), ih l2 h2]

lemma indexOf_append_of_not_mem {α : Type} [DecidableEq α] (a : α) :
    ∀ (l1 l2 : List α), a ∉ l1 →
      (l1 ++ l2).indexOf a = l1.length + l2.indexOf a := by
  intro l1
  induction l1 with
  | nil => intro l2 _; simp
  | cons x xs ih =>
    intro l2 h
    have hax : a ≠ x := fun hh => h (hh ▸ List.mem_cons_self _ _)
    rw [List.cons_append, List.indexOf_cons_ne _ (Ne.symm hax),
      ih l2 (fun hh => h (List.mem_cons_of_mem _ hh)), List.length_cons]
    omega

lemma isSherman_setImpl (info : DfaInfo) (i v s : Nat) :
    (info.setImpl i v).isSherman s = info.isSherman s := rfl

lemma mem_norm16 (info : DfaInfo) (x : Nat) :
    x ∈ norm16 info ↔ 1 ≤ x ∧ x < info.size ∧ info.isSherman x = false := by
  rw [norm16, List.mem_filter, List.mem_range, size_setImpl]
  simp only [Bool.and_eq_true, decide_eq_true_eq, Bool.not_eq_true',
    isSherman_setImpl]
  tauto

lemma mem_sherm16 (info : DfaInfo) (x : Nat) :
    x ∈ sherm16 info ↔ 1 ≤ x ∧ x < info.size ∧ info.isSherman x = true := by
  rw [sherm16, List.mem_filter, List.mem_range, size_setImpl]
  simp only [Bool.and_eq_true, decide_eq_true_eq]
  tauto

lemma norm16_sherm16_nodup (info : DfaInfo) :
    (norm16 info ++ sherm16 info).Nodup := by
  refine List.Nodup.append ?_ ?_ ?_
  · exact List.Nodup.filter _ (List.nodup_range _)
  · exact List.Nodup.filter _ (List.nodup_range _)
  · intro x hx hx2
    rw [mem_norm16] at hx
    rw [mem_sherm16] at hx2
    rw [hx.2.2] at hx2
    cases hx2.2.2

lemma filter16_norm (info : DfaInfo) :
    ((List.range (info.setImpl 0 0).size).filter fun i =>
      decide (1 ≤ i) && ! (info.setImpl 0 0).isSherman i) = norm16 info := rfl

lemma filter16_sherm (info : DfaInfo) :
    ((List.range (info.setImpl 0 0).size).filter fun i =>
      decide (1 ≤ i) && (info.setImpl 0 0).isSherman i) = sherm16 info := rfl

lemma norm16_sherm16_length (info : DfaInfo) :
    (norm16 info).length + (sherm16 info).length = info.size - 1 := by
  rw [norm16, sherm16, ← List.countP_eq_length_filter, ← List.countP_eq_length_filter]
  have hsplit : (List.range (info.setImpl 0 0).size).countP
        (fun i => decide (1 ≤ i) && (info.setImpl 0 0).isSherman i) +
      (List.range (info.setImpl 0 0).size).countP
        (fun i => decide (1 ≤ i) && ! (info.setImpl 0 0).isSherman i) =
      (List.range (info.setImpl 0 0).size).countP (fun i => decide (1 ≤ i)) :=
    countP_split _ _ _
  have hone : (List.range (info.setImpl 0 0).size).countP
      (fun i => decide (1 ≤ i)) = info.size - 1 := by
    rw [countP_one_le_range, size_setImpl]
  omega

lemma mem_norm16_or_sherm16 (info : DfaInfo) (x : Nat) (h1 : 1 ≤ x)
    (h2 : x < info.size) : x ∈ norm16 info ++ sherm16 info := by
  rw [List.mem_append, mem_norm16, mem_sherm16]
  cases hs : info.isSherman x
  · exact Or.inl ⟨h1, h2, rfl⟩
  · exact Or.inr ⟨h1, h2, rfl⟩

lemma allocateFSN16_fst (info : DfaInfo)
    (h : ¬ (1 <<< 16 < (info.setImpl 0 0).size)) :
    (allocateFSN16 info).1 =
      (assignFold (info.setImpl 0 0, 1) (norm16 info ++ sherm16 info)).1 := by
  simp only [allocateFSN16]
  rw [if_neg h]
  rw [assignFold_append]
  split
  · rfl
  · rfl

lemma allocateFSN16_base (info : DfaInfo)
    (h : ¬ (1 <<< 16 < (info.setImpl 0 0).size)) :
    (allocateFSN16 info).2.1 = 1 + (norm16 info).length := by
  simp only [allocateFSN16]
  rw [if_neg h]
  have hsnd := assignFold_snd (norm16 info) (info.setImpl 0 0) 1
  split
  · exact hsnd
  · exact hsnd

lemma allocateFSN16_ok (info : DfaInfo)
    (h : ¬ (1 <<< 16 < (info.setImpl 0 0).size)) :
    ((allocateFSN16 info).2.2 = true) ↔
      ((info.size - 1) &&& STATE_MASK = info.size - 1) := by
  simp only [allocateFSN16]
  rw [if_neg h, filter16_norm, filter16_sherm]
  have e1 := assignFold_snd (norm16 info) (info.setImpl 0 0) 1
  have e2 := assignFold_snd (sherm16 info)
    (assignFold (info.setImpl 0 0, 1) (norm16 info)).1
    (assignFold (info.setImpl 0 0, 1) (norm16 info)).2
  have hlen := norm16_sherm16_length info
  have e3 : (assignFold ((assignFold (info.setImpl 0 0, 1) (norm16 info)).1,
      (assignFold (info.setImpl 0 0, 1) (norm16 info)).2) (sherm16 info)).2 - 1 =
      info.size - 1 := by
    rw [e2, e1]
    omega
  split
  · next hcond =>
    rw [e3] at hcond
    constructor
    · intro hf
      cases hf
    · intro hmask
      exact absurd hmask hcond
  · next hcond =>
    rw [e3] at hcond
    rw [not_not] at hcond
    simp [hcond]

lemma allocateFSN16_spec (info : DfaInfo)
    (h : ¬ (1 <<< 16 < (info.setImpl 0 0).size)) (hpos : 0 < info.size) :
    (allocateFSN16 info).1.size = info.size ∧
    (allocateFSN16 info).1.extra = info.extra ∧
    (∀ s, ((allocateFSN16 info).1.state s).next = (info.state s).next ∧
          ((allocateFSN16 info).1.state s).reports = (info.state s).reports ∧
          ((allocateFSN16 info).1.state s).reports_eod = (info.state s).reports_eod ∧
          ((allocateFSN16 info).1.state s).daddy = (info.state s).daddy) ∧
    (allocateFSN16 info).1.raw.alpha_size = info.raw.alpha_size ∧
    (allocateFSN16 info).1.raw.alpha_remap = info.raw.alpha_remap ∧
    (allocateFSN16 info).1.raw.start_anchored = info.raw.start_anchored ∧
    (allocateFSN16 info).1.raw.start_floating = info.raw.start_floating ∧
    (allocateFSN16 info).1.implId 0 = 0 ∧
    (∀ s, 1 ≤ s → s < info.size →
      (allocateFSN16 info).1.implId s =
        1 + (norm16 info ++ sherm16 info).indexOf s) ∧
    (∀ s, 1 ≤ s → s < info.size → info.isSherman s = false →
      1 ≤ (allocateFSN16 info).1.implId s ∧
      (allocateFSN16 info).1.implId s < (allocateFSN16 info).2.1) ∧
    (∀ s, 1 ≤ s → s < info.size → info.isSherman s = true →
      (allocateFSN16 info).2.1 ≤ (allocateFSN16 info).1.implId s ∧
      (allocateFSN16 info).1.implId s < info.size) := by
  have hfst := allocateFSN16_fst info h
  have hbase := allocateFSN16_base info h
  have hnd := norm16_sherm16_nodup info
  have hlen := norm16_sherm16_length info
  have hbound : ∀ x ∈ norm16 info ++ sherm16 info, x < (info.setImpl 0 0).size := by
    intro x hx
    rw [size_setImpl]
    rcases List.mem_append.1 hx with hh | hh
    · exact ((mem_norm16 info x).1 hh).2.1
    · exact ((mem_sherm16 info x).1 hh).2.1
  have himpl := assignFold_impl_mem (norm16 info ++ sherm16 info)
    (info.setImpl 0 0) 1 hnd hbound
  have h0notmem : (0 : Nat) ∉ norm16 info ++ sherm16 info := by
    intro h0
    rcases List.mem_append.1 h0 with hh | hh
    · have := ((mem_norm16 info 0).1 hh).1
      omega
    · have := ((mem_sherm16 info 0).1 hh).1
      omega
  refine ⟨?_, ?_, ?_, ?_, ?_, ?_, ?_, ?_, ?_, ?_, ?_⟩
  · rw [hfst, assignFold_size, size_setImpl]
  · rw [hfst, assignFold_extra]
    rfl
  · intro s
    rw [hfst]
    have h1 := assignFold_state_fields (norm16 info ++ sherm16 info)
      (info.setImpl 0 0) 1 s
    have h2 := state_setImpl_fields info 0 s 0
    exact ⟨h1.1.trans h2.1, h1.2.1.trans h2.2.1, h1.2.2.1.trans h2.2.2.1,
      h1.2.2.2.trans h2.2.2.2⟩
  · rw [hfst]
    exact (assignFold_raw_const _ _ _).1
  · rw [hfst]
    exact (assignFold_raw_const _ _ _).2.1
  · rw [hfst]
    exact (assignFold_raw_const _ _ _).2.2.1
  · rw [hfst]
    exact (assignFold_raw_const _ _ _).2.2.2.1
  · rw [hfst, DfaInfo.implId,
      assignFold_state_not_mem _ _ _ _ h0notmem, state_setImpl_self _ _ _ hpos]
  · intro s h1 h2
    rw [hfst]
    exact himpl s (mem_norm16_or_sherm16 info s h1 h2)
  · intro s h1 h2 hsh
    have hmem : s ∈ norm16 info := (mem_norm16 info s).2 ⟨h1, h2, hsh⟩
    have hidx : (norm16 info ++ sherm16 info).indexOf s = (norm16 info).indexOf s :=
      indexOf_append_of_mem s _ _ hmem
    have hlt : (norm16 info).indexOf s < (norm16 info).length :=
      List.indexOf_lt_length.2 hmem
    rw [hfst, himpl s (List.mem_append.2 (Or.inl hmem)), hidx, hbase]
    omega
  · intro s h1 h2 hsh
    have hmem : s ∈ sherm16 info := (mem_sherm16 info s).2 ⟨h1, h2, hsh⟩
    have hnotn : s ∉ norm16 info := by
      intro hh
      rw [mem_norm16] at hh
      rw [hh.2.2] at hsh
      cases hsh
    have hidx : (norm16 info ++ sherm16 info).indexOf s =
        (norm16 info).length + (sherm16 info).indexOf s :=
      indexOf_append_of_not_mem s _ _ hnotn
    have hlt : (sherm16 info).indexOf s < (sherm16 info).length :=
      List.indexOf_lt_length.2 hmem
    rw [hfst, himpl s (List.mem_append.2 (Or.inr hmem)), hidx, hbase]
    omega

lemma allocateFSN16_inj (info : DfaInfo)
    (h : ¬ (1 <<< 16 < (info.setImpl 0 0).size)) (hpos : 0 < info.size) :
    ∀ s t, s < info.size → t < info.size →
      (allocateFSN16 info).1.implId s = (allocateFSN16 info).1.implId t → s = t := by
  obtain ⟨_, _, _, _, _, _, _, h0, hidx, _, _⟩ := allocateFSN16_spec info h hpos
  intro s t hs ht heq
  rcases Nat.eq_zero_or_pos s with rfl | hs1
  · rcases Nat.eq_zero_or_pos t with rfl | ht1
    · rfl
    · rw [h0, hidx t ht1 ht] at heq
      omega
  · rcases Nat.eq_zero_or_pos t with rfl | ht1
    · rw [h0, hidx s hs1 hs] at heq
      omega
    · rw [hidx s hs1 hs, hidx t ht1 ht] at heq
      have hmem_s := mem_norm16_or_sherm16 info s hs1 hs
      have hmem_t := mem_norm16_or_sherm16 info t ht1 ht
      have : (norm16 info ++ sherm16 info).indexOf s =
          (norm16 info ++ sherm16 info).indexOf t := by omega
      exact (List.indexOf_inj hmem_s hmem_t).1 this

lemma allocateFSN16_impl_lt (info : DfaInfo)
    (h : ¬ (1 <<< 16 < (info.setImpl 0 0).size)) (hpos : 0 < info.size) :
    ∀ s, s < info.size → (allocateFSN16 info).1.implId s < info.size := by
  obtain ⟨_, _, _, _, _, _, _, h0, hidx, hzn, hzs⟩ := allocateFSN16_spec info h hpos
  intro s hs
  rcases Nat.eq_zero_or_pos s with rfl | hs1
  · rw [h0]
    exact hpos
  · cases hsh : info.isSherman s
    · have hb := allocateFSN16_base info h
      have := (hzn s hs1 hs hsh).2
      have hlen := norm16_sherm16_length info
      have hle : (allocateFSN16 info).2.1 ≤ info.size := by
        rw [hb]
        omega
      omega
    · exact (hzs s hs1 hs hsh).2

lemma isAccel_setImpl (info : DfaInfo) (i v s : Nat) :
    (info.setImpl i v).isAccel s = info.isAccel s := rfl

lemma mem_normL8 (info : DfaInfo) (x : Nat) :
    x ∈ normL8 info ↔
      1 ≤ x ∧ x < info.size ∧ (info.state x).reports = ∅ ∧ info.isAccel x = false := by
  rw [normL8, List.mem_filter, List.mem_range, size_setImpl]
  simp only [Bool.and_eq_true, decide_eq_true_eq, Bool.not_eq_true',
    isAccel_setImpl, decide_eq_false_iff_not, Bool.not_eq_true,
    (state_setImpl_fields info 0 x 0).2.1, not_not]
  tauto

lemma mem_accelL8 (info : DfaInfo) (x : Nat) :
    x ∈ accelL8 info ↔
      1 ≤ x ∧ x < info.size ∧ (info.state x).reports = ∅ ∧ info.isAccel x = true := by
  rw [accelL8, List.mem_filter, List.mem_range, size_setImpl]
  simp only [Bool.and_eq_true, decide_eq_true_eq, Bool.not_eq_true',
    isAccel_setImpl, decide_eq_false_iff_not, Bool.not_eq_true,
    (state_setImpl_fields info 0 x 0).2.1, not_not]
  tauto

lemma mem_acceptL8 (info : DfaInfo) (x : Nat) :
    x ∈ acceptL8 info ↔
      1 ≤ x ∧ x < info.size ∧ (info.state x).reports ≠ ∅ := by
  rw [acceptL8, List.mem_filter, List.mem_range, size_setImpl]
  simp only [Bool.and_eq_true, decide_eq_true_eq,
    (state_setImpl_fields info 0 x 0).2.1]
  tauto

lemma listL8_nodup (info : DfaInfo) :
    (normL8 info ++ accelL8 info ++ acceptL8 info).Nodup := by
  refine List.Nodup.append (List.Nodup.append ?_ ?_ ?_) ?_ ?_
  · exact List.Nodup.filter _ (List.nodup_range _)
  · exact List.Nodup.filter _ (List.nodup_range _)
  · intro x hx hx2
    rw [mem_normL8] at hx
    rw [mem_accelL8] at hx2
    rw [hx.2.2.2] at hx2
    cases hx2.2.2.2
  · exact List.Nodup.filter _ (List.nodup_range _)
  · intro x hx hx2
    rw [List.mem_append, mem_normL8, mem_accelL8] at hx
    rw [mem_acceptL8] at hx2
    rcases hx with hh | hh
    · exact hx2.2.2 hh.2.2.1
    · exact hx2.2.2 hh.2.2.1

lemma mem_listL8 (info : DfaInfo) (x : Nat) (h1 : 1 ≤ x) (h2 : x < info.size) :
    x ∈ normL8 info ++ accelL8 info ++ acceptL8 info := by
  rw [List.mem_append, List.mem_append, mem_normL8, mem_accelL8, mem_acceptL8]
  by_cases hr : (info.state x).reports = ∅
  · cases ha : info.isAccel x
    · exact Or.inl (Or.inl ⟨h1, h2, hr, rfl⟩)
    · exact Or.inl (Or.inr ⟨h1, h2, hr, rfl⟩)
  · exact Or.inr ⟨h1, h2, hr⟩

lemma listL8_length (info : DfaInfo) :
    (normL8 info).length + (accelL8 info).length + (acceptL8 info).length =
      info.size - 1 := by
  rw [normL8, accelL8, acceptL8, ← List.countP_eq_length_filter,
    ← List.countP_eq_length_filter, ← List.countP_eq_length_filter]
  have hsplit1 : (List.range (info.setImpl 0 0).size).countP
        (fun i => (decide (1 ≤ i) && ! decide (((info.setImpl 0 0).state i).reports ≠ ∅)) &&
          (info.setImpl 0 0).isAccel i) +
      (List.range (info.setImpl 0 0).size).countP
        (fun i => (decide (1 ≤ i) && ! decide (((info.setImpl 0 0).state i).reports ≠ ∅)) &&
          ! (info.setImpl 0 0).isAccel i) =
      (List.range (info.setImpl 0 0).size).countP
        (fun i => decide (1 ≤ i) && ! decide (((info.setImpl 0 0).state i).reports ≠ ∅)) :=
    countP_split _ _ _
  have hsplit2 : (List.range (info.setImpl 0 0).size).countP
        (fun i => decide (1 ≤ i) && decide (((info.setImpl 0 0).state i).reports ≠ ∅)) +
      (List.range (info.setImpl 0 0).size).countP
        (fun i => decide (1 ≤ i) && ! decide (((info.setImpl 0 0).state i).reports ≠ ∅)) =
      (List.range (info.setImpl 0 0).size).countP (fun i => decide (1 ≤ i)) :=
    countP_split _ _ _
  have hone : (List.range (info.setImpl 0 0).size).countP
      (fun i => decide (1 ≤ i)) = info.size - 1 := by
    rw [countP_one_le_range, size_setImpl]
  omega

lemma filterL8_norm (info : DfaInfo) :
    ((List.range (info.setImpl 0 0).size).filter fun i =>
      decide (1 ≤ i) && ! decide (((info.setImpl 0 0).state i).reports ≠ ∅) &&
        ! (info.setImpl 0 0).isAccel i) = normL8 info := rfl

lemma filterL8_accel (info : DfaInfo) :
    ((List.range (info.setImpl 0 0).size).filter fun i =>
      decide (1 ≤ i) && ! decide (((info.setImpl 0 0).state i).reports ≠ ∅) &&
        (info.setImpl 0 0).isAccel i) = accelL8 info := rfl

lemma filterL8_accept (info : DfaInfo) :
    ((List.range (info.setImpl 0 0).size).filter fun i =>
      decide (1 ≤ i) && decide (((info.setImpl 0 0).state i).reports ≠ ∅)) =
      acceptL8 info := rfl

lemma allocateFSN8_fst (info : DfaInfo) :
    (allocateFSN8 info).1 =
      (assignFold (info.setImpl 0 0, 1)
        (normL8 info ++ accelL8 info ++ acceptL8 info)).1 := by
  simp only [allocateFSN8, Prod.mk.eta]
  rw [assignFold_append, assignFold_append, filterL8_norm, filterL8_accel,
    filterL8_accept]

lemma allocateFSN8_accel_limit (info : DfaInfo) :
    (allocateFSN8 info).2.1 = 1 + (normL8 info).length := by
  simp only [allocateFSN8]
  exact assignFold_snd _ _ _

lemma allocateFSN8_accept_limit (info : DfaInfo) :
    (allocateFSN8 info).2.2 =
      1 + (normL8 info).length + (accelL8 info).length := by
  simp only [allocateFSN8, Prod.mk.eta]
  rw [filterL8_norm, filterL8_accel, assignFold_snd, assignFold_snd]

lemma allocateFSN8_spec (info : DfaInfo) (hpos : 0 < info.size) :
    (allocateFSN8 info).1.size = info.size ∧
    (allocateFSN8 info).1.extra = info.extra ∧
    (∀ s, ((allocateFSN8 info).1.state s).next = (info.state s).next ∧
          ((allocateFSN8 info).1.state s).reports = (info.state s).reports ∧
          ((allocateFSN8 info).1.state s).reports_eod = (info.state s).reports_eod ∧
          ((allocateFSN8 info).1.state s).daddy = (info.state s).daddy) ∧
    (allocateFSN8 info).1.raw.alpha_size = info.raw.alpha_size ∧
    (allocateFSN8 info).1.raw.alpha_remap = info.raw.alpha_remap ∧
    (allocateFSN8 info).1.raw.start_anchored = info.raw.start_anchored ∧
    (allocateFSN8 info).1.raw.start_floating = info.raw.start_floating ∧
    (allocateFSN8 info).1.implId 0 = 0 ∧
    (∀ s, 1 ≤ s → s < info.size →
      (allocateFSN8 info).1.implId s =
        1 + (normL8 info ++ accelL8 info ++ acceptL8 info).indexOf s) := by
  have hfst := allocateFSN8_fst info
  have hnd := listL8_nodup info
  have hbound : ∀ x ∈ normL8 info ++ accelL8 info ++ acceptL8 info,
      x < (info.setImpl 0 0).size := by
    intro x hx
    rw [size_setImpl]
    rcases List.mem_append.1 hx with hh | hh
    · rcases List.mem_append.1 hh with hg | hg
      · exact ((mem_normL8 info x).1 hg).2.1
      · exact ((mem_accelL8 info x).1 hg).2.1
    · exact ((mem_acceptL8 info x).1 hh).2.1
  have himpl := assignFold_impl_mem (normL8 info ++ accelL8 info ++ acceptL8 info)
    (info.setImpl 0 0) 1 hnd hbound
  have h0notmem : (0 : Nat) ∉ normL8 info ++ accelL8 info ++ acceptL8 info := by
    intro h0
    rcases List.mem_append.1 h0 with hh | hh
    · rcases List.mem_append.1 hh with hg | hg
      · have := ((mem_normL8 info 0).1 hg).1
        omega
      · have := ((mem_accelL8 info 0).1 hg).1
        omega
    · have := ((mem_acceptL8 info 0).1 hh).1
      omega
  refine ⟨?_, ?_, ?_, ?_, ?_, ?_, ?_, ?_, ?_⟩
  · rw [hfst, assignFold_size, size_setImpl]
  · rw [hfst, assignFold_extra]
    rfl
  · intro s
    rw [hfst]
    have h1 := assignFold_state_fields (normL8 info ++ accelL8 info ++ acceptL8 info)
      (info.setImpl 0 0) 1 s
    have h2 := state_setImpl_fields info 0 s 0
    exact ⟨h1.1.trans h2.1, h1.2.1.trans h2.2.1, h1.2.2.1.trans h2.2.2.1,
      h1.2.2.2.trans h2.2.2.2⟩
  · rw [hfst]
    exact (assignFold_raw_const _ _ _).1
  · rw [hfst]
    exact (assignFold_raw_const _ _ _).2.1
  · rw [hfst]
    exact (assignFold_raw_const _ _ _).2.2.1
  · rw [hfst]
    exact (assignFold_raw_const _ _ _).2.2.2.1
  · rw [hfst, DfaInfo.implId,
      assignFold_state_not_mem _ _ _ _ h0notmem, state_setImpl_self _ _ _ hpos]
  · intro s h1 h2
    rw [hfst]
    exact himpl s (mem_listL8 info s h1 h2)

lemma allocateFSN8_zones (info : DfaInfo) (hpos : 0 < info.size) :
    (∀ s, 1 ≤ s → s < info.size →
      (info.state s).reports = ∅ → info.isAccel s = false →
      1 ≤ (allocateFSN8 info).1.implId s ∧
      (allocateFSN8 info).1.implId s < (allocateFSN8 info).2.1) ∧
    (∀ s, 1 ≤ s → s < info.size →
      (info.state s).reports = ∅ → info.isAccel s = true →
      (allocateFSN8 info).2.1 ≤ (allocateFSN8 info).1.implId s ∧
      (allocateFSN8 info).1.implId s < (allocateFSN8 info).2.2) ∧
    (∀ s, 1 ≤ s → s < info.size → (info.state s).reports ≠ ∅ →
      (allocateFSN8 info).2.2 ≤ (allocateFSN8 info).1.implId s ∧
      (allocateFSN8 info).1.implId s < info.size) := by
  obtain ⟨_, _, _, _, _, _, _, _, hidx⟩ := allocateFSN8_spec info hpos
  have hal := allocateFSN8_accel_limit info
  have hcl := allocateFSN8_accept_limit info
  have hlen := listL8_length info
  refine ⟨?_, ?_, ?_⟩
  · intro s h1 h2 hr ha
    have hmem : s ∈ normL8 info := (mem_normL8 info s).2 ⟨h1, h2, hr, ha⟩
    have hidx1 : (normL8 info ++ accelL8 info ++ acceptL8 info).indexOf s =
        (normL8 info).indexOf s := by
      rw [indexOf_append_of_mem s _ _ (List.mem_append.2 (Or.inl hmem)),
        indexOf_append_of_mem s _ _ hmem]
    have hlt : (normL8 info).indexOf s < (normL8 info).length :=
      List.indexOf_lt_length.2 hmem
    rw [hidx s h1 h2, hidx1, hal]
    omega
  · intro s h1 h2 hr ha
    have hmem : s ∈ accelL8 info := (mem_accelL8 info s).2 ⟨h1, h2, hr, ha⟩
    have hnn : s ∉ normL8 info := by
      intro hh
      rw [mem_normL8] at hh
      rw [ha] at hh
      cases hh.2.2.2
    have hidx1 : (normL8 info ++ accelL8 info ++ acceptL8 info).indexOf s =
        (normL8 info).length + (accelL8 info).indexOf s := by
      rw [indexOf_append_of_mem s _ _
          (List.mem_append.2 (Or.inr hmem)),
        indexOf_append_of_not_mem s _ _ hnn]
    have hlt : (accelL8 info).indexOf s < (accelL8 info).length :=
      List.indexOf_lt_length.2 hmem
    rw [hidx s h1 h2, hidx1, hal, hcl]
    omega
  · intro s h1 h2 hr
    have hmem : s ∈ acceptL8 info := (mem_acceptL8 info s).2 ⟨h1, h2, hr⟩
    have hnn : s ∉ normL8 info ++ accelL8 info := by
      intro hh
      rcases List.mem_append.1 hh with hg | hg
      · exact hr ((mem_normL8 info s).1 hg).2.2.1
      · exact hr ((mem_accelL8 info s).1 hg).2.2.1
    have hidx1 : (normL8 info ++ accelL8 info ++ acceptL8 info).indexOf s =
        (normL8 info).length + (accelL8 info).length + (acceptL8 info).indexOf s := by
      rw [indexOf_append_of_not_mem s _ _ hnn, List.length_append]
    have hlt : (acceptL8 info).indexOf s < (acceptL8 info).length :=
      List.indexOf_lt_length.2 hmem
    rw [hidx s h1 h2, hidx1, hcl]
    omega

lemma allocateFSN8_inj (info : DfaInfo) (hpos : 0 < info.size) :
    ∀ s t, s < info.size → t < info.size →
      (allocateFSN8 info).1.implId s = (allocateFSN8 info).1.implId t → s = t := by
  obtain ⟨_, _, _, _, _, _, _, h0, hidx⟩ := allocateFSN8_spec info hpos
  intro s t hs ht heq
  rcases Nat.eq_zero_or_pos s with rfl | hs1
  · rcases Nat.eq_zero_or_pos t with rfl | ht1
    · rfl
    · rw [h0, hidx t ht1 ht] at heq
      omega
  · rcases Nat.eq_zero_or_pos t with rfl | ht1
    · rw [h0, hidx s hs1 hs] at heq
      omega
    · rw [hidx s hs1 hs, hidx t ht1 ht] at heq
      have hmem_s := mem_listL8 info s hs1 hs
      have hmem_t := mem_listL8 info t ht1 ht
      have : (normL8 info ++ accelL8 info ++ acceptL8 info).indexOf s =
          (normL8 info ++ accelL8 info ++ acceptL8 info).indexOf t := by omega
      exact (List.indexOf_inj hmem_s hmem_t).1 this

lemma allocateFSN8_impl_lt (info : DfaInfo) (hpos : 0 < info.size) :
    ∀ s, s < info.size → (allocateFSN8 info).1.implId s < info.size := by
  obtain ⟨_, _, _, _, _, _, _, h0, hidx⟩ := allocateFSN8_spec info hpos
  intro s hs
  rcases Nat.eq_zero_or_pos s with rfl | hs1
  · rw [h0]
    exact hpos
  · rw [hidx s hs1 hs]
    have hmem := mem_listL8 info s hs1 hs
    have hlt : (normL8 info ++ accelL8 info ++ acceptL8 info).indexOf s <
        (normL8 info ++ accelL8 info ++ acceptL8 info).length :=
      List.indexOf_lt_length.2 hmem
    have hlen := listL8_length info
    rw [List.length_append, List.length_append] at hlt
    omega

/-! ### Lemmas: the `find_better_daddy` fold establishes `ShermanOK` -/

lemma mcclellanCompile_i_eq (raw : RawDFA) (cc : CompileContext) :
    mcclellanCompile_i raw cc =
      if using8 raw cc = false then
        match (mcclellanCompile16 (info1Of raw cc) cc).1 with
        | none =>
          if hasEodReports (rawStrip raw cc) then
            (CompileOutcome.nullDeref, (mcclellanCompile16 (info1Of raw cc) cc).2.raw)
          else (CompileOutcome.nullHandle, (mcclellanCompile16 (info1Of raw cc) cc).2.raw)
        | some img =>
          (CompileOutcome.img16 { img with accepts_eod := hasEodReports (rawStrip raw cc) },
            (mcclellanCompile16 (info1Of raw cc) cc).2.raw)
      else
        (CompileOutcome.img8
          { (mcclellanCompile8 (info1Of raw cc) cc).1 with
              accepts_eod := hasEodReports (rawStrip raw cc) },
          (mcclellanCompile8 (info1Of raw cc) cc).2.raw) := rfl

lemma raw_setTaken (info : DfaInfo) (i v : Nat) :
    (info.setTaken i v).raw = info.raw := rfl

lemma raw_setSherman (info : DfaInfo) (i : Nat) :
    (info.setSherman i).raw = info.raw := rfl

lemma raw_setAccel (info : DfaInfo) (i : Nat) :
    (info.setAccel i).raw = info.raw := rfl

lemma shermanState_extraAt_setAccel (info : DfaInfo) (i j : Nat) :
    ((info.setAccel i).extraAt j).shermanState = (info.extraAt j).shermanState := by
  by_cases hj : j = i
  · subst hj
    by_cases hr : j < info.extra.length
    · simp [DfaInfo.setAccel, DfaInfo.extraAt, List.getD_eq_getElem?_getD,
        List.getElem?_set_self hr]
    · simp [DfaInfo.setAccel, DfaInfo.extraAt,
        List.set_eq_of_length_le (le_of_not_lt hr)]
  · rw [extraAt_setAccel_ne _ _ _ hj]

lemma daddytaken_extraAt_setAccel (info : DfaInfo) (i j : Nat) :
    ((info.setAccel i).extraAt j).daddytaken = (info.extraAt j).daddytaken := by
  by_cases hj : j = i
  · subst hj
    by_cases hr : j < info.extra.length
    · simp [DfaInfo.setAccel, DfaInfo.extraAt, List.getD_eq_getElem?_getD,
        List.getElem?_set_self hr]
    · simp [DfaInfo.setAccel, DfaInfo.extraAt,
        List.set_eq_of_length_le (le_of_not_lt hr)]
  · rw [extraAt_setAccel_ne _ _ _ hj]

lemma state_setDaddy_fields (info : DfaInfo) (i j v : Nat) :
    ((info.setDaddy i v).state j).next = ((info.state j)).next ∧
    ((info.setDaddy i v).state j).reports = ((info.state j)).reports ∧
    ((info.setDaddy i v).state j).reports_eod = ((info.state j)).reports_eod ∧
    ((info.setDaddy i v).state j).impl_id = ((info.state j)).impl_id := by
  by_cases hj : j = i
  · subst hj
    by_cases hr : j < info.size
    · rw [state_setDaddy_self _ _ _ hr]
      exact ⟨rfl, rfl, rfl, rfl⟩
    · have : (info.raw.setState j { info.raw.state j with daddy := v }) = info.raw :=
        setState_oob _ _ _ (le_of_not_lt hr)
      simp [DfaInfo.setDaddy, DfaInfo.state, this]
  · rw [state_setDaddy_ne _ _ _ _ hj]
    exact ⟨rfl, rfl, rfl, rfl⟩

lemma implAlphaSize_congr (a b : DfaInfo) (h : a.raw.alpha_size = b.raw.alpha_size) :
    a.implAlphaSize = b.implAlphaSize := by
  rw [DfaInfo.implAlphaSize, DfaInfo.implAlphaSize, RawDFA.getImplAlphaSize,
    RawDFA.getImplAlphaSize, h]

lemma scoreOf_congr (a b : DfaInfo) (curr d : Nat)
    (ha : a.implAlphaSize = b.implAlphaSize)
    (hn : ∀ j, (a.state j).next = (b.state j).next) :
    scoreOf a curr d = scoreOf b curr d := by
  rw [scoreOf, scoreOf, ha, hn curr, hn d]

lemma maxShermanListLen_lt (w a : Nat) (ha : 1 ≤ a) :
    maxShermanListLen w a < a := by
  rw [maxShermanListLen]
  have hdiv : (w * a - 2) / (w + 1) < a := by
    rw [Nat.div_lt_iff_lt_mul (show 0 < w + 1 by omega)]
    have hmul : w * a = a * w := Nat.mul_comm w a
    have hexp : a * (w + 1) = a * w + a := by ring
    omega
  exact lt_of_le_of_lt (Nat.min_le_right _ _) hdiv

lemma find_better_daddy_cases (info : DfaInfo) (curr : Nat) (u8 cyc : Bool)
    (grey : Grey) :
    find_better_daddy info curr u8 cyc grey = info ∨
    find_better_daddy info curr u8 cyc grey = fbdInfo1 info curr ∨
    (find_better_daddy info curr u8 cyc grey = (fbdInfo1 info curr).setSherman curr ∧
     info.implAlphaSize ≤ (fbdSearch info curr).2 +
       maxShermanListLen (fbdWidth u8) info.implAlphaSize) := by
  by_cases hg : grey.allowShermanStates = false
  · exact Or.inl (find_better_daddy_not_allowed _ _ _ _ _ hg)
  · have hg' : grey.allowShermanStates = true := by
      cases h : grey.allowShermanStates
      · exact absurd h hg
      · rfl
    by_cases h1 : info.raw.start_anchored ≠ DEAD_STATE ∧ cyc = true ∧
        curr < info.implAlphaSize * 3
    · exact Or.inl (find_better_daddy_veto1 _ _ _ _ _ hg' h1)
    · by_cases h2 : info.raw.start_floating ≠ DEAD_STATE ∧
          info.raw.start_floating ≤ curr ∧
          curr < info.raw.start_floating + info.implAlphaSize * 3
      · exact Or.inl (find_better_daddy_veto2 _ _ _ _ _ hg' h1 h2)
      · rw [find_better_daddy_main _ _ _ _ _ hg' h1 h2]
        split
        · exact Or.inr (Or.inl rfl)
        · rename_i h3
          split
          · exact Or.inr (Or.inl rfl)
          · split
            · exact Or.inr (Or.inl rfl)
            · exact Or.inr (Or.inr ⟨rfl, le_of_not_lt h3⟩)

lemma fbdInfo1_preserve (info : DfaInfo) (curr : Nat) :
    (fbdInfo1 info curr).size = info.size ∧
    (fbdInfo1 info curr).extra.length = info.extra.length ∧
    (fbdInfo1 info curr).raw.alpha_size = info.raw.alpha_size ∧
    (fbdInfo1 info curr).raw.alpha_remap = info.raw.alpha_remap ∧
    (fbdInfo1 info curr).raw.start_anchored = info.raw.start_anchored ∧
    (fbdInfo1 info curr).raw.start_floating = info.raw.start_floating ∧
    (fbdInfo1 info curr).raw.generatesCallbacks = info.raw.generatesCallbacks ∧
    (∀ j, ((fbdInfo1 info curr).state j).next = (info.state j).next ∧
          ((fbdInfo1 info curr).state j).reports = (info.state j).reports ∧
          ((fbdInfo1 info curr).state j).reports_eod = (info.state j).reports_eod ∧
          ((fbdInfo1 info curr).state j).impl_id = (info.state j).impl_id) ∧
    (∀ j, j ≠ curr →
      ((fbdInfo1 info curr).state j).daddy = (info.state j).daddy ∧
      (fbdInfo1 info curr).extraAt j = info.extraAt j) := by
  refine ⟨?_, ?_, rfl, rfl, rfl, rfl, rfl, ?_, ?_⟩
  · rw [fbdInfo1, size_setTaken, size_setDaddy]
  · rw [fbdInfo1, extra_length_setTaken, extra_length_setDaddy]
  · intro j
    rw [fbdInfo1, state_setTaken]
    exact state_setDaddy_fields info curr j _
  · intro j hj
    constructor
    · rw [fbdInfo1, state_setTaken, state_setDaddy_ne _ _ _ _ hj]
    · rw [fbdInfo1, extraAt_setTaken_ne _ _ _ _ hj, extraAt_setDaddy]

lemma fbd_preserve (info : DfaInfo) (curr : Nat) (u8 cyc : Bool) (grey : Grey) :
    (find_better_daddy info curr u8 cyc grey).size = info.size ∧
    (find_better_daddy info curr u8 cyc grey).extra.length = info.extra.length ∧
    (find_better_daddy info curr u8 cyc grey).raw.alpha_size = info.raw.alpha_size ∧
    (find_better_daddy info curr u8 cyc grey).raw.alpha_remap = info.raw.alpha_remap ∧
    (find_better_daddy info curr u8 cyc grey).raw.start_anchored =
      info.raw.start_anchored ∧
    (find_better_daddy info curr u8 cyc grey).raw.start_floating =
      info.raw.start_floating ∧
    (find_better_daddy info curr u8 cyc grey).raw.generatesCallbacks =
      info.raw.generatesCallbacks ∧
    (∀ j, ((find_better_daddy info curr u8 cyc grey).state j).next =
            (info.state j).next ∧
          ((find_better_daddy info curr u8 cyc grey).state j).reports =
            (info.state j).reports ∧
          ((find_better_daddy info curr u8 cyc grey).state j).reports_eod =
            (info.state j).reports_eod ∧
          ((find_better_daddy info curr u8 cyc grey).state j).impl_id =
            (info.state j).impl_id) ∧
    (∀ j, j ≠ curr →
      ((find_better_daddy info curr u8 cyc grey).state j).daddy =
        (info.state j).daddy ∧
      (find_better_daddy info curr u8 cyc grey).extraAt j = info.extraAt j) := by
  rcases find_better_daddy_cases info curr u8 cyc grey with hc | hc | ⟨hc, _⟩
  · rw [hc]
    exact ⟨rfl, rfl, rfl, rfl, rfl, rfl, rfl, fun j => ⟨rfl, rfl, rfl, rfl⟩,
      fun j _ => ⟨rfl, rfl⟩⟩
  · rw [hc]
    exact fbdInfo1_preserve info curr
  · rw [hc]
    obtain ⟨p1, p2, p3, p4, p5, p6, p7, p8, p9⟩ := fbdInfo1_preserve info curr
    refine ⟨?_, ?_, p3, p4, p5, p6, p7, ?_, ?_⟩
    · rw [size_setSherman, p1]
    · rw [extra_length_setSherman, p2]
    · intro j
      rw [state_setSherman]
      exact p8 j
    · intro j hj
      refine ⟨?_, ?_⟩
      · rw [state_setSherman]
        exact (p9 j hj).1
      · rw [extraAt_setSherman_ne _ _ _ hj]
        exact (p9 j hj).2

lemma fbd_marks (info : DfaInfo) (curr : Nat) (u8 cyc : Bool) (grey : Grey)
    (ha : 1 ≤ info.implAlphaSize) (hcl : curr < info.size)
    (hce : curr < info.extra.length)
    (hold : info.isSherman curr = false)
    (hmark : (find_better_daddy info curr u8 cyc grey).isSherman curr = true) :
    ((find_better_daddy info curr u8 cyc grey).state curr).daddy < curr ∧
    info.isSherman
      (((find_better_daddy info curr u8 cyc grey).state curr).daddy) = false ∧
    ((find_better_daddy info curr u8 cyc grey).extraAt curr).daddytaken =
      scoreOf info curr
        (((find_better_daddy info curr u8 cyc grey).state curr).daddy) := by
  rcases find_better_daddy_cases info curr u8 cyc grey with hc | hc | ⟨hc, hgate⟩
  · rw [hc, hold] at hmark
    exact absurd hmark (by simp)
  · rw [hc, DfaInfo.isSherman, fbdInfo1, shermanState_extraAt_setTaken,
      extraAt_setDaddy] at hmark
    rw [DfaInfo.isSherman] at hold
    rw [hold] at hmark
    exact absurd hmark (by simp)
  · have hml : maxShermanListLen (fbdWidth u8) info.implAlphaSize <
        info.implAlphaSize := maxShermanListLen_lt _ _ ha
    have hbs1 : 1 ≤ (fbdSearch info curr).2 := by omega
    have hconv : daddySearch info curr info.implAlphaSize (hintedFor info curr) (0, 0) =
        fbdSearch info curr := rfl
    rcases daddySearch_achieves info curr info.implAlphaSize
        (hintedFor info curr) 0 0 with heq | ⟨hmem, hsh, hscore⟩
    · rw [hconv] at heq
      have : (fbdSearch info curr).2 = 0 := by rw [heq]
      omega
    · rw [hconv] at hmem hsh hscore
      have hdlt : (fbdSearch info curr).1 < curr := hintedFor_lt info curr _ hmem
      have hdad : ((find_better_daddy info curr u8 cyc grey).state curr).daddy =
          (fbdSearch info curr).1 := by
        rw [hc, state_setSherman, fbdInfo1, state_setTaken,
          state_setDaddy_self _ _ _ hcl]
      have hce1 : curr < (fbdInfo1 info curr).extra.length := by
        rw [fbdInfo1, extra_length_setTaken, extra_length_setDaddy]
        exact hce
      have hce0 : curr < (info.setDaddy curr (fbdSearch info curr).1).extra.length := by
        rw [extra_length_setDaddy]
        exact hce
      have htak : ((find_better_daddy info curr u8 cyc grey).extraAt curr).daddytaken =
          (fbdSearch info curr).2 := by
        rw [hc, extraAt_setSherman_self _ _ hce1]
        show ((fbdInfo1 info curr).extraAt curr).daddytaken = _
        rw [fbdInfo1, extraAt_setTaken_self _ _ _ hce0]
      refine ⟨?_, ?_, ?_⟩
      · rw [hdad]
        exact hdlt
      · rw [hdad]
        exact hsh
      · rw [htak, hdad]
        exact hscore.symm

lemma fbd_fold_shermanOK (u8 cyc : Bool) (grey : Grey) :
    ∀ (l : List Nat) (info : DfaInfo),
      l.Sorted (· < ·) →
      (∀ i ∈ l, i < info.size ∧ i < info.extra.length) →
      1 ≤ info.implAlphaSize →
      (∀ s, info.isSherman s = true → ∀ i ∈ l, s < i) →
      ShermanOK info →
      ShermanOK (l.foldl (fun inf i => find_better_daddy inf i u8 cyc grey) info) := by
  intro l
  induction l with
  | nil => intro info _ _ _ _ hok; exact hok
  | cons i rest ih =>
    intro info hsort hbounds halpha hbprop hok
    rw [List.sorted_cons] at hsort
    rw [List.foldl_cons]
    obtain ⟨q1, q2, q3, q4, q5, q6, q7, q8, q9⟩ := fbd_preserve info i u8 cyc grey
    have halpha' : (find_better_daddy info i u8 cyc grey).implAlphaSize =
        info.implAlphaSize := implAlphaSize_congr _ _ q3
    have hsherm_ne : ∀ j, j ≠ i →
        (find_better_daddy info i u8 cyc grey).isSherman j = info.isSherman j := by
      intro j hj
      rw [DfaInfo.isSherman, DfaInfo.isSherman, (q9 j hj).2]
    have hscore_eq : ∀ c d,
        scoreOf (find_better_daddy info i u8 cyc grey) c d = scoreOf info c d :=
      fun c d => scoreOf_congr _ _ c d halpha' (fun j => (q8 j).1)
    have hioldF : info.isSherman i = false := by
      cases h : info.isSherman i
      · rfl
      · exact absurd (hbprop i h i (List.mem_cons_self _ _)) (lt_irrefl i)
    apply ih
    · exact hsort.2
    · intro j hj
      rw [q1, q2]
      exact hbounds j (List.mem_cons_of_mem _ hj)
    · rw [halpha']
      exact halpha
    · intro s hs j hj
      by_cases hsi : s = i
      · subst hsi
        exact hsort.1 j hj
      · rw [hsherm_ne s hsi] at hs
        exact hbprop s hs j (List.mem_cons_of_mem _ hj)
    · intro s hs
      by_cases hsi : s = i
      · subst hsi
        obtain ⟨m1, m2, m3⟩ := fbd_marks info s u8 cyc grey halpha
          (hbounds s (List.mem_cons_self _ _)).1 (hbounds s (List.mem_cons_self _ _)).2
          hioldF hs
        refine ⟨m1, ?_, ?_⟩
        · rw [hsherm_ne _ (Nat.ne_of_lt m1)]
          exact m2
        · rw [hscore_eq]
          exact m3
      · rw [hsherm_ne s hsi] at hs
        obtain ⟨d1, d2, d3⟩ := hok s hs
        have hsd : ((find_better_daddy info i u8 cyc grey).state s).daddy =
            (info.state s).daddy := (q9 s hsi).1
        have hsI : s < i := hbprop s hs i (List.mem_cons_self _ _)
        have hdne : (info.state s).daddy ≠ i := Nat.ne_of_lt (lt_trans d1 hsI)
        refine ⟨?_, ?_, ?_⟩
        · rw [hsd]
          exact d1
        · rw [hsd, hsherm_ne _ hdne]
          exact d2
        · rw [hsd, (q9 s hsi).2, hscore_eq]
          exact d3

lemma accelFold_preserve (sds : Nat) :
    ∀ (l : List Nat) (p : DfaInfo × Nat),
      (l.foldl (fun q i => if is_accel q.1.raw sds i then (q.1.setAccel i, q.2 + 1)
          else q) p).1.raw = p.1.raw ∧
      (l.foldl (fun q i => if is_accel q.1.raw sds i then (q.1.setAccel i, q.2 + 1)
          else q) p).1.extra.length = p.1.extra.length ∧
      (∀ j,
        ((l.foldl (fun q i => if is_accel q.1.raw sds i then (q.1.setAccel i, q.2 + 1)
            else q) p).1.extraAt j).shermanState = (p.1.extraAt j).shermanState ∧
        ((l.foldl (fun q i => if is_accel q.1.raw sds i then (q.1.setAccel i, q.2 + 1)
            else q) p).1.extraAt j).daddytaken = (p.1.extraAt j).daddytaken) := by
  intro l
  induction l with
  | nil => intro p; exact ⟨rfl, rfl, fun j => ⟨rfl, rfl⟩⟩
  | cons x xs ih =>
    intro p
    rw [List.foldl_cons]
    by_cases hacc : is_accel p.1.raw sds x = true
    · rw [if_pos hacc]
      obtain ⟨r1, r2, r3⟩ := ih (p.1.setAccel x, p.2 + 1)
      refine ⟨?_, ?_, ?_⟩
      · rw [r1]
        exact raw_setAccel _ _
      · rw [r2]
        exact extra_length_setAccel _ _
      · intro j
        exact ⟨(r3 j).1.trans (shermanState_extraAt_setAccel _ _ _),
               (r3 j).2.trans (daddytaken_extraAt_setAccel _ _ _)⟩
    · rw [if_neg hacc]
      exact ih p

lemma populate_preserve (info : DfaInfo) (b : Bool) :
    (populateAccelerationInfo info b).1.raw = info.raw ∧
    (populateAccelerationInfo info b).1.extra.length = info.extra.length ∧
    (∀ j, ((populateAccelerationInfo info b).1.extraAt j).shermanState =
            (info.extraAt j).shermanState ∧
          ((populateAccelerationInfo info b).1.extraAt j).daddytaken =
            (info.extraAt j).daddytaken) := by
  rw [populateAccelerationInfo]
  split
  · exact ⟨rfl, rfl, fun j => ⟨rfl, rfl⟩⟩
  · exact accelFold_preserve _ _ (info, 0)

/-! ### Lemmas: the assembly folds -/

lemma mcclellanCompile16_eq (info : DfaInfo) (cc : CompileContext) :
    mcclellanCompile16 info cc =
      if (allocateFSN16 info).2.2 = false then (none, (allocateFSN16 info).1)
      else (some (c16img info cc), c16info2 info cc) := rfl

lemma mcclellanCompile8_eq (info : DfaInfo) (cc : CompileContext) :
    mcclellanCompile8 info cc = (c8img info cc, c8info2 info cc) := rfl

lemma or_and_mask (v x M : Nat) (hx : x &&& M = 0) : (v ||| x) &&& M = v &&& M := by
  apply Nat.eq_of_testBit_eq
  intro k
  have hx' := congrArg (fun n => n.testBit k) hx
  simp only [Nat.testBit_and, Nat.testBit_or, Nat.zero_testBit] at hx' ⊢
  cases h1 : v.testBit k <;> cases h2 : x.testBit k <;> cases h3 : M.testBit k <;>
    simp_all

lemma and_state_mask_of_lt (v : Nat) (h : v < 2 ^ 14) : v &&& STATE_MASK = v := by
  have hm : STATE_MASK = 2 ^ 14 - 1 := rfl
  rw [hm, Nat.and_pow_two_sub_one_eq_mod, Nat.mod_eq_of_lt h]

lemma accept_mask0 : ACCEPT_FLAG &&& STATE_MASK = 0 := by decide

lemma accel_mask0 : ACCEL_FLAG &&& STATE_MASK = 0 := by decide

lemma flagSucc_mask (aux : Nat → MStateAux) (v : Nat) (h : v < 2 ^ 14) :
    flagSucc aux v &&& STATE_MASK = v := by
  simp only [flagSucc]
  split
  · rw [or_and_mask _ _ _ accel_mask0]
    split
    · rw [or_and_mask _ _ _ accept_mask0, and_state_mask_of_lt v h]
    · exact and_state_mask_of_lt v h
  · split
    · rw [or_and_mask _ _ _ accept_mask0, and_state_mask_of_lt v h]
    · exact and_state_mask_of_lt v h

lemma and_two_pow_ne_iff (x i : Nat) : x &&& 2 ^ i ≠ 0 ↔ x.testBit i = true := by
  constructor
  · intro hne
    by_contra hbit
    rw [Bool.not_eq_true] at hbit
    apply hne
    apply Nat.eq_of_testBit_eq
    intro k
    simp only [Nat.testBit_and, Nat.zero_testBit]
    by_cases hk : k = i
    · subst hk
      simp [hbit]
    · rw [Nat.testBit_two_pow_of_ne (Ne.symm hk)]
      simp
  · intro hbit hzero
    have := congrArg (fun n => n.testBit i) hzero
    simp only [Nat.testBit_and, Nat.zero_testBit, hbit, Bool.true_and] at this
    rw [Nat.testBit_two_pow_self] at this
    cases this

lemma accept_flag_pow : ACCEPT_FLAG = 2 ^ 15 := rfl

lemma accel_flag_pow : ACCEL_FLAG = 2 ^ 14 := rfl

lemma flagSucc_accept_iff (aux : Nat → MStateAux) (v : Nat) (h : v < 2 ^ 14) :
    (flagSucc aux v &&& ACCEPT_FLAG ≠ 0) ↔ (aux v).accept ≠ 0 := by
  rw [accept_flag_pow, and_two_pow_ne_iff]
  simp only [flagSucc]
  have hv15 : v.testBit 15 = false :=
    Nat.testBit_lt_two_pow (lt_of_lt_of_le h (by norm_num))
  have hA : ACCEPT_FLAG.testBit 15 = true := by decide
  have hC : ACCEL_FLAG.testBit 15 = false := by decide
  split
  · rw [Nat.testBit_or, hC, Bool.or_false]
    split
    · next hacc => simp only [Nat.testBit_or, hA, Bool.or_true]; simp [hacc]
    · next hacc => simp [hv15, hacc]
  · split
    · next hacc => simp only [Nat.testBit_or, hA, Bool.or_true]; simp [hacc]
    · next hacc => simp [hv15, hacc]

lemma flagSucc_accel_iff (aux : Nat → MStateAux) (v : Nat) (h : v < 2 ^ 14) :
    (flagSucc aux v &&& ACCEL_FLAG ≠ 0) ↔ (aux v).accel_offset ≠ 0 := by
  rw [accel_flag_pow, and_two_pow_ne_iff]
  simp only [flagSucc]
  have hv14 : v.testBit 14 = false := Nat.testBit_lt_two_pow h
  have hA : ACCEPT_FLAG.testBit 14 = false := by decide
  have hC : ACCEL_FLAG.testBit 14 = true := by decide
  split
  · next haccl =>
    rw [Nat.testBit_or, hC, Bool.or_true]
    simp [haccl]
  · next haccl =>
    split
    · rw [Nat.testBit_or, hA, Bool.or_false, hv14]
      simp [haccl]
    · rw [hv14]
      simp [haccl]

lemma auxWrite_self (f : Nat → MStateAux) (k : Nat) (v : MStateAux) :
    auxWrite f k v k = v := by
  simp [auxWrite]

lemma auxWrite_ne (f : Nat → MStateAux) (k : Nat) (v : MStateAux) (x : Nat)
    (h : x ≠ k) : auxWrite f k v x = f x := by
  simp only [auxWrite]
  rw [if_neg h]

lemma auxSetAccel_self (f : Nat → MStateAux) (k off : Nat) :
    auxSetAccel f k off k = { f k with accel_offset := off } := by
  simp [auxSetAccel]

lemma auxSetAccel_ne (f : Nat → MStateAux) (k off x : Nat) (h : x ≠ k) :
    auxSetAccel f k off x = f x := by
  simp only [auxSetAccel]
  rw [if_neg h]

lemma normalStep16_sherman (info : DfaInfo) (rep repe ro : List Nat)
    (shift : Nat) (a : Asm16) (i : Nat) (hs : info.isSherman i = true) :
    normalStep16 info rep repe ro shift a i = a := by
  simp only [normalStep16]
  rw [if_pos hs]

lemma normalStep16_tbl (info : DfaInfo) (rep repe ro : List Nat)
    (shift : Nat) (a : Asm16) (i : Nat) (hns : ¬ info.isSherman i = true) :
    (normalStep16 info rep repe ro shift a i).tbl =
      writeRow a.tbl (info.implId i <<< shift)
        (fun j => info.implId ((info.state i).next.getD j 0))
        info.implAlphaSize := by
  simp only [normalStep16]
  rw [if_neg hns]
  split
  · rfl
  · rfl

lemma normalStep16_aux (info : DfaInfo) (rep repe ro : List Nat)
    (shift : Nat) (a : Asm16) (i : Nat) (hns : ¬ info.isSherman i = true) :
    (normalStep16 info rep repe ro shift a i).aux =
      (if info.isAccel i = true then
        auxSetAccel (auxWrite a.aux (info.implId i)
          (fillInAux info i rep repe ro (a.aux (info.implId i))))
          (info.implId i) a.cursor
      else
        auxWrite a.aux (info.implId i)
          (fillInAux info i rep repe ro (a.aux (info.implId i)))) := by
  simp only [normalStep16]
  rw [if_neg hns]
  split
  · rfl
  · rfl

lemma normalStep16_sherms (info : DfaInfo) (rep repe ro : List Nat)
    (shift : Nat) (a : Asm16) (i : Nat) :
    (normalStep16 info rep repe ro shift a i).sherms = a.sherms := by
  simp only [normalStep16]
  split
  · rfl
  · split
    · rfl
    · rfl

lemma shermanStep16_nonsherman (info : DfaInfo) (rep repe ro : List Nat)
    (lim : Nat) (a : Asm16) (i : Nat) (hs : info.isSherman i = false) :
    shermanStep16 info rep repe ro lim a i = a := by
  simp [shermanStep16, hs]

lemma shermanStep16_tbl (info : DfaInfo) (rep repe ro : List Nat)
    (lim : Nat) (a : Asm16) (i : Nat) :
    (shermanStep16 info rep repe ro lim a i).tbl = a.tbl := by
  simp only [shermanStep16]
  split
  · rfl
  · rfl

lemma shermanStep16_aux (info : DfaInfo) (rep repe ro : List Nat)
    (lim : Nat) (a : Asm16) (i : Nat) (hs : info.isSherman i = true) :
    (shermanStep16 info rep repe ro lim a i).aux =
      (if info.isAccel i = true then
        auxSetAccel (auxWrite a.aux (info.implId i)
          (fillInAux info i rep repe ro (a.aux (info.implId i))))
          (info.implId i) a.cursor
      else
        auxWrite a.aux (info.implId i)
          (fillInAux info i rep repe ro (a.aux (info.implId i)))) := by
  simp only [shermanStep16, hs]
  rw [if_neg (by simp)]

lemma shermanStep16_sherms (info : DfaInfo) (rep repe ro : List Nat)
    (lim : Nat) (a : Asm16) (i : Nat) (hs : info.isSherman i = true) (k : Nat) :
    (shermanStep16 info rep repe ro lim a i).sherms k =
      if k = info.implId i - lim then shermanRec0 info i
      else a.sherms k := by
  simp only [shermanStep16, hs]
  rw [if_neg (by simp)]
  rfl

lemma normalFold_untouched (info : DfaInfo) (rep repe ro : List Nat) (shift : Nat)
    (halpha : info.implAlphaSize ≤ 2 ^ shift) (v : Nat) :
    ∀ (l : List Nat) (a : Asm16),
      (∀ y ∈ l, info.implId y ≠ v) →
      (∀ j, j < 2 ^ shift →
        (l.foldl (normalStep16 info rep repe ro shift) a).tbl (v * 2 ^ shift + j) =
          a.tbl (v * 2 ^ shift + j)) ∧
      (l.foldl (normalStep16 info rep repe ro shift) a).aux v = a.aux v := by
  intro l
  induction l with
  | nil => intro a _; exact ⟨fun _ _ => rfl, rfl⟩
  | cons x xs ih =>
    intro a hne
    rw [List.foldl_cons]
    obtain ⟨ih1, ih2⟩ := ih (normalStep16 info rep repe ro shift a x)
      (fun y hy => hne y (List.mem_cons_of_mem _ hy))
    have hxv : info.implId x ≠ v := hne x (List.mem_cons_self _ _)
    by_cases hsh : info.isSherman x = true
    · rw [normalStep16_sherman _ _ _ _ _ _ _ hsh]
      exact ih a (fun y hy => hne y (List.mem_cons_of_mem _ hy))
    · constructor
      · intro j hj
        rw [ih1 j hj, normalStep16_tbl _ _ _ _ _ _ _ hsh, Nat.shiftLeft_eq,
          writeRow_eq, if_neg]
        intro hcon
        obtain ⟨hb1, hb2⟩ := hcon
        apply hxv
        have hpos : 0 < 2 ^ shift := Nat.pos_pow_of_pos _ (by norm_num)
        have hdv : (v * 2 ^ shift + j) / 2 ^ shift = v := block_div _ _ _ hj
        have hle : info.implId x ≤ (v * 2 ^ shift + j) / 2 ^ shift :=
          (Nat.le_div_iff_mul_le hpos).2 hb1
        have hmul : (info.implId x + 1) * 2 ^ shift =
            info.implId x * 2 ^ shift + 2 ^ shift := by ring
        have hlt : (v * 2 ^ shift + j) / 2 ^ shift < info.implId x + 1 := by
          rw [Nat.div_lt_iff_lt_mul hpos]
          omega
        omega
      · rw [ih2, normalStep16_aux _ _ _ _ _ _ _ hsh]
        split
        · rw [auxSetAccel_ne _ _ _ _ (Ne.symm hxv), auxWrite_ne _ _ _ _ (Ne.symm hxv)]
        · rw [auxWrite_ne _ _ _ _ (Ne.symm hxv)]

lemma normalFold_lookup (info : DfaInfo) (rep repe ro : List Nat) (shift : Nat)
    (halpha : info.implAlphaSize ≤ 2 ^ shift)
    (hinj : ∀ s t, s < info.size → t < info.size →
      info.implId s = info.implId t → s = t) :
    ∀ (l : List Nat) (a : Asm16), l.Nodup → (∀ y ∈ l, y < info.size) →
      ∀ s ∈ l, info.isSherman s = false →
        (∀ j, j < info.implAlphaSize →
          (l.foldl (normalStep16 info rep repe ro shift) a).tbl
            (info.implId s * 2 ^ shift + j) =
            info.implId ((info.state s).next.getD j 0)) ∧
        ((l.foldl (normalStep16 info rep repe ro shift) a).aux
          (info.implId s)).accept = (fillInAux info s rep repe ro defaultAux).accept ∧
        ((l.foldl (normalStep16 info rep repe ro shift) a).aux
          (info.implId s)).accept_eod =
            (fillInAux info s rep repe ro defaultAux).accept_eod ∧
        ((l.foldl (normalStep16 info rep repe ro shift) a).aux
          (info.implId s)).top = (fillInAux info s rep repe ro defaultAux).top := by
  intro l
  induction l with
  | nil => intro a _ _ s hs; cases hs
  | cons x xs ih =>
    intro a hnd hbound s hs hsF
    rw [List.foldl_cons]
    rcases List.mem_cons.1 hs with rfl | hmem
    · have hns' : ¬ info.isSherman s = true := by rw [hsF]; simp
      have hne : ∀ y ∈ xs, info.implId y ≠ info.implId s := by
        intro y hy heq
        have hy' : y = s := hinj y s (hbound y (List.mem_cons_of_mem _ hy))
          (hbound s (List.mem_cons_self _ _)) heq
        exact (List.nodup_cons.1 hnd).1 (hy' ▸ hy)
      obtain ⟨hu1, hu2⟩ := normalFold_untouched info rep repe ro shift halpha
        (info.implId s) xs (normalStep16 info rep repe ro shift a s) hne
      have haux : ∀ g : MStateAux → Nat,
          (g ((normalStep16 info rep repe ro shift a s).aux (info.implId s)) =
            g (fillInAux info s rep repe ro (a.aux (info.implId s)))) ∨
          ((normalStep16 info rep repe ro shift a s).aux (info.implId s)) =
            { fillInAux info s rep repe ro (a.aux (info.implId s)) with
                accel_offset := a.cursor } := by
        intro g
        rw [normalStep16_aux _ _ _ _ _ _ _ hns']
        split
        · rw [auxSetAccel_self, auxWrite_self]
          exact Or.inr rfl
        · rw [auxWrite_self]
          exact Or.inl rfl
      have hauxq : ((normalStep16 info rep repe ro shift a s).aux
            (info.implId s)).accept =
            (fillInAux info s rep repe ro defaultAux).accept ∧
          ((normalStep16 info rep repe ro shift a s).aux
            (info.implId s)).accept_eod =
            (fillInAux info s rep repe ro defaultAux).accept_eod ∧
          ((normalStep16 info rep repe ro shift a s).aux
            (info.implId s)).top =
            (fillInAux info s rep repe ro defaultAux).top := by
        rw [normalStep16_aux _ _ _ _ _ _ _ hns']
        split
        · rw [auxSetAccel_self, auxWrite_self]
          exact ⟨rfl, rfl, rfl⟩
        · rw [auxWrite_self]
          exact ⟨rfl, rfl, rfl⟩
      refine ⟨?_, ?_, ?_, ?_⟩
      · intro j hj
        rw [hu1 j (lt_of_lt_of_le hj halpha),
          normalStep16_tbl _ _ _ _ _ _ _ hns', Nat.shiftLeft_eq, writeRow_eq,
          if_pos ⟨Nat.le_add_right _ _, by omega⟩, Nat.add_sub_cancel_left]
      · rw [hu2]
        exact hauxq.1
      · rw [hu2]
        exact hauxq.2.1
      · rw [hu2]
        exact hauxq.2.2
    · exact ih (normalStep16 info rep repe ro shift a x) (List.nodup_cons.1 hnd).2
        (fun y hy => hbound y (List.mem_cons_of_mem _ hy)) s hmem hsF

lemma shermanFold_tbl (info : DfaInfo) (rep repe ro : List Nat) (lim : Nat) :
    ∀ (l : List Nat) (a : Asm16),
      (l.foldl (shermanStep16 info rep repe ro lim) a).tbl = a.tbl := by
  intro l
  induction l with
  | nil => intro a; rfl
  | cons x xs ih =>
    intro a
    rw [List.foldl_cons, ih, shermanStep16_tbl]

lemma shermanFold_aux_untouched (info : DfaInfo) (rep repe ro : List Nat)
    (lim v : Nat) :
    ∀ (l : List Nat) (a : Asm16),
      (∀ y ∈ l, info.isSherman y = true → info.implId y ≠ v) →
      (l.foldl (shermanStep16 info rep repe ro lim) a).aux v = a.aux v := by
  intro l
  induction l with
  | nil => intro a _; rfl
  | cons x xs ih =>
    intro a hne
    rw [List.foldl_cons]
    rw [ih _ (fun y hy h => hne y (List.mem_cons_of_mem _ hy) h)]
    cases hsh : info.isSherman x with
    | false => rw [shermanStep16_nonsherman _ _ _ _ _ _ _ hsh]
    | true =>
      have hxv : info.implId x ≠ v := hne x (List.mem_cons_self _ _) hsh
      rw [shermanStep16_aux _ _ _ _ _ _ _ hsh]
      split
      · rw [auxSetAccel_ne _ _ _ _ (Ne.symm hxv), auxWrite_ne _ _ _ _ (Ne.symm hxv)]
      · rw [auxWrite_ne _ _ _ _ (Ne.symm hxv)]

lemma shermanFold_sherms_untouched (info : DfaInfo) (rep repe ro : List Nat)
    (lim k : Nat) :
    ∀ (l : List Nat) (a : Asm16),
      (∀ y ∈ l, info.isSherman y = true → info.implId y - lim ≠ k) →
      (l.foldl (shermanStep16 info rep repe ro lim) a).sherms k = a.sherms k := by
  intro l
  induction l with
  | nil => intro a _; rfl
  | cons x xs ih =>
    intro a hne
    rw [List.foldl_cons]
    rw [ih _ (fun y hy h => hne y (List.mem_cons_of_mem _ hy) h)]
    cases hsh : info.isSherman x with
    | false => rw [shermanStep16_nonsherman _ _ _ _ _ _ _ hsh]
    | true =>
      have hxv : info.implId x - lim ≠ k := hne x (List.mem_cons_self _ _) hsh
      rw [shermanStep16_sherms _ _ _ _ _ _ _ hsh, if_neg (fun h => hxv h.symm)]

lemma shermanFold_lookup (info : DfaInfo) (rep repe ro : List Nat) (lim : Nat)
    (hinj : ∀ s t, s < info.size → t < info.size →
      info.implId s = info.implId t → s = t)
    (hzone : ∀ y, y < info.size → info.isSherman y = true → lim ≤ info.implId y) :
    ∀ (l : List Nat) (a : Asm16), l.Nodup → (∀ y ∈ l, y < info.size) →
      ∀ s ∈ l, info.isSherman s = true →
        (l.foldl (shermanStep16 info rep repe ro lim) a).sherms
          (info.implId s - lim) = shermanRec0 info s ∧
        ((l.foldl (shermanStep16 info rep repe ro lim) a).aux
          (info.implId s)).accept = (fillInAux info s rep repe ro defaultAux).accept ∧
        ((l.foldl (shermanStep16 info rep repe ro lim) a).aux
          (info.implId s)).accept_eod =
            (fillInAux info s rep repe ro defaultAux).accept_eod ∧
        ((l.foldl (shermanStep16 info rep repe ro lim) a).aux
          (info.implId s)).top = (fillInAux info s rep repe ro defaultAux).top := by
  intro l
  induction l with
  | nil => intro a _ _ s hs; cases hs
  | cons x xs ih =>
    intro a hnd hbound s hs hsT
    rw [List.foldl_cons]
    rcases List.mem_cons.1 hs with rfl | hmem
    · have hneA : ∀ y ∈ xs, info.isSherman y = true → info.implId y ≠ info.implId s := by
        intro y hy hysh heq
        have hy' : y = s := hinj y s (hbound y (List.mem_cons_of_mem _ hy))
          (hbound s (List.mem_cons_self _ _)) heq
        exact (List.nodup_cons.1 hnd).1 (hy' ▸ hy)
      have hneS : ∀ y ∈ xs, info.isSherman y = true →
          info.implId y - lim ≠ info.implId s - lim := by
        intro y hy hysh heq
        apply hneA y hy hysh
        have h1 := hzone y (hbound y (List.mem_cons_of_mem _ hy)) hysh
        have h2 := hzone s (hbound s (List.mem_cons_self _ _)) hsT
        omega
      have hsherms := shermanFold_sherms_untouched info rep repe ro lim
        (info.implId s - lim) xs (shermanStep16 info rep repe ro lim a s) hneS
      have haux := shermanFold_aux_untouched info rep repe ro lim
        (info.implId s) xs (shermanStep16 info rep repe ro lim a s) hneA
      refine ⟨?_, ?_⟩
      · rw [hsherms, shermanStep16_sherms _ _ _ _ _ _ _ hsT, if_pos rfl]
      · rw [haux, shermanStep16_aux _ _ _ _ _ _ _ hsT]
        split
        · rw [auxSetAccel_self, auxWrite_self]
          exact ⟨rfl, rfl, rfl⟩
        · rw [auxWrite_self]
          exact ⟨rfl, rfl, rfl⟩
    · exact ih (shermanStep16 info rep repe ro lim a x) (List.nodup_cons.1 hnd).2
        (fun y hy => hbound y (List.mem_cons_of_mem _ hy)) s hmem hsT

lemma zip_map_find_mem (f : Nat → Nat) (sym : Nat) :
    ∀ (l : List Nat), sym ∈ l →
      ((l.zip (l.map f)).find? (fun cv => cv.1 == sym)) = some (sym, f sym) := by
  intro l
  induction l with
  | nil => intro h; cases h
  | cons x xs ih =>
    intro h
    rw [List.map_cons, List.zip_cons_cons]
    by_cases hx : x = sym
    · subst hx
      rw [List.find?_cons_of_pos _ (by simp)]
    · rw [List.find?_cons_of_neg _ (by simp [hx])]
      apply ih
      rcases List.mem_cons.1 h with h1 | h1
      · exact absurd h1.symm hx
      · exact h1

lemma zip_map_find_not_mem (f : Nat → Nat) (sym : Nat) :
    ∀ (l : List Nat), sym ∉ l →
      ((l.zip (l.map f)).find? (fun cv => cv.1 == sym)) = none := by
  intro l
  induction l with
  | nil => intro _; rfl
  | cons x xs ih =>
    intro h
    rw [List.map_cons, List.zip_cons_cons,
      List.find?_cons_of_neg _ (by simp; intro hx; exact h (hx ▸ List.mem_cons_self _ _))]
    exact ih (fun hmem => h (List.mem_cons_of_mem _ hmem))

lemma countP_neg_add {α : Type} (l : List α) (p : α → Bool) :
    l.countP p + l.countP (fun x => ! p x) = l.length := by
  induction l with
  | nil => rfl
  | cons x xs ih =>
    rw [List.countP_cons, List.countP_cons, List.length_cons]
    cases h : p x <;> simp [h] <;> omega

lemma getAlphaShift_congr (a b : DfaInfo) (h : a.implAlphaSize = b.implAlphaSize) :
    a.getAlphaShift = b.getAlphaShift := by
  rw [DfaInfo.getAlphaShift, DfaInfo.getAlphaShift, h]

/-- The diff-symbol list a Sherman state stores, in terms of the raw data. -/
def diffChars (info : DfaInfo) (s : Nat) : List Nat :=
  (List.range info.implAlphaSize).filter fun x =>
    decide ((info.state s).next.getD x 0 ≠
      (info.state ((info.state s).daddy)).next.getD x 0)

lemma c16_master (info : DfaInfo) (cc : CompileContext)
    (hpos : 0 < info.size)
    (_ha1 : 1 ≤ info.implAlphaSize)
    (ha2 : info.raw.alpha_size ≤ 65536)
    (hrow : ∀ s, s < info.size → (info.state s).next.length = info.raw.alpha_size)
    (htgt : ∀ s, s < info.size → ∀ t ∈ (info.state s).next, t < info.size)
    (hremap : ∀ b, b < 256 → info.raw.alpha_remap b < info.implAlphaSize)
    (hok : (allocateFSN16 info).2.2 = true)
    (hsok : ShermanOK info) :
    (c16info2 info cc).size = info.size ∧
    (∀ j, (c16info2 info cc).isSherman j = info.isSherman j) ∧
    (∀ s, s < info.size → (c16info2 info cc).implId s < info.size) ∧
    (∀ s, s < info.size → info.isSherman s = false →
      (c16info2 info cc).implId s < c16base info) ∧
    (∀ s, s < info.size → info.isSherman s = true →
      c16base info ≤ (c16info2 info cc).implId s) ∧
    (c16img info cc).remap = info.raw.alpha_remap ∧
    (∀ j, ((c16info2 info cc).state j).next = (info.state j).next) ∧
    (c16info2 info cc).raw.start_floating = info.raw.start_floating ∧
    (c16info2 info cc).implAlphaSize = info.implAlphaSize ∧
    (∀ s, s < info.size → info.isSherman s = false →
      ∀ j, j < info.implAlphaSize →
        (c16img info cc).tbl
          ((c16info2 info cc).implId s * 2 ^ info.getAlphaShift + j) =
          flagSucc ((c16img info cc).aux)
            ((c16info2 info cc).implId ((info.state s).next.getD j 0))) ∧
    (∀ s, s < info.size → info.isSherman s = true →
      ((c16img info cc).sherms ((c16info2 info cc).implId s - c16base info)).daddy =
        (c16info2 info cc).implId ((info.state s).daddy) ∧
      ((c16img info cc).sherms ((c16info2 info cc).implId s - c16base info)).len =
        (diffChars info s).length ∧
      ((c16img info cc).sherms ((c16info2 info cc).implId s - c16base info)).chars =
        diffChars info s ∧
      ((c16img info cc).sherms ((c16info2 info cc).implId s - c16base info)).succs =
        (diffChars info s).map (fun x => flagSucc ((c16img info cc).aux)
          ((c16info2 info cc).implId ((info.state s).next.getD x 0)))) ∧
    (∀ s, s < info.size →
      ((c16img info cc).aux ((c16info2 info cc).implId s)).top =
        (c16info2 info cc).implId
          (if s = 0 then info.raw.start_floating
           else (info.state s).next.getD (info.raw.alpha_remap TOP) 0)) ∧
    (∀ s, s < info.size → ∀ b, b < 256 →
      decode16 (c16img info cc) ((c16info2 info cc).implId s) b =
        (c16info2 info cc).implId
          ((info.state s).next.getD (info.raw.alpha_remap b) 0)) := by
  -- ---- basic transfers ----
  have hov : ¬ (1 <<< 16 < (info.setImpl 0 0).size) := by
    rw [size_setImpl]
    intro hbad
    rw [allocateFSN16_overflow info hbad] at hok
    cases hok
  obtain ⟨s1, s2, s3, s4, s5, s6, s7, s8, s9, s10, s11⟩ :=
    allocateFSN16_spec info hov hpos
  have t1 : (c16info1 info).size = info.size := s1
  have t2 : (c16info1 info).extra = info.extra := s2
  have t3 : ∀ j, ((c16info1 info).state j).next = (info.state j).next ∧
      ((c16info1 info).state j).reports = (info.state j).reports ∧
      ((c16info1 info).state j).reports_eod = (info.state j).reports_eod ∧
      ((c16info1 info).state j).daddy = (info.state j).daddy := s3
  have t4 : (c16info1 info).raw.alpha_size = info.raw.alpha_size := s4
  have t5 : (c16info1 info).raw.alpha_remap = info.raw.alpha_remap := s5
  have t7 : (c16info1 info).raw.start_floating = info.raw.start_floating := s7
  have t8 : (c16info1 info).implId 0 = 0 := s8
  have t10 : ∀ s, 1 ≤ s → s < info.size → info.isSherman s = false →
      1 ≤ (c16info1 info).implId s ∧ (c16info1 info).implId s < c16base info := s10
  have t11 : ∀ s, 1 ≤ s → s < info.size → info.isSherman s = true →
      c16base info ≤ (c16info1 info).implId s ∧
      (c16info1 info).implId s < info.size := s11
  have tinj : ∀ s t, s < info.size → t < info.size →
      (c16info1 info).implId s = (c16info1 info).implId t → s = t :=
    allocateFSN16_inj info hov hpos
  have tlt : ∀ s, s < info.size → (c16info1 info).implId s < info.size :=
    allocateFSN16_impl_lt info hov hpos
  have p1' : (c16info2 info cc).raw = (c16info1 info).raw :=
    (populate_preserve (c16info1 info) cc.grey.accelerateDFA).1
  have p3' : ∀ j, ((c16info2 info cc).extraAt j).shermanState =
        ((c16info1 info).extraAt j).shermanState ∧
      ((c16info2 info cc).extraAt j).daddytaken =
        ((c16info1 info).extraAt j).daddytaken :=
    (populate_preserve (c16info1 info) cc.grey.accelerateDFA).2.2
  have hextraAt1 : ∀ j, (c16info1 info).extraAt j = info.extraAt j := by
    intro j
    rw [DfaInfo.extraAt, DfaInfo.extraAt, t2]
  have hsher2 : ∀ j, (c16info2 info cc).isSherman j = info.isSherman j := by
    intro j
    rw [DfaInfo.isSherman, DfaInfo.isSherman, (p3' j).1, hextraAt1 j]
  have htaken2 : ∀ j, ((c16info2 info cc).extraAt j).daddytaken =
      (info.extraAt j).daddytaken := by
    intro j
    rw [(p3' j).2, hextraAt1 j]
  have hstate2 : ∀ j, (c16info2 info cc).state j = (c16info1 info).state j := by
    intro j
    rw [DfaInfo.state, DfaInfo.state, p1']
  have himpl2 : ∀ j, (c16info2 info cc).implId j = (c16info1 info).implId j := by
    intro j
    rw [DfaInfo.implId, DfaInfo.implId, hstate2 j]
  have hnext2 : ∀ j, ((c16info2 info cc).state j).next = (info.state j).next := by
    intro j
    rw [hstate2 j]
    exact (t3 j).1
  have hdaddy2 : ∀ j, ((c16info2 info cc).state j).daddy = (info.state j).daddy := by
    intro j
    rw [hstate2 j]
    exact (t3 j).2.2.2
  have hsize2 : (c16info2 info cc).size = info.size := by
    rw [DfaInfo.size, p1']
    exact t1
  have halpha2 : (c16info2 info cc).implAlphaSize = info.implAlphaSize := by
    apply implAlphaSize_congr
    rw [p1']
    exact t4
  have hremap2 : (c16info2 info cc).raw.alpha_remap = info.raw.alpha_remap := by
    rw [p1']
    exact t5
  have hfloat2 : (c16info2 info cc).raw.start_floating = info.raw.start_floating := by
    rw [p1']
    exact t7
  have hid02 : (c16info2 info cc).implId 0 = 0 := by
    rw [himpl2]
    exact t8
  have hinj2 : ∀ a b, a < info.size → b < info.size →
      (c16info2 info cc).implId a = (c16info2 info cc).implId b → a = b := by
    intro a b ha hb heq
    apply tinj a b ha hb
    rw [← himpl2 a, ← himpl2 b]
    exact heq
  have hlt2 : ∀ s, s < info.size → (c16info2 info cc).implId s < info.size := by
    intro s hs
    rw [himpl2]
    exact tlt s hs
  have h0ns : info.isSherman 0 = false := by
    cases h : info.isSherman 0 with
    | false => rfl
    | true => exact absurd (hsok 0 h).1 (Nat.not_lt_zero _)
  have hbase1 : 1 ≤ c16base info := by
    have hb : c16base info = 1 + (norm16 info).length := allocateFSN16_base info hov
    omega
  have hidltbase : ∀ s, s < info.size → info.isSherman s = false →
      (c16info2 info cc).implId s < c16base info := by
    intro s hs hns
    rcases Nat.eq_zero_or_pos s with rfl | h1
    · rw [hid02]
      omega
    · exact (by rw [himpl2]; exact (t10 s h1 hs hns).2)
  have hidgebase : ∀ s, s < info.size → info.isSherman s = true →
      c16base info ≤ (c16info2 info cc).implId s := by
    intro s hs hsh
    have hs1 : 1 ≤ s := by
      rcases Nat.eq_zero_or_pos s with rfl | h1
      · rw [h0ns] at hsh
        cases hsh
      · exact h1
    rw [himpl2]
    exact (t11 s hs1 hs hsh).1
  -- ---- arithmetic bounds ----
  have hshift : info.implAlphaSize ≤ 2 ^ info.getAlphaShift := by
    apply implAlphaSize_le_shift
    have hle : info.implAlphaSize ≤ info.raw.alpha_size := Nat.sub_le _ _
    omega
  have halpha2' : (c16info2 info cc).implAlphaSize ≤ 2 ^ info.getAlphaShift := by
    rw [halpha2]
    exact hshift
  have hmask := (allocateFSN16_ok info hov).1 hok
  have hsz14 : info.size - 1 < 2 ^ 14 := by
    have hmm : (info.size - 1) % 2 ^ 14 = info.size - 1 := by
      have hST : STATE_MASK = 2 ^ 14 - 1 := rfl
      rw [hST, Nat.and_pow_two_sub_one_eq_mod] at hmask
      exact hmask
    rw [← hmm]
    exact Nat.mod_lt _ (by norm_num)
  have hv14 : ∀ v, v < info.size → v < 2 ^ 14 := fun v hv => by omega
  have htgt' : ∀ s, s < info.size → ∀ j, j < info.implAlphaSize →
      (info.state s).next.getD j 0 < info.size := by
    intro s hs j hj
    have hlen : j < (info.state s).next.length := by
      rw [hrow s hs]
      have hle : info.implAlphaSize ≤ info.raw.alpha_size := Nat.sub_le _ _
      omega
    rw [List.getD_eq_getElem?_getD, List.getElem?_eq_getElem hlen, Option.getD_some]
    exact htgt s hs _ (List.getElem_mem _)
  -- ---- assembled table content ----
  have hinj2' : ∀ a b, a < (c16info2 info cc).size → b < (c16info2 info cc).size →
      (c16info2 info cc).implId a = (c16info2 info cc).implId b → a = b := by
    rw [hsize2]
    exact hinj2
  have hrowN : ∀ s, s < info.size → info.isSherman s = false →
      ∀ j, j < info.implAlphaSize →
        (c16asm1 info cc).tbl
          ((c16info2 info cc).implId s * 2 ^ info.getAlphaShift + j) =
        (c16info2 info cc).implId ((info.state s).next.getD j 0) := by
    intro s hs hns j hj
    have hmain := (normalFold_lookup (c16info2 info cc) (c16g info).reports
      (c16g info).reports_eod (c16reportOffsets info cc) info.getAlphaShift
      halpha2' hinj2' (List.range (c16info2 info cc).size)
      ⟨fun _ => 0, fun _ => defaultAux, c16accel_offset info cc,
        fun _ => defaultShermanRec⟩
      (List.nodup_range _) (fun y hy => List.mem_range.1 hy)
      s (List.mem_range.2 (by omega)) (by rw [hsher2]; exact hns)).1
    have hcall := hmain j (by rw [halpha2]; exact hj)
    rw [hnext2] at hcall
    exact hcall
  have hauxN : ∀ s, s < info.size → info.isSherman s = false →
      ((c16asm1 info cc).aux ((c16info2 info cc).implId s)).accept =
        (fillInAux (c16info2 info cc) s (c16g info).reports (c16g info).reports_eod
          (c16reportOffsets info cc) defaultAux).accept ∧
      ((c16asm1 info cc).aux ((c16info2 info cc).implId s)).accept_eod =
        (fillInAux (c16info2 info cc) s (c16g info).reports (c16g info).reports_eod
          (c16reportOffsets info cc) defaultAux).accept_eod ∧
      ((c16asm1 info cc).aux ((c16info2 info cc).implId s)).top =
        (fillInAux (c16info2 info cc) s (c16g info).reports (c16g info).reports_eod
          (c16reportOffsets info cc) defaultAux).top := by
    intro s hs hns
    exact (normalFold_lookup (c16info2 info cc) (c16g info).reports
      (c16g info).reports_eod (c16reportOffsets info cc) info.getAlphaShift
      halpha2' hinj2' (List.range (c16info2 info cc).size)
      ⟨fun _ => 0, fun _ => defaultAux, c16accel_offset info cc,
        fun _ => defaultShermanRec⟩
      (List.nodup_range _) (fun y hy => List.mem_range.1 hy)
      s (List.mem_range.2 (by omega)) (by rw [hsher2]; exact hns)).2
  have hzoneI : ∀ y, y < (c16info2 info cc).size →
      (c16info2 info cc).isSherman y = true →
      c16base info ≤ (c16info2 info cc).implId y := by
    intro y hy hsy
    rw [hsize2] at hy
    rw [hsher2] at hsy
    exact hidgebase y hy hsy
  have hasm2tbl : (c16asm2 info cc).tbl = (c16asm1 info cc).tbl := by
    simp only [c16asm2]
    exact shermanFold_tbl _ _ _ _ _ _ _
  have hauxU : ∀ s, s < info.size → info.isSherman s = false →
      (c16asm2 info cc).aux ((c16info2 info cc).implId s) =
        (c16asm1 info cc).aux ((c16info2 info cc).implId s) := by
    intro s hs hns
    simp only [c16asm2]
    apply shermanFold_aux_untouched
    intro y hy hsy heq
    rw [hsher2] at hsy
    have hy' : y < info.size := by
      rw [← hsize2]
      exact List.mem_range.1 hy
    have : y = s := hinj2 y s hy' hs heq
    rw [this, hns] at hsy
    cases hsy
  have hshermL : ∀ s, s < info.size → info.isSherman s = true →
      (c16asm2 info cc).sherms ((c16info2 info cc).implId s - c16base info) =
        shermanRec0 (c16info2 info cc) s ∧
      ((c16asm2 info cc).aux ((c16info2 info cc).implId s)).accept =
        (fillInAux (c16info2 info cc) s (c16g info).reports (c16g info).reports_eod
          (c16reportOffsets info cc) defaultAux).accept ∧
      ((c16asm2 info cc).aux ((c16info2 info cc).implId s)).accept_eod =
        (fillInAux (c16info2 info cc) s (c16g info).reports (c16g info).reports_eod
          (c16reportOffsets info cc) defaultAux).accept_eod ∧
      ((c16asm2 info cc).aux ((c16info2 info cc).implId s)).top =
        (fillInAux (c16info2 info cc) s (c16g info).reports (c16g info).reports_eod
          (c16reportOffsets info cc) defaultAux).top := by
    intro s hs hsh
    have := shermanFold_lookup (c16info2 info cc) (c16g info).reports
      (c16g info).reports_eod (c16reportOffsets info cc) (c16base info)
      hinj2' hzoneI (List.range (c16info2 info cc).size) (c16asm1 info cc)
      (List.nodup_range _) (fun y hy => List.mem_range.1 hy)
      s (List.mem_range.2 (by omega)) (by rw [hsher2]; exact hsh)
    exact this
  -- ---- fillInAux top field in raw terms ----
  have htop : ∀ s, s < info.size →
      (fillInAux (c16info2 info cc) s (c16g info).reports (c16g info).reports_eod
        (c16reportOffsets info cc) defaultAux).top =
      (c16info2 info cc).implId
        (if s = 0 then info.raw.start_floating
         else (info.state s).next.getD (info.raw.alpha_remap TOP) 0) := by
    intro s hs
    rw [fillInAux]
    by_cases hz : s = 0
    · subst hz
      rw [if_pos rfl, if_pos rfl, hfloat2]
    · rw [if_neg hz, if_neg hz, hnext2, hremap2]
  -- ---- the marked image pieces ----
  have hE2 : (c16img info cc).alphaShift = info.getAlphaShift := rfl
  have hE3 : (c16img info cc).aux = (c16asm2 info cc).aux := rfl
  have htblN : ∀ s, s < info.size → info.isSherman s = false →
      ∀ j, j < info.implAlphaSize →
        (c16img info cc).tbl
          ((c16info2 info cc).implId s * 2 ^ info.getAlphaShift + j) =
        flagSucc ((c16img info cc).aux)
          ((c16info2 info cc).implId ((info.state s).next.getD j 0)) := by
    intro s hs hns j hj
    have hjk : j < 2 ^ info.getAlphaShift := lt_of_lt_of_le hj hshift
    have hE1 : (c16img info cc).tbl = markEdgesTbl (c16asm2 info cc).aux
        info.getAlphaShift (c16info2 info cc).implAlphaSize (c16base info)
        (c16asm2 info cc).tbl := rfl
    rw [hE1, markEdgesTbl]
    rw [if_pos ⟨by rw [block_div _ _ _ hjk]; exact hidltbase s hs hns,
      by rw [block_mod _ _ _ hjk, halpha2]; exact hj⟩]
    rw [hasm2tbl, hrowN s hs hns j hj, hE3]
  have hshermRec : ∀ s, s < info.size → info.isSherman s = true →
      (c16img info cc).sherms ((c16info2 info cc).implId s - c16base info) =
        { shermanRec0 (c16info2 info cc) s with
            succs := (((shermanRec0 (c16info2 info cc) s).succs.take
              ((shermanRec0 (c16info2 info cc) s).len)).map
                (flagSucc ((c16asm2 info cc).aux))) ++
              ((shermanRec0 (c16info2 info cc) s).succs.drop
                ((shermanRec0 (c16info2 info cc) s).len)) } := by
    intro s hs hsh
    have hE4 : (c16img info cc).sherms = markEdgesSherms (c16asm2 info cc).aux
        (c16base info) (c16info2 info cc).size (c16asm2 info cc).sherms := rfl
    have hge := hidgebase s hs hsh
    rw [hE4, markEdgesSherms]
    rw [if_pos (by rw [hsize2]; have := hlt2 s hs; omega)]
    rw [(hshermL s hs hsh).1]
  -- ---- Sherman record fields in raw terms ----
  have hrec0 : ∀ s, shermanRec0 (c16info2 info cc) s =
      { typeTag := SHERMAN_STATE,
        len := info.implAlphaSize - (info.extraAt s).daddytaken,
        daddy := (c16info2 info cc).implId ((info.state s).daddy),
        chars := diffChars info s,
        succs := (diffChars info s).map
          (fun x => (c16info2 info cc).implId ((info.state s).next.getD x 0)) } := by
    intro s
    rw [shermanRec0, diffChars]
    rw [halpha2, htaken2, hdaddy2]
    rw [hnext2 s, hnext2 ((info.state s).daddy)]
  have hlenchars : ∀ s, info.isSherman s = true →
      (diffChars info s).length =
        info.implAlphaSize - (info.extraAt s).daddytaken := by
    intro s hsh
    obtain ⟨hd1, hd2, hd3⟩ := hsok s hsh
    rw [diffChars, ← List.countP_eq_length_filter]
    have hc1 : (List.range info.implAlphaSize).countP
        (fun x => decide ((info.state s).next.getD x 0 ≠
          (info.state ((info.state s).daddy)).next.getD x 0)) =
      (List.range info.implAlphaSize).countP
        (fun x => ! decide ((info.state s).next.getD x 0 =
          (info.state ((info.state s).daddy)).next.getD x 0)) := by
      apply List.countP_congr
      intro x _
      simp [decide_not]
    have hc2 := countP_neg_add (List.range info.implAlphaSize)
      (fun x => decide ((info.state s).next.getD x 0 =
        (info.state ((info.state s).daddy)).next.getD x 0))
    have hscore : scoreOf info s ((info.state s).daddy) =
        (List.range info.implAlphaSize).countP
          (fun x => decide ((info.state s).next.getD x 0 =
            (info.state ((info.state s).daddy)).next.getD x 0)) := rfl
    rw [hc1]
    rw [hd3, hscore]
    have hlenr : (List.range info.implAlphaSize).length = info.implAlphaSize :=
      List.length_range _
    omega
  -- ---- the Sherman record, fully simplified ----
  have hfieldsAll : ∀ s, s < info.size → info.isSherman s = true →
      ((c16img info cc).sherms ((c16info2 info cc).implId s - c16base info)).daddy =
        (c16info2 info cc).implId ((info.state s).daddy) ∧
      ((c16img info cc).sherms ((c16info2 info cc).implId s - c16base info)).len =
        (diffChars info s).length ∧
      ((c16img info cc).sherms ((c16info2 info cc).implId s - c16base info)).chars =
        diffChars info s ∧
      ((c16img info cc).sherms ((c16info2 info cc).implId s - c16base info)).succs =
        (diffChars info s).map (fun x => flagSucc ((c16img info cc).aux)
          ((c16info2 info cc).implId ((info.state s).next.getD x 0))) := by
    intro s hs hsh
    rw [hshermRec s hs hsh, hrec0 s]
    have hLc : (diffChars info s).length =
        info.implAlphaSize - (info.extraAt s).daddytaken := hlenchars s hsh
    have htake : ((diffChars info s).map
        (fun x => (c16info2 info cc).implId ((info.state s).next.getD x 0))).take
          (info.implAlphaSize - (info.extraAt s).daddytaken) =
        (diffChars info s).map
          (fun x => (c16info2 info cc).implId ((info.state s).next.getD x 0)) := by
      rw [← hLc, ← List.length_map (diffChars info s), List.take_length]
    have hdrop : ((diffChars info s).map
        (fun x => (c16info2 info cc).implId ((info.state s).next.getD x 0))).drop
          (info.implAlphaSize - (info.extraAt s).daddytaken) = [] := by
      rw [← hLc, ← List.length_map (diffChars info s), List.drop_length]
    refine ⟨rfl, ?_, rfl, ?_⟩
    · show info.implAlphaSize - (info.extraAt s).daddytaken = _
      rw [hLc]
    · show ((((diffChars info s).map
          (fun x => (c16info2 info cc).implId ((info.state s).next.getD x 0))).take
            (info.implAlphaSize - (info.extraAt s).daddytaken)).map
            (flagSucc ((c16asm2 info cc).aux))) ++
          (((diffChars info s).map
            (fun x => (c16info2 info cc).implId ((info.state s).next.getD x 0))).drop
            (info.implAlphaSize - (info.extraAt s).daddytaken)) = _
      rw [htake, hdrop, List.append_nil, List.map_map]
      rfl
  refine ⟨hsize2, hsher2, hlt2, hidltbase, hidgebase, ?_, hnext2, hfloat2, halpha2,
    htblN, hfieldsAll, ?_, ?_⟩
  · show (c16info2 info cc).raw.alpha_remap = info.raw.alpha_remap
    exact hremap2
  · -- aux top field
    intro s hs
    rw [hE3]
    cases hsh : info.isSherman s with
    | false =>
      rw [hauxU s hs hsh]
      rw [(hauxN s hs hsh).2.2]
      exact htop s hs
    | true =>
      rw [(hshermL s hs hsh).2.2.2]
      exact htop s hs
  · -- decode
    intro s hs b hb
    have hsym : info.raw.alpha_remap b < info.implAlphaSize := hremap b hb
    have hrm : (c16img info cc).remap b = info.raw.alpha_remap b := by
      show (c16info2 info cc).raw.alpha_remap b = _
      rw [hremap2]
    have hE1L : (c16img info cc).sherman_limit = c16base info := rfl
    simp only [decode16]
    rw [hrm, hE1L, hE2]
    cases hsh : info.isSherman s with
    | false =>
      rw [if_pos (hidltbase s hs hsh)]
      rw [Nat.shiftLeft_eq, htblN s hs hsh _ hsym]
      apply flagSucc_mask
      exact hv14 _ (hlt2 _ (htgt' s hs _ hsym))
    | true =>
      have hge := hidgebase s hs hsh
      rw [if_neg (by omega)]
      obtain ⟨hrd, hrl, hrc, hrs⟩ := hfieldsAll s hs hsh
      rw [hrc, hrl, hrs, List.take_length]
      have htakeS : ((diffChars info s).map (fun x =>
          flagSucc ((c16img info cc).aux)
            ((c16info2 info cc).implId ((info.state s).next.getD x 0)))).take
            (diffChars info s).length =
          (diffChars info s).map (fun x =>
            flagSucc ((c16img info cc).aux)
              ((c16info2 info cc).implId ((info.state s).next.getD x 0))) := by
        rw [← List.length_map (diffChars info s), List.take_length]
      rw [htakeS]
      by_cases hmemb : info.raw.alpha_remap b ∈ diffChars info s
      · rw [zip_map_find_mem _ _ _ hmemb]
        show flagSucc ((c16img info cc).aux)
            ((c16info2 info cc).implId
              ((info.state s).next.getD (info.raw.alpha_remap b) 0)) &&&
            STATE_MASK = _
        apply flagSucc_mask
        exact hv14 _ (hlt2 _ (htgt' s hs _ hsym))
      · rw [zip_map_find_not_mem _ _ _ hmemb]
        show (c16img info cc).tbl
            ((((c16img info cc).sherms
                ((c16info2 info cc).implId s - c16base info)).daddy <<<
              info.getAlphaShift) + info.raw.alpha_remap b) &&& STATE_MASK = _
        obtain ⟨hdlt, hdns, _⟩ := hsok s hsh
        have heqrow : (info.state ((info.state s).daddy)).next.getD
            (info.raw.alpha_remap b) 0 =
            (info.state s).next.getD (info.raw.alpha_remap b) 0 := by
          by_contra hne
          apply hmemb
          rw [diffChars, List.mem_filter, List.mem_range]
          exact ⟨hsym, by simp only [decide_eq_true_eq]; exact fun h => hne h.symm⟩
        rw [hrd, Nat.shiftLeft_eq, htblN _ (lt_trans hdlt hs) hdns _ hsym, heqrow]
        exact flagSucc_mask _ _ (hv14 _ (hlt2 _ (htgt' s hs _ hsym)))

/-! ### Lemmas: the 8-bit assembly fold -/

lemma basicStep8_tbl (info : DfaInfo) (rep repe ro : List Nat) (shift : Nat)
    (a : Asm8) (i : Nat) :
    (basicStep8 info rep repe ro shift a i).tbl =
      writeRow a.tbl (info.implId i <<< shift)
        (fun s => info.implId ((info.state i).next.getD s 0))
        info.implAlphaSize := rfl

lemma basicStep8_aux (info : DfaInfo) (rep repe ro : List Nat) (shift : Nat)
    (a : Asm8) (i : Nat) :
    (basicStep8 info rep repe ro shift a i).aux =
      auxWrite
        (if info.isAccel i = true then
          auxSetAccel a.aux (info.implId i) a.cursor
        else a.aux)
        (info.implId i)
        (fillInAux info i rep repe ro
          ((if info.isAccel i = true then
            auxSetAccel a.aux (info.implId i) a.cursor
          else a.aux) (info.implId i))) := rfl

lemma basicFold_untouched (info : DfaInfo) (rep repe ro : List Nat) (shift : Nat)
    (halpha : info.implAlphaSize ≤ 2 ^ shift) (v : Nat) :
    ∀ (l : List Nat) (a : Asm8),
      (∀ y ∈ l, info.implId y ≠ v) →
      (∀ j, j < 2 ^ shift →
        (l.foldl (basicStep8 info rep repe ro shift) a).tbl (v * 2 ^ shift + j) =
          a.tbl (v * 2 ^ shift + j)) ∧
      (l.foldl (basicStep8 info rep repe ro shift) a).aux v = a.aux v := by
  intro l
  induction l with
  | nil => intro a _; exact ⟨fun _ _ => rfl, rfl⟩
  | cons x xs ih =>
    intro a hne
    rw [List.foldl_cons]
    obtain ⟨ih1, ih2⟩ := ih (basicStep8 info rep repe ro shift a x)
      (fun y hy => hne y (List.mem_cons_of_mem _ hy))
    have hxv : info.implId x ≠ v := hne x (List.mem_cons_self _ _)
    constructor
    · intro j hj
      rw [ih1 j hj, basicStep8_tbl, Nat.shiftLeft_eq, writeRow_eq, if_neg]
      intro hcon
      obtain ⟨hb1, hb2⟩ := hcon
      apply hxv
      have hpos : 0 < 2 ^ shift := Nat.pos_pow_of_pos _ (by norm_num)
      have hdv : (v * 2 ^ shift + j) / 2 ^ shift = v := block_div _ _ _ hj
      have hle : info.implId x ≤ (v * 2 ^ shift + j) / 2 ^ shift :=
        (Nat.le_div_iff_mul_le hpos).2 hb1
      have hmul : (info.implId x + 1) * 2 ^ shift =
          info.implId x * 2 ^ shift + 2 ^ shift := by ring
      have hlt : (v * 2 ^ shift + j) / 2 ^ shift < info.implId x + 1 := by
        rw [Nat.div_lt_iff_lt_mul hpos]
        omega
      omega
    · rw [ih2, basicStep8_aux, auxWrite_ne _ _ _ _ (Ne.symm hxv)]
      split
      · rw [auxSetAccel_ne _ _ _ _ (Ne.symm hxv)]
      · rfl

lemma basicFold_lookup (info : DfaInfo) (rep repe ro : List Nat) (shift : Nat)
    (halpha : info.implAlphaSize ≤ 2 ^ shift)
    (hinj : ∀ s t, s < info.size → t < info.size →
      info.implId s = info.implId t → s = t) :
    ∀ (l : List Nat) (a : Asm8), l.Nodup → (∀ y ∈ l, y < info.size) →
      ∀ s ∈ l,
        (∀ j, j < info.implAlphaSize →
          (l.foldl (basicStep8 info rep repe ro shift) a).tbl
            (info.implId s * 2 ^ shift + j) =
            info.implId ((info.state s).next.getD j 0)) ∧
        ((l.foldl (basicStep8 info rep repe ro shift) a).aux
          (info.implId s)).accept = (fillInAux info s rep repe ro defaultAux).accept ∧
        ((l.foldl (basicStep8 info rep repe ro shift) a).aux
          (info.implId s)).accept_eod =
            (fillInAux info s rep repe ro defaultAux).accept_eod ∧
        ((l.foldl (basicStep8 info rep repe ro shift) a).aux
          (info.implId s)).top = (fillInAux info s rep repe ro defaultAux).top := by
  intro l
  induction l with
  | nil => intro a _ _ s hs; cases hs
  | cons x xs ih =>
    intro a hnd hbound s hs
    rw [List.foldl_cons]
    rcases List.mem_cons.1 hs with rfl | hmem
    · have hne : ∀ y ∈ xs, info.implId y ≠ info.implId s := by
        intro y hy heq
        have hy' : y = s := hinj y s (hbound y (List.mem_cons_of_mem _ hy))
          (hbound s (List.mem_cons_self _ _)) heq
        exact (List.nodup_cons.1 hnd).1 (hy' ▸ hy)
      obtain ⟨hu1, hu2⟩ := basicFold_untouched info rep repe ro shift halpha
        (info.implId s) xs (basicStep8 info rep repe ro shift a s) hne
      have hauxq : ((basicStep8 info rep repe ro shift a s).aux
            (info.implId s)).accept =
            (fillInAux info s rep repe ro defaultAux).accept ∧
          ((basicStep8 info rep repe ro shift a s).aux
            (info.implId s)).accept_eod =
            (fillInAux info s rep repe ro defaultAux).accept_eod ∧
          ((basicStep8 info rep repe ro shift a s).aux
            (info.implId s)).top =
            (fillInAux info s rep repe ro defaultAux).top := by
        rw [basicStep8_aux, auxWrite_self]
        exact ⟨rfl, rfl, rfl⟩
      refine ⟨?_, ?_, ?_, ?_⟩
      · intro j hj
        rw [hu1 j (lt_of_lt_of_le hj halpha), basicStep8_tbl, Nat.shiftLeft_eq,
          writeRow_eq, if_pos ⟨Nat.le_add_right _ _, by omega⟩,
          Nat.add_sub_cancel_left]
      · rw [hu2]
        exact hauxq.1
      · rw [hu2]
        exact hauxq.2.1
      · rw [hu2]
        exact hauxq.2.2
    · exact ih (basicStep8 info rep repe ro shift a x) (List.nodup_cons.1 hnd).2
        (fun y hy => hbound y (List.mem_cons_of_mem _ hy)) s hmem

lemma c8_master (info : DfaInfo) (cc : CompileContext)
    (hpos : 0 < info.size)
    (ha2 : info.raw.alpha_size ≤ 65536)
    (hrow : ∀ s, s < info.size → (info.state s).next.length = info.raw.alpha_size)
    (htgt : ∀ s, s < info.size → ∀ t ∈ (info.state s).next, t < info.size)
    (hremap : ∀ b, b < 256 → info.raw.alpha_remap b < info.implAlphaSize)
    (hsmall : info.size ≤ 256) :
    (c8info2 info cc).size = info.size ∧
    (∀ s, s < info.size → (c8info2 info cc).implId s < info.size) ∧
    (c8img info cc).remap = info.raw.alpha_remap ∧
    (∀ j, ((c8info2 info cc).state j).next = (info.state j).next) ∧
    (c8info2 info cc).raw.start_floating = info.raw.start_floating ∧
    (c8info2 info cc).implAlphaSize = info.implAlphaSize ∧
    (∀ s, s < info.size → ∀ j, j < info.implAlphaSize →
      (c8img info cc).tbl
        ((c8info2 info cc).implId s * 2 ^ info.getAlphaShift + j) =
        (c8info2 info cc).implId ((info.state s).next.getD j 0)) ∧
    (∀ s, s < info.size →
      ((c8img info cc).aux ((c8info2 info cc).implId s)).top =
        (c8info2 info cc).implId
          (if s = 0 then info.raw.start_floating
           else (info.state s).next.getD (info.raw.alpha_remap TOP) 0)) ∧
    (∀ s, s < info.size → ∀ b, b < 256 →
      decode8 (c8img info cc) ((c8info2 info cc).implId s) b =
        (c8info2 info cc).implId
          ((info.state s).next.getD (info.raw.alpha_remap b) 0)) := by
  -- ---- transfers through populate and allocateFSN8 ----
  have q1 : (c8info1 info cc).raw = info.raw :=
    (populate_preserve info cc.grey.accelerateDFA).1
  have hsz1 : (c8info1 info cc).size = info.size := by
    rw [DfaInfo.size, q1]
    rfl
  have hpos1 : 0 < (c8info1 info cc).size := by
    rw [hsz1]
    exact hpos
  have hstate1 : ∀ j, (c8info1 info cc).state j = info.state j := by
    intro j
    rw [DfaInfo.state, DfaInfo.state, q1]
  obtain ⟨u1, u2, u3, u4, u5, u6, u7, u8, u9⟩ := allocateFSN8_spec (c8info1 info cc) hpos1
  have hsize2 : (c8info2 info cc).size = info.size := by
    have : (c8info2 info cc).size = (c8info1 info cc).size := u1
    rw [this]
    exact hsz1
  have hstate2n : ∀ j, ((c8info2 info cc).state j).next = (info.state j).next := by
    intro j
    have : ((c8info2 info cc).state j).next = ((c8info1 info cc).state j).next :=
      (u3 j).1
    rw [this, hstate1 j]
  have halpha2 : (c8info2 info cc).implAlphaSize = info.implAlphaSize := by
    apply implAlphaSize_congr
    have : (c8info2 info cc).raw.alpha_size = (c8info1 info cc).raw.alpha_size := u4
    rw [this, q1]
  have hremap2 : (c8info2 info cc).raw.alpha_remap = info.raw.alpha_remap := by
    have : (c8info2 info cc).raw.alpha_remap = (c8info1 info cc).raw.alpha_remap := u5
    rw [this, q1]
  have hfloat2 : (c8info2 info cc).raw.start_floating = info.raw.start_floating := by
    have : (c8info2 info cc).raw.start_floating =
        (c8info1 info cc).raw.start_floating := u7
    rw [this, q1]
  have hinj1 := allocateFSN8_inj (c8info1 info cc) hpos1
  have hlt1 := allocateFSN8_impl_lt (c8info1 info cc) hpos1
  have hinj2 : ∀ a b, a < info.size → b < info.size →
      (c8info2 info cc).implId a = (c8info2 info cc).implId b → a = b := by
    intro a b ha hb heq
    apply hinj1 a b (by rw [hsz1]; exact ha) (by rw [hsz1]; exact hb)
    exact heq
  have hlt2 : ∀ s, s < info.size → (c8info2 info cc).implId s < info.size := by
    intro s hs
    have := hlt1 s (by rw [hsz1]; exact hs)
    rw [hsz1] at this
    exact this
  -- ---- arithmetic bounds ----
  have hshift : info.implAlphaSize ≤ 2 ^ info.getAlphaShift := by
    apply implAlphaSize_le_shift
    have hle : info.implAlphaSize ≤ info.raw.alpha_size := Nat.sub_le _ _
    omega
  have halpha2' : (c8info2 info cc).implAlphaSize ≤ 2 ^ info.getAlphaShift := by
    rw [halpha2]
    exact hshift
  have hv14 : ∀ v, v < info.size → v < 2 ^ 14 := fun v hv => by omega
  have htgt' : ∀ s, s < info.size → ∀ j, j < info.implAlphaSize →
      (info.state s).next.getD j 0 < info.size := by
    intro s hs j hj
    have hlen : j < (info.state s).next.length := by
      rw [hrow s hs]
      have hle : info.implAlphaSize ≤ info.raw.alpha_size := Nat.sub_le _ _
      omega
    rw [List.getD_eq_getElem?_getD, List.getElem?_eq_getElem hlen, Option.getD_some]
    exact htgt s hs _ (List.getElem_mem _)
  -- ---- table content ----
  have hinj2' : ∀ a b, a < (c8info2 info cc).size → b < (c8info2 info cc).size →
      (c8info2 info cc).implId a = (c8info2 info cc).implId b → a = b := by
    rw [hsize2]
    exact hinj2
  have hE1 : (c8img info cc).tbl = (c8asm1 info cc).tbl := rfl
  have hE2 : (c8img info cc).aux = (c8asm1 info cc).aux := rfl
  have hlook : ∀ s, s < info.size →
      (∀ j, j < info.implAlphaSize →
        (c8asm1 info cc).tbl
          ((c8info2 info cc).implId s * 2 ^ info.getAlphaShift + j) =
          (c8info2 info cc).implId ((info.state s).next.getD j 0)) ∧
      ((c8asm1 info cc).aux ((c8info2 info cc).implId s)).top =
        (fillInAux (c8info2 info cc) s (c8g info).reports (c8g info).reports_eod
          (c8reportOffsets info cc) defaultAux).top := by
    intro s hs
    have hmain := basicFold_lookup (c8info2 info cc) (c8g info).reports
      (c8g info).reports_eod (c8reportOffsets info cc) info.getAlphaShift
      halpha2' hinj2' (List.range (c8info2 info cc).size)
      ⟨fun _ => 0, fun _ => defaultAux, c8accel_offset info cc⟩
      (List.nodup_range _) (fun y hy => List.mem_range.1 hy)
      s (List.mem_range.2 (by omega))
    refine ⟨?_, hmain.2.2.2⟩
    intro j hj
    have hcall := hmain.1 j (by rw [halpha2]; exact hj)
    rw [hstate2n] at hcall
    exact hcall
  have htop : ∀ s, s < info.size →
      (fillInAux (c8info2 info cc) s (c8g info).reports (c8g info).reports_eod
        (c8reportOffsets info cc) defaultAux).top =
      (c8info2 info cc).implId
        (if s = 0 then info.raw.start_floating
         else (info.state s).next.getD (info.raw.alpha_remap TOP) 0) := by
    intro s hs
    rw [fillInAux]
    by_cases hz : s = 0
    · subst hz
      rw [if_pos rfl, if_pos rfl, hfloat2]
    · rw [if_neg hz, if_neg hz, hstate2n, hremap2]
  refine ⟨hsize2, hlt2, ?_, hstate2n, hfloat2, halpha2, ?_, ?_, ?_⟩
  · show (c8info2 info cc).raw.alpha_remap = info.raw.alpha_remap
    exact hremap2
  · intro s hs j hj
    rw [hE1]
    exact (hlook s hs).1 j hj
  · intro s hs
    rw [hE2, (hlook s hs).2]
    exact htop s hs
  · intro s hs b hb
    have hsym : info.raw.alpha_remap b < info.implAlphaSize := hremap b hb
    have hrm : (c8img info cc).remap b = info.raw.alpha_remap b := by
      show (c8info2 info cc).raw.alpha_remap b = _
      rw [hremap2]
    rw [decode8, hrm]
    rw [show (c8img info cc).alphaShift = info.getAlphaShift from rfl]
    rw [Nat.shiftLeft_eq, hE1, (hlook s hs).1 _ hsym]
    exact and_state_mask_of_lt _ (hv14 _ (hlt2 _ (htgt' s hs _ hsym)))

/-! ### Lemmas: from a well-formed raw DFA to the daddy-pass output -/

lemma state_mem (raw : RawDFA) (s : Nat) (h : s < raw.states.length) :
    raw.state s ∈ raw.states := by
  rw [RawDFA.state, List.getD_eq_getElem?_getD, List.getElem?_eq_getElem h,
    Option.getD_some]
  exact List.getElem_mem _

lemma strip_state (raw : RawDFA) : ∀ j,
    ((stripExtraEodReports raw).state j).next = (raw.state j).next ∧
    ((stripExtraEodReports raw).state j).reports = (raw.state j).reports := by
  intro j
  rw [RawDFA.state, RawDFA.state, stripExtraEodReports]
  rw [List.getD_eq_getElem?_getD, List.getD_eq_getElem?_getD, List.getElem?_map]
  cases hj : raw.states[j]? with
  | none => exact ⟨rfl, rfl⟩
  | some st => exact ⟨rfl, rfl⟩

lemma rawStrip_facts (raw : RawDFA) (cc : CompileContext) :
    (rawStrip raw cc).states.length = raw.states.length ∧
    (rawStrip raw cc).alpha_size = raw.alpha_size ∧
    (rawStrip raw cc).alpha_remap = raw.alpha_remap ∧
    (rawStrip raw cc).start_anchored = raw.start_anchored ∧
    (rawStrip raw cc).start_floating = raw.start_floating ∧
    (∀ j, ((rawStrip raw cc).state j).next = (raw.state j).next ∧
          ((rawStrip raw cc).state j).reports = (raw.state j).reports) := by
  rw [rawStrip]
  split
  · exact ⟨rfl, rfl, rfl, rfl, rfl, fun j => ⟨rfl, rfl⟩⟩
  · refine ⟨?_, rfl, rfl, rfl, rfl, strip_state raw⟩
    rw [stripExtraEodReports]
    exact List.length_map _ _

lemma fbd_foldl_preserve (u8 cyc : Bool) (grey : Grey) :
    ∀ (l : List Nat) (info : DfaInfo),
      (l.foldl (fun inf i => find_better_daddy inf i u8 cyc grey) info).size =
        info.size ∧
      (l.foldl (fun inf i => find_better_daddy inf i u8 cyc grey) info).extra.length =
        info.extra.length ∧
      (l.foldl (fun inf i => find_better_daddy inf i u8 cyc grey) info).raw.alpha_size =
        info.raw.alpha_size ∧
      (l.foldl (fun inf i => find_better_daddy inf i u8 cyc grey) info).raw.alpha_remap =
        info.raw.alpha_remap ∧
      (l.foldl (fun inf i => find_better_daddy inf i u8 cyc grey)
        info).raw.start_anchored = info.raw.start_anchored ∧
      (l.foldl (fun inf i => find_better_daddy inf i u8 cyc grey)
        info).raw.start_floating = info.raw.start_floating ∧
      (∀ j, ((l.foldl (fun inf i => find_better_daddy inf i u8 cyc grey)
          info).state j).next = (info.state j).next ∧
        ((l.foldl (fun inf i => find_better_daddy inf i u8 cyc grey)
          info).state j).reports = (info.state j).reports ∧
        ((l.foldl (fun inf i => find_better_daddy inf i u8 cyc grey)
          info).state j).reports_eod = (info.state j).reports_eod) := by
  intro l
  induction l with
  | nil =>
    intro info
    exact ⟨rfl, rfl, rfl, rfl, rfl, rfl, fun j => ⟨rfl, rfl, rfl⟩⟩
  | cons x xs ih =>
    intro info
    rw [List.foldl_cons]
    obtain ⟨i1, i2, i3, i4, i5, i6, i7⟩ := ih (find_better_daddy info x u8 cyc grey)
    obtain ⟨q1, q2, q3, q4, q5, q6, _, q8, _⟩ := fbd_preserve info x u8 cyc grey
    refine ⟨i1.trans q1, i2.trans q2, i3.trans q3, i4.trans q4, i5.trans q5,
      i6.trans q6, ?_⟩
    intro j
    exact ⟨(i7 j).1.trans (q8 j).1, (i7 j).2.1.trans (q8 j).2.1,
      (i7 j).2.2.trans (q8 j).2.2.1⟩

lemma info0_extraAt (raw : RawDFA) (cc : CompileContext) (j : Nat) :
    (info0Of raw cc).extraAt j = defaultExtra := by
  rw [DfaInfo.extraAt]
  show (List.replicate (rawStrip raw cc).states.length defaultExtra).getD j
    defaultExtra = defaultExtra
  simp [List.getD_eq_getElem?_getD, List.getElem?_replicate]
  split <;> rfl

lemma info1Of_shermanOK (raw : RawDFA) (cc : CompileContext)
    (ha1 : 1 ≤ raw.getImplAlphaSize) :
    ShermanOK (info1Of raw cc) := by
  rw [info1Of]
  obtain ⟨r1, r2, _, _, _, _⟩ := rawStrip_facts raw cc
  apply fbd_fold_shermanOK
  · exact List.sorted_lt_range _
  · intro i hi
    constructor
    · exact List.mem_range.1 hi
    · show i < (List.replicate (rawStrip raw cc).states.length defaultExtra).length
      rw [List.length_replicate]
      exact List.mem_range.1 hi
  · show 1 ≤ (rawStrip raw cc).alpha_size - N_SPECIAL_SYMBOL
    rw [r2]
    exact ha1
  · intro s hsh
    rw [DfaInfo.isSherman, info0_extraAt] at hsh
    cases hsh
  · intro s hsh
    rw [DfaInfo.isSherman, info0_extraAt] at hsh
    cases hsh

lemma info1Of_wf (raw : RawDFA) (cc : CompileContext) (hwf : WfRawDFA raw) :
    0 < (info1Of raw cc).size ∧
    1 ≤ (info1Of raw cc).implAlphaSize ∧
    (info1Of raw cc).raw.alpha_size ≤ 65536 ∧
    (∀ s, s < (info1Of raw cc).size →
      ((info1Of raw cc).state s).next.length = (info1Of raw cc).raw.alpha_size) ∧
    (∀ s, s < (info1Of raw cc).size →
      ∀ t ∈ ((info1Of raw cc).state s).next, t < (info1Of raw cc).size) ∧
    (∀ b, b < 256 →
      (info1Of raw cc).raw.alpha_remap b < (info1Of raw cc).implAlphaSize) ∧
    (info1Of raw cc).size = raw.states.length ∧
    (info1Of raw cc).raw.alpha_remap = raw.alpha_remap ∧
    (info1Of raw cc).raw.start_floating = raw.start_floating ∧
    (∀ j, ((info1Of raw cc).state j).next = (raw.state j).next) := by
  obtain ⟨w1, w2, w3, w4, w5, w6, w7, w8⟩ := hwf
  obtain ⟨r1, r2, r3, r4, r5, r6⟩ := rawStrip_facts raw cc
  obtain ⟨f1, f2, f3, f4, f5, f6, f7⟩ := fbd_foldl_preserve (using8 raw cc)
    (cycNear raw cc) cc.grey (List.range (info0Of raw cc).size) (info0Of raw cc)
  have hbase_size : (info0Of raw cc).size = raw.states.length := by
    show (rawStrip raw cc).states.length = raw.states.length
    exact r1
  have hsize : (info1Of raw cc).size = raw.states.length := by
    rw [info1Of, f1]
    exact hbase_size
  have halpha : (info1Of raw cc).raw.alpha_size = raw.alpha_size := by
    rw [info1Of, f3]
    exact r2
  have hremapF : (info1Of raw cc).raw.alpha_remap = raw.alpha_remap := by
    rw [info1Of, f4]
    exact r3
  have hfloat : (info1Of raw cc).raw.start_floating = raw.start_floating := by
    rw [info1Of, f6]
    exact r5
  have hnext : ∀ j, ((info1Of raw cc).state j).next = (raw.state j).next := by
    intro j
    rw [info1Of, (f7 j).1]
    exact (r6 j).1
  have himplA : (info1Of raw cc).implAlphaSize = raw.getImplAlphaSize := by
    rw [DfaInfo.implAlphaSize, RawDFA.getImplAlphaSize, RawDFA.getImplAlphaSize,
      halpha]
  refine ⟨?_, ?_, ?_, ?_, ?_, ?_, hsize, hremapF, hfloat, hnext⟩
  · rw [hsize]
    omega
  · rw [himplA]
    exact w1
  · rw [halpha]
    exact w2
  · intro s hs
    rw [hnext s, halpha]
    rw [hsize] at hs
    exact (w3 _ (state_mem raw s hs)).1
  · intro s hs t ht
    rw [hsize] at hs
    rw [hnext s] at ht
    rw [hsize]
    exact (w3 _ (state_mem raw s hs)).2 t ht
  · intro b hb
    rw [hremapF, himplA]
    exact w4 b hb

/-! ### Lemmas: inverting the public entry's outcome -/

lemma compile_i_img16_inv (raw : RawDFA) (cc : CompileContext) (img : Image16)
    (raw1 : RawDFA)
    (hc : mcclellanCompile_i raw cc = (CompileOutcome.img16 img, raw1)) :
    using8 raw cc = false ∧
    (allocateFSN16 (info1Of raw cc)).2.2 = true ∧
    img = { c16img (info1Of raw cc) cc with
            accepts_eod := hasEodReports (rawStrip raw cc) } ∧
    raw1 = (c16info2 (info1Of raw cc) cc).raw := by
  rw [mcclellanCompile_i_eq] at hc
  by_cases hu : using8 raw cc = false
  · rw [if_pos hu] at hc
    by_cases hfail : (allocateFSN16 (info1Of raw cc)).2.2 = false
    · have h16 : (mcclellanCompile16 (info1Of raw cc) cc).1 = none := by
        rw [mcclellanCompile16_eq, if_pos hfail]
      rw [h16] at hc
      have hc' : (if hasEodReports (rawStrip raw cc) then
          (CompileOutcome.nullDeref, (mcclellanCompile16 (info1Of raw cc) cc).2.raw)
        else (CompileOutcome.nullHandle,
          (mcclellanCompile16 (info1Of raw cc) cc).2.raw)) =
          (CompileOutcome.img16 img, raw1) := hc
      split at hc' <;> simp at hc'
    · have hok : (allocateFSN16 (info1Of raw cc)).2.2 = true := by
        cases h : (allocateFSN16 (info1Of raw cc)).2.2
        · exact absurd h hfail
        · rfl
      have h16 : (mcclellanCompile16 (info1Of raw cc) cc).1 =
          some (c16img (info1Of raw cc) cc) := by
        rw [mcclellanCompile16_eq, if_neg hfail]
      have h17 : (mcclellanCompile16 (info1Of raw cc) cc).2 =
          c16info2 (info1Of raw cc) cc := by
        rw [mcclellanCompile16_eq, if_neg hfail]
      rw [h16] at hc
      have hc' : (CompileOutcome.img16
          { c16img (info1Of raw cc) cc with
              accepts_eod := hasEodReports (rawStrip raw cc) },
          (mcclellanCompile16 (info1Of raw cc) cc).2.raw) =
          (CompileOutcome.img16 img, raw1) := hc
      have h1 : CompileOutcome.img16
          { c16img (info1Of raw cc) cc with
              accepts_eod := hasEodReports (rawStrip raw cc) } =
          CompileOutcome.img16 img := congrArg Prod.fst hc'
      have h2 : (mcclellanCompile16 (info1Of raw cc) cc).2.raw = raw1 :=
        congrArg Prod.snd hc'
      injection h1 with h1'
      refine ⟨hu, hok, h1'.symm, ?_⟩
      rw [← h2, h17]
  · rw [if_neg hu] at hc
    have hc' : (CompileOutcome.img8
        { (mcclellanCompile8 (info1Of raw cc) cc).1 with
            accepts_eod := hasEodReports (rawStrip raw cc) },
        (mcclellanCompile8 (info1Of raw cc) cc).2.raw) =
        (CompileOutcome.img16 img, raw1) := hc
    have h1 : CompileOutcome.img8
        { (mcclellanCompile8 (info1Of raw cc) cc).1 with
            accepts_eod := hasEodReports (rawStrip raw cc) } =
        CompileOutcome.img16 img := congrArg Prod.fst hc'
    cases h1

lemma compile_i_img8_inv (raw : RawDFA) (cc : CompileContext) (img : Image8)
    (raw1 : RawDFA)
    (hc : mcclellanCompile_i raw cc = (CompileOutcome.img8 img, raw1)) :
    using8 raw cc = true ∧
    img = { c8img (info1Of raw cc) cc with
            accepts_eod := hasEodReports (rawStrip raw cc) } ∧
    raw1 = (c8info2 (info1Of raw cc) cc).raw := by
  rw [mcclellanCompile_i_eq] at hc
  by_cases hu : using8 raw cc = false
  · rw [if_pos hu] at hc
    cases hm : (mcclellanCompile16 (info1Of raw cc) cc).1 with
    | none =>
      rw [hm] at hc
      have hc' : (if hasEodReports (rawStrip raw cc) then
          (CompileOutcome.nullDeref, (mcclellanCompile16 (info1Of raw cc) cc).2.raw)
        else (CompileOutcome.nullHandle,
          (mcclellanCompile16 (info1Of raw cc) cc).2.raw)) =
          (CompileOutcome.img8 img, raw1) := hc
      split at hc' <;> simp at hc'
    | some i =>
      rw [hm] at hc
      have hc' : (CompileOutcome.img16
          { i with accepts_eod := hasEodReports (rawStrip raw cc) },
          (mcclellanCompile16 (info1Of raw cc) cc).2.raw) =
          (CompileOutcome.img8 img, raw1) := hc
      have h1 : CompileOutcome.img16
          { i with accepts_eod := hasEodReports (rawStrip raw cc) } =
          CompileOutcome.img8 img := congrArg Prod.fst hc'
      cases h1
  · have hu' : using8 raw cc = true := by
      cases h : using8 raw cc
      · exact absurd h hu
      · rfl
    rw [if_neg hu] at hc
    have hc' : (CompileOutcome.img8
        { c8img (info1Of raw cc) cc with
            accepts_eod := hasEodReports (rawStrip raw cc) },
        (c8info2 (info1Of raw cc) cc).raw) =
        (CompileOutcome.img8 img, raw1) := hc
    have h1 : CompileOutcome.img8
        { c8img (info1Of raw cc) cc with
            accepts_eod := hasEodReports (rawStrip raw cc) } =
        CompileOutcome.img8 img := congrArg Prod.fst hc'
    have h2 : (c8info2 (info1Of raw cc) cc).raw = raw1 := congrArg Prod.snd hc'
    injection h1 with h1'
    exact ⟨hu', h1'.symm, h2.symm⟩

lemma using8_size (raw : RawDFA) (cc : CompileContext)
    (hu : using8 raw cc = true) : (info1Of raw cc).size ≤ 256 := by
  rw [using8, Bool.and_eq_true, decide_eq_true_eq] at hu
  have hf : (info1Of raw cc).size = (info0Of raw cc).size := by
    rw [info1Of]
    exact (fbd_foldl_preserve _ _ _ _ _).1
  rw [hf]
  exact hu.2

lemma and_flag_zero_of_lt (u : Nat) (h : u < 2 ^ 14) :
    u &&& ACCEPT_FLAG = 0 ∧ u &&& ACCEL_FLAG = 0 := by
  constructor
  · by_contra hne
    rw [accept_flag_pow] at hne
    have hb := (and_two_pow_ne_iff u 15).1 hne
    rw [Nat.testBit_lt_two_pow (lt_of_lt_of_le h (by norm_num))] at hb
    cases hb
  · by_contra hne
    rw [accel_flag_pow] at hne
    have hb := (and_two_pow_ne_iff u 14).1 hne
    rw [Nat.testBit_lt_two_pow h] at hb
    cases hb

lemma decode16_congr (a b : Image16)
    (h1 : a.alphaShift = b.alphaShift) (h2 : a.remap = b.remap)
    (h3 : a.sherman_limit = b.sherman_limit) (h4 : a.tbl = b.tbl)
    (h5 : a.sherms = b.sherms) :
    ∀ p q, decode16 a p q = decode16 b p q := by
  intro p q
  rw [decode16, decode16, h1, h2, h3, h4, h5]

lemma decode8_congr (a b : Image8)
    (h1 : a.alphaShift = b.alphaShift) (h2 : a.remap = b.remap)
    (h4 : a.tbl = b.tbl) :
    ∀ p q, decode8 a p q = decode8 b p q := by
  intro p q
  rw [decode8, decode8, h1, h2, h4]

/-- **C1**: for every well-formed raw DFA that compiles successfully (either
path), decoding the image at `(impl_id(s), b)` — masked table read for normal
states, override-list scan with daddy fallback for Sherman states — yields
exactly `impl_id(s.next[alpha_remap[b]])` of the mutated raw DFA. -/
theorem c1_decode_equivalence (raw : RawDFA) (cc : CompileContext)
    (hwf : WfRawDFA raw) :
    Decode16Agrees raw cc ∧ Decode8Agrees raw cc := by
  obtain ⟨w0, w1, w2, w3, w4, w5, wsz, wrm, wfl, wnx⟩ := info1Of_wf raw cc hwf
  constructor
  · intro img raw1 hc s hs b hb
    obtain ⟨hu, hok, himg, hraw1⟩ := compile_i_img16_inv raw cc img raw1 hc
    subst himg
    subst hraw1
    obtain ⟨m1, m2, m3, m4, m5, m6, m7, m8, m9, m10, m11, m12, m13⟩ :=
      c16_master (info1Of raw cc) cc w0 w1 w2 w3 w4 w5 hok
        (info1Of_shermanOK raw cc hwf.1)
    have hs0 : s < (c16info2 (info1Of raw cc) cc).size := hs
    rw [m1] at hs0
    have e1 : ∀ p q, decode16
        { c16img (info1Of raw cc) cc with
            accepts_eod := hasEodReports (rawStrip raw cc) } p q =
        decode16 (c16img (info1Of raw cc) cc) p q :=
      decode16_congr _ _ rfl rfl rfl rfl rfl
    have e3 : ∀ t, ((c16info2 (info1Of raw cc) cc).raw.state t).impl_id =
        (c16info2 (info1Of raw cc) cc).implId t := fun _ => rfl
    have e4 : ∀ t, ((c16info2 (info1Of raw cc) cc).raw.state t).next =
        ((c16info2 (info1Of raw cc) cc).state t).next := fun _ => rfl
    have e5 : (c16info2 (info1Of raw cc) cc).raw.alpha_remap =
        (info1Of raw cc).raw.alpha_remap := m6
    rw [e1]
    simp only [e3, e4, m7, e5]
    exact m13 s hs0 b hb
  · intro img raw1 hc s hs b hb
    obtain ⟨hu, himg, hraw1⟩ := compile_i_img8_inv raw cc img raw1 hc
    subst himg
    subst hraw1
    obtain ⟨n1, n2, n3, n4, n5, n6, n7, n8, n9⟩ :=
      c8_master (info1Of raw cc) cc w0 w2 w3 w4 w5 (using8_size raw cc hu)
    have hs0 : s < (c8info2 (info1Of raw cc) cc).size := hs
    rw [n1] at hs0
    have e1 : ∀ p q, decode8
        { c8img (info1Of raw cc) cc with
            accepts_eod := hasEodReports (rawStrip raw cc) } p q =
        decode8 (c8img (info1Of raw cc) cc) p q :=
      decode8_congr _ _ rfl rfl rfl
    have e3 : ∀ t, ((c8info2 (info1Of raw cc) cc).raw.state t).impl_id =
        (c8info2 (info1Of raw cc) cc).implId t := fun _ => rfl
    have e4 : ∀ t, ((c8info2 (info1Of raw cc) cc).raw.state t).next =
        ((c8info2 (info1Of raw cc) cc).state t).next := fun _ => rfl
    have e5 : (c8info2 (info1Of raw cc) cc).raw.alpha_remap =
        (info1Of raw cc).raw.alpha_remap := n3
    rw [e1]
    simp only [e3, e4, n4, e5]
    exact n9 s hs0 b hb

set_option maxHeartbeats 4000000 in
theorem c1_decode_equivalence_witness :
    WfRawDFA dfaT ∧ (Decode16Agrees dfaT cc16 ∧ Decode8Agrees dfaT cc16) :=
  ⟨by decide, c1_decode_equivalence dfaT cc16 (by decide)⟩

/-- **C8**: on both assembly paths, the aux record of the dead state (impl
index 0) has `top = impl_id(start_floating)`, and every other state's aux
`top` is `impl_id(next[alpha_remap[TOP]])`. -/
theorem c8_aux_top (raw : RawDFA) (cc : CompileContext) (hwf : WfRawDFA raw) :
    AuxTop16 raw cc ∧ AuxTop8 raw cc := by
  obtain ⟨w0, w1, w2, w3, w4, w5, wsz, wrm, wfl, wnx⟩ := info1Of_wf raw cc hwf
  constructor
  · intro img raw1 hc s hs
    obtain ⟨hu, hok, himg, hraw1⟩ := compile_i_img16_inv raw cc img raw1 hc
    subst himg
    subst hraw1
    obtain ⟨m1, m2, m3, m4, m5, m6, m7, m8, m9, m10, m11, m12, m13⟩ :=
      c16_master (info1Of raw cc) cc w0 w1 w2 w3 w4 w5 hok
        (info1Of_shermanOK raw cc hwf.1)
    have hs0 : s < (c16info2 (info1Of raw cc) cc).size := hs
    rw [m1] at hs0
    have e0 : ({ c16img (info1Of raw cc) cc with
        accepts_eod := hasEodReports (rawStrip raw cc) } : Image16).aux =
        (c16img (info1Of raw cc) cc).aux := rfl
    have e3 : ∀ t, ((c16info2 (info1Of raw cc) cc).raw.state t).impl_id =
        (c16info2 (info1Of raw cc) cc).implId t := fun _ => rfl
    have e4 : ∀ t, ((c16info2 (info1Of raw cc) cc).raw.state t).next =
        ((c16info2 (info1Of raw cc) cc).state t).next := fun _ => rfl
    have e5 : (c16info2 (info1Of raw cc) cc).raw.alpha_remap =
        (info1Of raw cc).raw.alpha_remap := m6
    have e6 : (c16info2 (info1Of raw cc) cc).raw.start_floating =
        (info1Of raw cc).raw.start_floating := m8
    rw [e0]
    simp only [e3, e4, m7, e5, e6]
    exact m12 s hs0
  · intro img raw1 hc s hs
    obtain ⟨hu, himg, hraw1⟩ := compile_i_img8_inv raw cc img raw1 hc
    subst himg
    subst hraw1
    obtain ⟨n1, n2, n3, n4, n5, n6, n7, n8, n9⟩ :=
      c8_master (info1Of raw cc) cc w0 w2 w3 w4 w5 (using8_size raw cc hu)
    have hs0 : s < (c8info2 (info1Of raw cc) cc).size := hs
    rw [n1] at hs0
    have e0 : ({ c8img (info1Of raw cc) cc with
        accepts_eod := hasEodReports (rawStrip raw cc) } : Image8).aux =
        (c8img (info1Of raw cc) cc).aux := rfl
    have e3 : ∀ t, ((c8info2 (info1Of raw cc) cc).raw.state t).impl_id =
        (c8info2 (info1Of raw cc) cc).implId t := fun _ => rfl
    have e4 : ∀ t, ((c8info2 (info1Of raw cc) cc).raw.state t).next =
        ((c8info2 (info1Of raw cc) cc).state t).next := fun _ => rfl
    have e5 : (c8info2 (info1Of raw cc) cc).raw.alpha_remap =
        (info1Of raw cc).raw.alpha_remap := n3
    have e6 : (c8info2 (info1Of raw cc) cc).raw.start_floating =
        (info1Of raw cc).raw.start_floating := n5
    rw [e0]
    simp only [e3, e4, n4, e5, e6]
    exact n8 s hs0

set_option maxHeartbeats 4000000 in
theorem c8_aux_top_witness :
    WfRawDFA dfa2 ∧ (AuxTop16 dfa2 cc16 ∧ AuxTop8 dfa2 cc16) :=
  ⟨by decide, c8_aux_top dfa2 cc16 (by decide)⟩

/-- **C2** (amended): in a 16-bit image, every stored successor slot (normal
rows and Sherman override lists) has ACCEPT_FLAG set iff the target's aux
`accept` is non-zero and ACCEL_FLAG set iff the target's aux `accel_offset`
is non-zero; in an 8-bit image the stored bytes are bare implementation ids
with no flag bits, so the claim's iff fails there (see the counterexample). -/
theorem c2_successor_flags (raw : RawDFA) (cc : CompileContext)
    (hwf : WfRawDFA raw) :
    Flags16Agree raw cc ∧ Slots8Bare raw cc := by
  obtain ⟨w0, w1, w2, w3, w4, w5, wsz, wrm, wfl, wnx⟩ := info1Of_wf raw cc hwf
  constructor
  · intro img raw1 hc s hs
    obtain ⟨hu, hok, himg, hraw1⟩ := compile_i_img16_inv raw cc img raw1 hc
    subst himg
    subst hraw1
    obtain ⟨m1, m2, m3, m4, m5, m6, m7, m8, m9, m10, m11, m12, m13⟩ :=
      c16_master (info1Of raw cc) cc w0 w1 w2 w3 w4 w5 hok
        (info1Of_shermanOK raw cc hwf.1)
    have hs0 : s < (c16info2 (info1Of raw cc) cc).size := hs
    rw [m1] at hs0
    have hov : ¬ (1 <<< 16 < ((info1Of raw cc).setImpl 0 0).size) := by
      rw [size_setImpl]
      intro hbad
      rw [allocateFSN16_overflow _ hbad] at hok
      cases hok
    have hmask := (allocateFSN16_ok _ hov).1 hok
    have hsz14 : (info1Of raw cc).size - 1 < 2 ^ 14 := by
      have hmm : ((info1Of raw cc).size - 1) % 2 ^ 14 =
          (info1Of raw cc).size - 1 := by
        have hST : STATE_MASK = 2 ^ 14 - 1 := rfl
        rw [hST, Nat.and_pow_two_sub_one_eq_mod] at hmask
        exact hmask
      rw [← hmm]
      exact Nat.mod_lt _ (by norm_num)
    have htgt' : ∀ t, t < (info1Of raw cc).size →
        ∀ j, j < (info1Of raw cc).implAlphaSize →
        ((info1Of raw cc).state t).next.getD j 0 < (info1Of raw cc).size := by
      intro t ht j hj
      have hlen : j < ((info1Of raw cc).state t).next.length := by
        rw [w3 t ht]
        have hle : (info1Of raw cc).implAlphaSize ≤
            (info1Of raw cc).raw.alpha_size := Nat.sub_le _ _
        omega
      rw [List.getD_eq_getElem?_getD, List.getElem?_eq_getElem hlen,
        Option.getD_some]
      exact w4 t ht _ (List.getElem_mem _)
    have e0tbl : ({ c16img (info1Of raw cc) cc with
        accepts_eod := hasEodReports (rawStrip raw cc) } : Image16).tbl =
        (c16img (info1Of raw cc) cc).tbl := rfl
    have e0aux : ({ c16img (info1Of raw cc) cc with
        accepts_eod := hasEodReports (rawStrip raw cc) } : Image16).aux =
        (c16img (info1Of raw cc) cc).aux := rfl
    have e3 : ∀ t, ((c16info2 (info1Of raw cc) cc).raw.state t).impl_id =
        (c16info2 (info1Of raw cc) cc).implId t := fun _ => rfl
    constructor
    · intro hlim j hj
      have hlim' : (c16info2 (info1Of raw cc) cc).implId s < c16base (info1Of raw cc) :=
        hlim
      have hns : (info1Of raw cc).isSherman s = false := by
        cases h : (info1Of raw cc).isSherman s with
        | false => rfl
        | true => exact absurd (m5 s hs0 h) (by omega)
      have hj' : j < (info1Of raw cc).implAlphaSize := by
        have hj0 : j < (c16info2 (info1Of raw cc) cc).implAlphaSize := hj
        rw [m9] at hj0
        exact hj0
      have hu14 : (c16info2 (info1Of raw cc) cc).implId
          (((info1Of raw cc).state s).next.getD j 0) < 2 ^ 14 := by
        have := m3 _ (htgt' s hs0 j hj')
        omega
      have e0shift : (c16img (info1Of raw cc) cc).alphaShift =
          (info1Of raw cc).getAlphaShift := rfl
      rw [e0tbl, e0aux]
      simp only [e3]
      rw [Nat.shiftLeft_eq, e0shift, m10 s hs0 hns j hj']
      rw [flagSucc_mask _ _ hu14]
      exact ⟨flagSucc_accept_iff _ _ hu14, flagSucc_accel_iff _ _ hu14⟩
    · intro hlim v hv
      have hlim' : c16base (info1Of raw cc) ≤
          (c16info2 (info1Of raw cc) cc).implId s := hlim
      have hsh : (info1Of raw cc).isSherman s = true := by
        cases h : (info1Of raw cc).isSherman s with
        | false => exact absurd (m4 s hs0 h) (by omega)
        | true => rfl
      have hv' : v ∈ ((c16img (info1Of raw cc) cc).sherms
          ((c16info2 (info1Of raw cc) cc).implId s -
            c16base (info1Of raw cc))).succs := hv
      rw [(m11 s hs0 hsh).2.2.2] at hv'
      obtain ⟨x, hx, rfl⟩ := List.mem_map.1 hv'
      have hxa : x < (info1Of raw cc).implAlphaSize := by
        rw [diffChars, List.mem_filter, List.mem_range] at hx
        exact hx.1
      have hu14 : (c16info2 (info1Of raw cc) cc).implId
          (((info1Of raw cc).state s).next.getD x 0) < 2 ^ 14 := by
        have := m3 _ (htgt' s hs0 x hxa)
        omega
      rw [e0aux, flagSucc_mask _ _ hu14]
      exact ⟨flagSucc_accept_iff _ _ hu14, flagSucc_accel_iff _ _ hu14⟩
  · intro img raw1 hc s hs j hj
    obtain ⟨hu, himg, hraw1⟩ := compile_i_img8_inv raw cc img raw1 hc
    subst himg
    subst hraw1
    obtain ⟨n1, n2, n3, n4, n5, n6, n7, n8, n9⟩ :=
      c8_master (info1Of raw cc) cc w0 w2 w3 w4 w5 (using8_size raw cc hu)
    have hs0 : s < (c8info2 (info1Of raw cc) cc).size := hs
    rw [n1] at hs0
    have hj' : j < (info1Of raw cc).implAlphaSize := by
      have hj0 : j < (c8info2 (info1Of raw cc) cc).implAlphaSize := hj
      rw [n6] at hj0
      exact hj0
    have htgt' : ∀ t, t < (info1Of raw cc).size →
        ∀ k, k < (info1Of raw cc).implAlphaSize →
        ((info1Of raw cc).state t).next.getD k 0 < (info1Of raw cc).size := by
      intro t ht k hk
      have hlen : k < ((info1Of raw cc).state t).next.length := by
        rw [w3 t ht]
        have hle : (info1Of raw cc).implAlphaSize ≤
            (info1Of raw cc).raw.alpha_size := Nat.sub_le _ _
        omega
      rw [List.getD_eq_getElem?_getD, List.getElem?_eq_getElem hlen,
        Option.getD_some]
      exact w4 t ht _ (List.getElem_mem _)
    have hu14 : (c8info2 (info1Of raw cc) cc).implId
        (((info1Of raw cc).state s).next.getD j 0) < 2 ^ 14 := by
      have h1 := n2 _ (htgt' s hs0 j hj')
      have h2 := using8_size raw cc hu
      omega
    have e0tbl : ({ c8img (info1Of raw cc) cc with
        accepts_eod := hasEodReports (rawStrip raw cc) } : Image8).tbl =
        (c8img (info1Of raw cc) cc).tbl := rfl
    have e3 : ∀ t, ((c8info2 (info1Of raw cc) cc).raw.state t).impl_id =
        (c8info2 (info1Of raw cc) cc).implId t := fun _ => rfl
    have e4 : ∀ t, ((c8info2 (info1Of raw cc) cc).raw.state t).next =
        ((c8info2 (info1Of raw cc) cc).state t).next := fun _ => rfl
    have e0shift : (c8img (info1Of raw cc) cc).alphaShift =
        (info1Of raw cc).getAlphaShift := rfl
    rw [e0tbl]
    simp only [e3, e4, n4]
    rw [Nat.shiftLeft_eq, e0shift, n7 s hs0 j hj']
    obtain ⟨hf1, hf2⟩ := and_flag_zero_of_lt _ hu14
    exact ⟨hf1, hf2, rfl⟩

set_option maxHeartbeats 4000000 in
theorem c2_successor_flags_witness :
    WfRawDFA dfaT ∧ (Flags16Agree dfaT cc16 ∧ Slots8Bare dfaT cc16) :=
  ⟨by decide, c2_successor_flags dfaT cc16 (by decide)⟩

set_option maxHeartbeats 4000000 in
/-- **C2** counterexample: on the 8-bit path (`dfa2` under `cc8`), the stored
slot for state impl 1 on symbol 0 encodes the accepting state impl 1 (its aux
`accept` offset is non-zero), yet ACCEPT_FLAG is not set in the slot — the
u8 layout never stores flag bits, contradicting the claim's "both u8 and u16
layouts". -/
theorem c2_successor_flags_cex :
    ((mcclellanCompile_i dfa2 cc8).1.image8.map (fun img =>
      decide (img.tbl ((1 <<< img.alphaShift) + 0) &&& STATE_MASK = 1) &&
      decide ((img.aux 1).accept ≠ 0) &&
      decide (img.tbl ((1 <<< img.alphaShift) + 0) &&& ACCEPT_FLAG = 0))) =
    some true := by decide

end McClellan
